import Mathlib

/-!
# redis_fdw: scan engine, qualifier extraction and the array codec

A shallow embedding of `src/redis_fdw.c`.  Character buffers are lists of
characters (`Str`), `long long` values are integers, and a pointer that may be
`NULL` is an `Option`.  Library functions that hand a C string back to the
code (`pstrdup`, `appendStringInfoString`) stop at the first NUL, as in C.
-/

namespace RedisFdw

/-! ## Strings -/

/-- The bytes of a character buffer, `str[0 .. len)`. -/
abbrev Str := List Char

/-- The terminator of a C string. -/
def NUL : Char := Char.ofNat 0

/-- What `strlen`-based library code sees of a buffer: the bytes before the first NUL. -/
def cstr (s : Str) : Str := s.takeWhile (fun c => c != NUL)

/-- Duplicate of a C string, as `pstrdup` makes it. -/
def pstrdup (s : Str) : Str := cstr s

/-- Decimal rendering of a `long long`, the output of the `%lld` conversion. -/
def fmt_lld (i : Int) : Str :=
  if i < 0 then '-' :: Nat.toDigits 10 i.natAbs else Nat.toDigits 10 i.toNat

/-! ## hiredis replies -/

/-- The `REDIS_REPLY_*` codes of hiredis. -/
inductive ReplyType
  | REDIS_REPLY_STRING
  | REDIS_REPLY_ARRAY
  | REDIS_REPLY_INTEGER
  | REDIS_REPLY_NIL
  | REDIS_REPLY_STATUS
  | REDIS_REPLY_ERROR
  deriving DecidableEq, Repr

/-- A `redisReply`: one constructor per reply kind, carrying the fields that kind sets. -/
inductive redisReply
  | string (str : Str)
  | array (element : List redisReply)
  | integer (i : Int)
  | nil
  | status (str : Str)
  | error (str : Str)

namespace redisReply

/-- The field `type`. -/
def type : redisReply → ReplyType
  | string _ => .REDIS_REPLY_STRING
  | array _ => .REDIS_REPLY_ARRAY
  | integer _ => .REDIS_REPLY_INTEGER
  | nil => .REDIS_REPLY_NIL
  | status _ => .REDIS_REPLY_STATUS
  | error _ => .REDIS_REPLY_ERROR

/-- The field `integer`; hiredis zero-fills a reply, so it is 0 for the other kinds. -/
def integer_ : redisReply → Int
  | integer i => i
  | _ => 0

/-- The field `str` (with `len`): the bytes of a string, status or error reply. -/
def str_ : redisReply → Str
  | string s => s
  | status s => s
  | error s => s
  | _ => []

/-- The pointer `str`: `NULL` for the kinds that carry no text. -/
def str_ptr : redisReply → Option Str
  | string s => some s
  | status s => some s
  | error s => some s
  | _ => none

/-- The field `element`; there are `elements` of them, none unless the reply is an array. -/
def element_ : redisReply → List redisReply
  | array es => es
  | _ => []

/-- The field `elements`. -/
def elements (r : redisReply) : Nat := r.element_.length

end redisReply

/-! ## Errors raised with `ereport(ERROR, ...)` -/

/-- The SQLSTATE classes the code passes to `errcode`. -/
inductive ErrCode
  | ERRCODE_FDW_UNABLE_TO_ESTABLISH_CONNECTION
  | ERRCODE_FDW_UNABLE_TO_CREATE_EXECUTION
  | ERRCODE_FDW_UNABLE_TO_CREATE_REPLY
  | ERRCODE_INVALID_PARAMETER_VALUE
  | ERRCODE_CHARACTER_NOT_IN_REPERTOIRE
  | ERRCODE_UNIQUE_VIOLATION
  | ERRCODE_FEATURE_NOT_SUPPORTED
  | ERRCODE_INTERNAL_ERROR
  | ERRCODE_FDW_INVALID_OPTION_NAME
  | ERRCODE_SYNTAX_ERROR
  deriving DecidableEq, Repr

/-- An error report: its code and the format string of its message. -/
structure PgError where
  code : ErrCode
  msg : String
  deriving DecidableEq, Repr

/-! ## process_redis_array (lines 1654-1709) -/

/-- The inner loop `for (j = 0; j < ir->len; j++)`: copies the bytes of the element
behind `crs`, putting a backslash before a double quote or a backslash. -/
def escape_loop : Str → Str → Str
  | [], buff => buff
  | c :: rest, buff =>
    let buff := if c = '"' ∨ c = '\\' then buff ++ ['\\'] else buff
    escape_loop rest (buff ++ [c])

/-- The buffer `buff` once the element has been written: opening quote, escaped
bytes, closing quote and the terminating NUL. -/
def quote_buffer (str : Str) : Str :=
  escape_loop str ['"'] ++ ['"'] ++ [NUL]

/-- The body of `for (i = 0; i < reply->elements; i++)`, run over the elements that
are left, with the `StringInfo` `res` and the flag `need_sep` as loop state.
`pg_verifymbstr` is the server's encoding check (it reports an error itself when the
text is invalid). -/
def process_redis_array_loop (pg_verifymbstr : Str → Bool) :
    List redisReply → Str → Bool → Except PgError Str
  | [], res, _ => .ok res
  | ir :: rest, res, need_sep =>
    let res := if need_sep then res ++ [','] else res
    if ir.type = .REDIS_REPLY_ARRAY then
      .error ⟨.ERRCODE_INVALID_PARAMETER_VALUE, "nested array returns not yet supported"⟩
    else
      match ir.type with
      | .REDIS_REPLY_STATUS | .REDIS_REPLY_STRING =>
        if pg_verifymbstr ir.str_ then
          process_redis_array_loop pg_verifymbstr rest (res ++ cstr (quote_buffer ir.str_)) true
        else
          .error ⟨.ERRCODE_CHARACTER_NOT_IN_REPERTOIRE, "invalid byte sequence for encoding"⟩
      | .REDIS_REPLY_INTEGER =>
        process_redis_array_loop pg_verifymbstr rest (res ++ fmt_lld ir.integer_) true
      | .REDIS_REPLY_NIL =>
        process_redis_array_loop pg_verifymbstr rest (res ++ "NULL".data) true
      | _ => process_redis_array_loop pg_verifymbstr rest res true

/-- The function `process_redis_array`: the text `res->data` for an array reply. -/
def process_redis_array (pg_verifymbstr : Str → Bool) (reply : redisReply) :
    Except PgError Str :=
  match process_redis_array_loop pg_verifymbstr reply.element_ ['{'] false with
  | .ok res => .ok (res ++ ['}'])
  | .error e => .error e

/-! ### The reference definition of the array literal -/

/-- A string with a backslash inserted before every double quote and every backslash. -/
def escaped : Str → Str
  | [] => []
  | c :: rest => if c = '"' ∨ c = '\\' then '\\' :: c :: escaped rest else c :: escaped rest

/-- Rendering of one element of string, status, integer or nil kind. -/
def render_element : redisReply → Str
  | .string s => '"' :: (escaped s ++ ['"'])
  | .status s => '"' :: (escaped s ++ ['"'])
  | .integer i => fmt_lld i
  | .nil => "NULL".data
  | _ => []

/-- The renderings joined by commas. -/
def join_commas : List Str → Str
  | [] => []
  | [x] => x
  | x :: y :: rest => x ++ ',' :: join_commas (y :: rest)

/-- The reference definition: an error when an element is of array kind, otherwise
the brace-delimited, comma-separated renderings of the elements in order. -/
def array_literal_reference (elements : List redisReply) : Except PgError Str :=
  if elements.any (fun ir => ir.type = .REDIS_REPLY_ARRAY) then
    .error ⟨.ERRCODE_INVALID_PARAMETER_VALUE, "nested array returns not yet supported"⟩
  else
    .ok ('{' :: (join_commas (elements.map render_element) ++ ['}']))

/-- The separator that `process_redis_array` writes before the next element, if any. -/
def separator (need_sep : Bool) : List redisReply → Str
  | [] => []
  | _ :: _ => if need_sep then [','] else []

/-- An element the reference definition renders: string or status text that passes
the encoding check and has no NUL byte, an integer, nil, or an array. -/
def rendered_kind (pg_verifymbstr : Str → Bool) : redisReply → Prop
  | .string s => pg_verifymbstr s = true ∧ NUL ∉ s
  | .status s => pg_verifymbstr s = true ∧ NUL ∉ s
  | .integer _ => True
  | .nil => True
  | .array _ => True
  | .error _ => False



/-- Equality of outcomes is decidable when equality of values is. -/
instance instDecidableEqExcept {ε α : Type} [DecidableEq ε] [DecidableEq α] :
    DecidableEq (Except ε α)
  | .ok a, .ok b => if h : a = b then isTrue (by rw [h]) else isFalse (fun e => h (by cases e; rfl))
  | .error a, .error b =>
    if h : a = b then isTrue (by rw [h]) else isFalse (fun e => h (by cases e; rfl))
  | .ok _, .error _ => isFalse (fun e => by cases e)
  | .error _, .ok _ => isFalse (fun e => by cases e)

/-! ## Tables, commands and the connection -/

/-- The enum `redis_table_type`. -/
inductive redis_table_type
  | PG_REDIS_SCALAR_TABLE
  | PG_REDIS_HASH_TABLE
  | PG_REDIS_LIST_TABLE
  | PG_REDIS_SET_TABLE
  | PG_REDIS_ZSET_TABLE
  deriving DecidableEq, Repr

/-- The struct `redisTableOptions`, as `redisGetOptions` fills it. -/
structure redisTableOptions where
  address : Str
  port : Int
  password : Option Str
  database : Int
  keyprefix : Option Str
  keyset : Option Str
  singleton_key : Option Str
  table_type : redis_table_type

/-- An argument passed to `redisCommand` after the format string. -/
inductive Arg
  | s (v : Str)
  | d (v : Int)
  deriving DecidableEq, Repr

/-- A call of `redisCommand`: the format string and the arguments, as passed. -/
structure Cmd where
  fmt : String
  args : List Arg
  deriving DecidableEq, Repr

/-- The initial cursor, `ZERO`. -/
def ZERO : Str := ['0']

/-- The cursor formats `"SSCAN %s %s" COUNT`, `"SCAN %s MATCH %s*" COUNT` and
`"SCAN %s" COUNT`, with `COUNT` being `" COUNT 1000"`. -/
def SSCAN_FMT : String := "SSCAN %s %s COUNT 1000"

/-- The cursor format of a key-prefix table. -/
def SCAN_MATCH_FMT : String := "SCAN %s MATCH %s* COUNT 1000"

/-- The cursor format of an unscoped table. -/
def SCAN_FMT : String := "SCAN %s COUNT 1000"

/-- A `redisContext`: the error flag of the connection attempt, the commands sent
on it so far (oldest first) and whether `redisFree` has been called on it. -/
structure redisContext where
  err : Bool
  sent : List Cmd
  freed : Bool

/-- The store at the other end: whether connecting fails, and the reply to a
command given the commands received before it (`none`: no reply, `redisCommand`
returns `NULL`). -/
structure Server where
  connect_err : Bool
  respond : List Cmd → Cmd → Option redisReply

/-- The call `redisCommand(context, fmt, ...)`. -/
def redisCommand (srv : Server) (context : redisContext) (cmd : Cmd) :
    Option redisReply × redisContext :=
  (srv.respond context.sent cmd, { context with sent := context.sent ++ [cmd] })

/-- The call `redisFree(context)`. -/
def redisFree (context : redisContext) : redisContext := { context with freed := true }

/-- How a callback ends: it returns, it leaves through `ereport(ERROR, ...)`, it
reads through a `NULL` or out-of-range pointer, or the model ran out of fuel.
The failing outcomes keep the connection as it was left. -/
inductive Result (α : Type)
  | ok (a : α)
  | error (e : PgError) (context : redisContext)
  | crash (context : redisContext)
  | out_of_fuel

/-! ## redisGetQual (lines 1598-1648) -/

/-- An expression node: a column reference, a constant of text type (its datum
points to the text), a constant of a type passed by value such as an integer or an
OID (its datum is the value itself), an operator expression, or a node with any other
tag. -/
inductive Node
  | Var (varattno : Int)
  | Const (constvalue : Str)
  | ConstByVal (constvalue : Nat)
  | OpExpr (opfuncid : Nat) (args : List Node)
  | Other

/-- The constant `PROCID_TEXTEQ`. -/
def PROCID_TEXTEQ : Nat := 67

/-- The call `TupleDescAttr(tupdesc, i)->attname` on a descriptor given by its column
names; `none` when `i` is outside the descriptor. -/
def TupleDescAttr (tupdesc : List Str) (i : Int) : Option Str :=
  if 0 ≤ i then tupdesc[i.toNat]? else none

/-- The three outputs of `redisGetQual`. -/
structure Qual where
  key : Option Str
  value : Option Str
  pushdown : Bool
  deriving DecidableEq, Repr

/-- The function `redisGetQual`; `none` when it reads outside the tuple descriptor
(line 1634), or when `TextDatumGetCString` takes the datum of a constant passed by
value for a pointer to a text (line 1635); both come before the test of the operator
(line 1641). -/
def redisGetQual (node : Option Node) (tupdesc : List Str) : Option Qual :=
  match node with
  | none => some ⟨none, none, false⟩
  | some (.OpExpr opfuncid args) =>
    if args.length ≠ 2 then some ⟨none, none, false⟩
    else
      match (args[0]? : Option Node) with
      | some (.Var varattno) =>
        match (args[1]? : Option Node) with
        | some (.Const constvalue) =>
          match TupleDescAttr tupdesc (varattno - 1) with
          | none => none
          | some attname =>
            some ⟨some attname, some constvalue,
              decide (opfuncid = PROCID_TEXTEQ ∧ attname = "key".data)⟩
        | some (.ConstByVal _) => none
        | _ => some ⟨none, none, false⟩
      | _ => some ⟨none, none, false⟩
  | some _ => some ⟨none, none, false⟩

/-- The loop `foreach(lc, node->ss.ps.plan->qual)` of `redisBeginForeignScan`: the
outputs of the last call of `redisGetQual`, the loop leaving at the first qualifier
that can be pushed down. -/
def qual_loop (tupdesc : List Str) : List Node → Qual → Option Qual
  | [], acc => some acc
  | state :: rest, _ =>
    match redisGetQual (some state) tupdesc with
    | none => none
    | some q => if q.pushdown then some q else qual_loop tupdesc rest q

/-! ## The scan state -/

/-- The struct `RedisFdwExecutionState`. -/
structure RedisFdwExecutionState where
  context : redisContext
  reply : Option redisReply
  row : Int
  address : Str
  port : Int
  keyprefix : Option Str
  keyset : Option Str
  qual_value : Option Str
  singleton_key : Option Str
  table_type : redis_table_type
  cursor_search_string : Option String
  cursor_id : Option Str

/-- A `long long` converted to `size_t`, as C does when the two are compared. -/
def to_size_t (row : Int) : Nat := (row % 2 ^ 64).toNat

/-- Lines 1188-1191 and 1307-1310: the cursor kept for a token of string kind,
`NULL` when the token has length one and is the character zero. -/
def next_cursor_id (cursor : Str) : Option Str :=
  if cursor.length = 1 ∧ cursor[0]? = some '0' then none else some (pstrdup cursor)

/-! ## redisBeginForeignScan (lines 920-1204) -/

/-- Lines 970-994: select the database. -/
def select_database (srv : Server) (table_options : redisTableOptions)
    (context : redisContext) : Result redisContext :=
  match redisCommand srv context ⟨"SELECT %d", [.d table_options.database]⟩ with
  | (none, context) =>
    .error ⟨.ERRCODE_FDW_UNABLE_TO_ESTABLISH_CONNECTION,
      "failed to select database %d: %s"⟩ (redisFree context)
  | (some reply, context) =>
    if reply.type = .REDIS_REPLY_ERROR then
      .error ⟨.ERRCODE_FDW_UNABLE_TO_ESTABLISH_CONNECTION,
        "failed to select database %d: %s"⟩ context
    else .ok context

/-- Lines 940-994: connect, authenticate when a password is set, select the database. -/
def connect_and_select (srv : Server) (table_options : redisTableOptions) :
    Result redisContext :=
  let context : redisContext := ⟨srv.connect_err, [], false⟩
  if context.err then
    .error ⟨.ERRCODE_FDW_UNABLE_TO_ESTABLISH_CONNECTION, "failed to connect to Redis: %s"⟩
      (redisFree context)
  else
    match table_options.password with
    | none => select_database srv table_options context
    | some password =>
      match redisCommand srv context ⟨"AUTH %s", [.s password]⟩ with
      | (none, context) =>
        .error ⟨.ERRCODE_FDW_UNABLE_TO_ESTABLISH_CONNECTION,
          "failed to authenticate to redis: %s"⟩ (redisFree context)
      | (some _, context) => select_database srv table_options context

/-- The read command for the whole of a singleton table (lines 1052-1075); a hash
with a pushed-down qualifier reads the one field. -/
def singleton_request (table_type : redis_table_type) (singleton_key : Str)
    (qual_value : Option Str) (pushdown : Bool) : Cmd :=
  match table_type with
  | .PG_REDIS_SCALAR_TABLE => ⟨"GET %s", [.s singleton_key]⟩
  | .PG_REDIS_HASH_TABLE =>
    match qual_value, pushdown with
    | some qual_value, true => ⟨"HGET %s %s", [.s singleton_key, .s qual_value]⟩
    | _, _ => ⟨"HGETALL %s", [.s singleton_key]⟩
  | .PG_REDIS_LIST_TABLE => ⟨"LRANGE %s 0 -1", [.s singleton_key]⟩
  | .PG_REDIS_SET_TABLE => ⟨"SMEMBERS %s", [.s singleton_key]⟩
  | .PG_REDIS_ZSET_TABLE => ⟨"ZRANGEBYSCORE %s -inf inf WITHSCORES", [.s singleton_key]⟩

/-- Lines 1085-1120: a pushed-down key must be in the key set, or carry the key
prefix, when the table has one; the row is set to -1 when it does not. -/
def check_scope (srv : Server) (festate : RedisFdwExecutionState) (qual_value : Str) :
    Result RedisFdwExecutionState :=
  match festate.keyset with
  | some keyset =>
    match redisCommand srv festate.context ⟨"SISMEMBER %s %s", [.s keyset, .s qual_value]⟩ with
    | (none, context) =>
      .error ⟨.ERRCODE_FDW_UNABLE_TO_CREATE_EXECUTION, "failed to list keys: %s"⟩
        (redisFree context)
    | (some sreply, context) =>
      if sreply.type = .REDIS_REPLY_ERROR then
        .error ⟨.ERRCODE_FDW_UNABLE_TO_ESTABLISH_CONNECTION, "failed to list keys: %s"⟩
          context
      else if sreply.integer_ ≠ 1 then .ok { festate with context := context, row := -1 }
      else .ok { festate with context := context }
  | none =>
    match festate.keyprefix with
    | some keyprefix =>
      if keyprefix.isPrefixOf qual_value then .ok festate
      else .ok { festate with row := -1 }
    | none => .ok festate

/-- Lines 1122-1130: the existence check of a pushed-down key; the row is set to -1
when `EXISTS` answers 0.  Returns the reply with the state. -/
def check_exists (srv : Server) (festate : RedisFdwExecutionState) (qual_value : Str) :
    Result (Option redisReply × RedisFdwExecutionState) :=
  match redisCommand srv festate.context ⟨"EXISTS %s", [.s qual_value]⟩ with
  | (none, context) => .crash context
  | (some reply, context) =>
    if reply.integer_ = 0 then .ok (some reply, { festate with context := context, row := -1 })
    else .ok (some reply, { festate with context := context })

/-- Lines 1077-1132: the checks of a pushed-down qualifier on a table that is not a
singleton. -/
def check_qual (srv : Server) (festate : RedisFdwExecutionState) (qual_value : Str) :
    Result (Option redisReply × RedisFdwExecutionState) :=
  match check_scope srv festate qual_value with
  | .ok festate => check_exists srv festate qual_value
  | .error e context => .error e context
  | .crash context => .crash context
  | .out_of_fuel => .out_of_fuel

/-- Lines 1133-1153: the first page request of a cursor scan. -/
def first_page (srv : Server) (festate : RedisFdwExecutionState) :
    Option redisReply × RedisFdwExecutionState :=
  match festate.keyset with
  | some keyset =>
    let (reply, context) := redisCommand srv festate.context ⟨SSCAN_FMT, [.s keyset, .s ZERO]⟩
    (reply, { festate with context := context, cursor_search_string := some SSCAN_FMT })
  | none =>
    match festate.keyprefix with
    | some keyprefix =>
      let (reply, context) :=
        redisCommand srv festate.context ⟨SCAN_MATCH_FMT, [.s ZERO, .s keyprefix]⟩
      (reply, { festate with context := context, cursor_search_string := some SCAN_MATCH_FMT })
    | none =>
      let (reply, context) := redisCommand srv festate.context ⟨SCAN_FMT, [.s ZERO]⟩
      (reply, { festate with context := context, cursor_search_string := some SCAN_FMT })

/-- Lines 1155-1203: the checks on the reply of the query and the state kept from
it: the whole reply for a singleton table, the cursor and the page of keys for a
cursor scan. -/
def store_reply (reply : Option redisReply) (festate : RedisFdwExecutionState) :
    Result RedisFdwExecutionState :=
  match reply with
  | none =>
    .error ⟨.ERRCODE_FDW_UNABLE_TO_CREATE_EXECUTION, "failed to list keys: %s"⟩
      (redisFree festate.context)
  | some reply =>
    if reply.type = .REDIS_REPLY_ERROR then
      .error ⟨.ERRCODE_FDW_UNABLE_TO_ESTABLISH_CONNECTION, "failed somehow: %s"⟩ festate.context
    else if festate.singleton_key.isSome then
      .ok { festate with reply := some reply }
    else if festate.row > -1 ∧ festate.qual_value = none then
      match (reply.element_[0]? : Option redisReply) with
      | none => .crash festate.context
      | some cursor =>
        match cursor with
        | .string str =>
          match (reply.element_[1]? : Option redisReply) with
          | none => .crash festate.context
          | some page =>
            .ok { festate with cursor_id := next_cursor_id str, reply := some page }
        | _ =>
          .error ⟨.ERRCODE_FDW_UNABLE_TO_ESTABLISH_CONNECTION, "wrong reply type %d"⟩
            festate.context
    else .ok festate

/-- Lines 1014-1029: the state stashed away before the query is executed. -/
def init_state (context : redisContext) (table_options : redisTableOptions) (q : Qual) :
    RedisFdwExecutionState :=
  { context := context
    reply := none
    row := 0
    address := table_options.address
    port := table_options.port
    keyprefix := table_options.keyprefix
    keyset := table_options.keyset
    singleton_key := table_options.singleton_key
    table_type := table_options.table_type
    cursor_id := none
    cursor_search_string := none
    qual_value := if q.pushdown then q.value else none }

/-- The function `redisBeginForeignScan`, given the table options, the qualifiers of
the plan, the column names of the relation and whether `EXEC_FLAG_EXPLAIN_ONLY` is set. -/
def redisBeginForeignScan (srv : Server) (table_options : redisTableOptions)
    (qual : List Node) (tupdesc : List Str) (explain_only : Bool) :
    Result RedisFdwExecutionState :=
  match connect_and_select srv table_options with
  | .ok context =>
    match qual_loop tupdesc qual ⟨none, none, false⟩ with
    | none => .crash context
    | some q =>
      let festate := init_state context table_options q
      if explain_only then .ok festate
      else
        match festate.singleton_key with
        | some singleton_key =>
          let (reply, context) := redisCommand srv context
            (singleton_request table_options.table_type singleton_key q.value q.pushdown)
          store_reply reply { festate with context := context }
        | none =>
          match q.value, q.pushdown with
          | some qual_value, true =>
            match check_qual srv festate qual_value with
            | .ok (reply, festate) => store_reply reply festate
            | .error e context => .error e context
            | .crash context => .crash context
            | .out_of_fuel => .out_of_fuel
          | _, _ =>
            let (reply, festate) := first_page srv festate
            store_reply reply festate
  | .error e context => .error e context
  | .crash context => .crash context
  | .out_of_fuel => .out_of_fuel

/-! ## redisIterateForeignScanMulti (lines 1225-1433) -/

/-- Lines 1260-1277: the page request for the cursor, the place of the cursor among
the arguments following the table's scope; `none` without a format string. -/
def cursor_request (festate : RedisFdwExecutionState) (cursor_id : Str) : Option Cmd :=
  match festate.cursor_search_string with
  | none => none
  | some cursor_search_string =>
    match festate.keyset with
    | some keyset => some ⟨cursor_search_string, [.s keyset, .s cursor_id]⟩
    | none =>
      match festate.keyprefix with
      | some keyprefix => some ⟨cursor_search_string, [.s cursor_id, .s keyprefix]⟩
      | none => some ⟨cursor_search_string, [.s cursor_id]⟩

/-- Lines 1252-1323: the loop `while (festate->cursor_id != NULL && festate->row >=
festate->reply->elements)`, which fetches pages until one has keys or the cursor
ends.  One unit of fuel pays for one page request. -/
def fetch_pages (srv : Server) : Nat → RedisFdwExecutionState → Result RedisFdwExecutionState
  | fuel, festate =>
    match festate.cursor_id with
    | none => .ok festate
    | some cursor_id =>
      match festate.reply with
      | none => .crash festate.context
      | some page =>
        if to_size_t festate.row ≥ page.elements then
          match fuel with
          | 0 => .out_of_fuel
          | fuel + 1 =>
            match cursor_request festate cursor_id with
            | none => .crash festate.context
            | some cmd =>
              match redisCommand srv festate.context cmd with
              | (none, context) =>
                .error ⟨.ERRCODE_FDW_UNABLE_TO_CREATE_EXECUTION, "failed to list keys: %s"⟩
                  (redisFree context)
              | (some creply, context) =>
                if creply.type = .REDIS_REPLY_ERROR then
                  .error ⟨.ERRCODE_FDW_UNABLE_TO_ESTABLISH_CONNECTION, "failed somehow: %s"⟩
                    context
                else
                  match (creply.element_[0]? : Option redisReply) with
                  | none => .crash context
                  | some cursor =>
                    match cursor with
                    | .string str =>
                      match (creply.element_[1]? : Option redisReply) with
                      | none => .crash context
                      | some page =>
                        fetch_pages srv fuel
                          { festate with
                            context := context
                            cursor_id := next_cursor_id str
                            reply := some page
                            row := 0 }
                    | _ =>
                      .error ⟨.ERRCODE_FDW_UNABLE_TO_ESTABLISH_CONNECTION,
                        "wrong reply type %d"⟩ context
        else .ok festate

/-- Lines 1344-1366: the read command for the value of a key. -/
def value_request (table_type : redis_table_type) (key : Str) : Cmd :=
  match table_type with
  | .PG_REDIS_HASH_TABLE => ⟨"HGETALL %s", [.s key]⟩
  | .PG_REDIS_LIST_TABLE => ⟨"LRANGE %s 0 -1", [.s key]⟩
  | .PG_REDIS_SET_TABLE => ⟨"SMEMBERS %s", [.s key]⟩
  | .PG_REDIS_ZSET_TABLE => ⟨"ZRANGE %s 0 -1", [.s key]⟩
  | .PG_REDIS_SCALAR_TABLE => ⟨"GET %s", [.s key]⟩

/-- The replies the scan steps over: nil, status and error. -/
def skipped (reply : redisReply) : Bool :=
  reply.type = .REDIS_REPLY_NIL ∨ reply.type = .REDIS_REPLY_STATUS ∨
    reply.type = .REDIS_REPLY_ERROR

/-- Lines 1341-1343: the key of the row, the qualifier's key or the text of the page
element at the row; `none` when that pointer is `NULL` or outside the page. -/
def row_key (festate : RedisFdwExecutionState) : Option Str :=
  match festate.qual_value with
  | some qual_value => some qual_value
  | none =>
    match festate.reply with
    | none => none
    | some page =>
      if festate.row < 0 then none
      else
        match (page.element_[festate.row.toNat]? : Option redisReply) with
        | none => none
        | some element => element.str_ptr

/-- Lines 1383-1384: the part `festate->qual_value == NULL && festate->row <
festate->reply->elements` of the loop condition; `none` when it reads a `NULL` page. -/
def more_keys (festate : RedisFdwExecutionState) : Option Bool :=
  match festate.qual_value with
  | some _ => some false
  | none =>
    match festate.reply with
    | none => none
    | some page => some (decide (to_size_t festate.row < page.elements))

/-- Lines 1338-1384: the loop `do ... while` that reads the value of the key at the
row and moves the row on, again while the reply is one the scan steps over and the
page has more keys.  Returns the last reply and its key.  One unit of fuel pays for
one repetition. -/
def fetch_value (srv : Server) :
    Nat → RedisFdwExecutionState → Result (redisReply × Str × RedisFdwExecutionState)
  | fuel, festate =>
    match row_key festate with
    | none => .crash festate.context
    | some key =>
      match redisCommand srv festate.context (value_request festate.table_type key) with
      | (none, context) =>
        .error ⟨.ERRCODE_FDW_UNABLE_TO_CREATE_REPLY,
          "failed to get the value for key \"%s\": %s"⟩ (redisFree context)
      | (some reply, context) =>
        let festate := { festate with context := context, row := festate.row + 1 }
        if skipped reply then
          match more_keys festate with
          | none => .crash context
          | some true =>
            match fuel with
            | 0 => .out_of_fuel
            | fuel + 1 => fetch_value srv fuel festate
          | some false => .ok (reply, key, festate)
        else .ok (reply, key, festate)

/-- Lines 1386-1411: the value column for the last reply, when there is one: the
digits of an integer, the text of a string, the literal of an array. -/
def row_data (pg_verifymbstr : Str → Bool) (reply : redisReply) : Except PgError (Option Str) :=
  match reply with
  | .integer i => .ok (some (fmt_lld i))
  | .string str => .ok (some str)
  | .array element =>
    match process_redis_array pg_verifymbstr (.array element) with
    | .ok data => .ok (some data)
    | .error e => .error e
  | _ => .ok none

/-- Lines 1330-1332: the test `festate->row > -1 && (festate->qual_value != NULL ||
festate->row < festate->reply->elements)`; `none` when it reads a `NULL` page. -/
def has_row (festate : RedisFdwExecutionState) : Option Bool :=
  if festate.row > -1 then
    match festate.qual_value with
    | some _ => some true
    | none =>
      match festate.reply with
      | none => none
      | some page => some (decide (to_size_t festate.row < page.elements))
  else some false

/-- Line 1386: the test `festate->qual_value != NULL || festate->row <=
festate->reply->elements`; `none` when it reads a `NULL` page. -/
def within_page (festate : RedisFdwExecutionState) : Option Bool :=
  match festate.qual_value with
  | some _ => some true
  | none =>
    match festate.reply with
    | none => none
    | some page => some (decide (to_size_t festate.row ≤ page.elements))

/-- Lines 1386-1426: the slot for the last reply and its key.  The slot is `none`
when empty and holds the key and the value otherwise; after a qualifier's row the
row is set to -1. -/
def build_row (pg_verifymbstr : Str → Bool) (reply : redisReply) (key : Str)
    (festate : RedisFdwExecutionState) :
    Result (Option (Str × Str) × RedisFdwExecutionState) :=
  match within_page festate with
  | none => .crash festate.context
  | some within =>
    match (if within then row_data pg_verifymbstr reply else .ok none) with
    | .error e => .error e festate.context
    | .ok data =>
      let festate :=
        if festate.qual_value.isSome then { festate with row := -1 } else festate
      match data with
      | some data => .ok (some (key, data), festate)
      | none => .ok (none, festate)

/-- The most repetitions the loop `do ... while` can make: the number of keys of the page. -/
def value_fuel (festate : RedisFdwExecutionState) : Nat :=
  match festate.reply with
  | none => 0
  | some page => page.elements

/-- Lines 1330-1426: the row at the position of the scan, if any. -/
def next_row (srv : Server) (pg_verifymbstr : Str → Bool) (festate : RedisFdwExecutionState) :
    Result (Option (Str × Str) × RedisFdwExecutionState) :=
  match has_row festate with
  | none => .crash festate.context
  | some false => .ok (none, festate)
  | some true =>
    match fetch_value srv (value_fuel festate) festate with
    | .ok (reply, key, festate) => build_row pg_verifymbstr reply key festate
    | .error e context => .error e context
    | .crash context => .crash context
    | .out_of_fuel => .out_of_fuel

/-- The function `redisIterateForeignScanMulti`: fetch pages while the page is used
up and the cursor is live, then return the row at the position, or an empty slot. -/
def redisIterateForeignScanMulti (srv : Server) (pg_verifymbstr : Str → Bool) (fuel : Nat)
    (festate : RedisFdwExecutionState) :
    Result (Option (Str × Str) × RedisFdwExecutionState) :=
  match fetch_pages srv fuel festate with
  | .ok festate => next_row srv pg_verifymbstr festate
  | .error e context => .error e context
  | .crash context => .crash context
  | .out_of_fuel => .out_of_fuel

/-- The function `redisReScanForeignScan` (lines 1585-1596). -/
def redisReScanForeignScan (festate : RedisFdwExecutionState) : RedisFdwExecutionState :=
  if festate.row > -1 then { festate with row := 0 } else festate

/-- The executor calling `redisIterateForeignScanMulti` `n` times in a row: the
slots returned, in order, and the state after the last call. -/
def iterate_times (srv : Server) (pg_verifymbstr : Str → Bool) (fuel : Nat) :
    Nat → RedisFdwExecutionState → Result (List (Option (Str × Str)) × RedisFdwExecutionState)
  | 0, festate => .ok ([], festate)
  | n + 1, festate =>
    match redisIterateForeignScanMulti srv pg_verifymbstr fuel festate with
    | .ok (slot, festate) =>
      match iterate_times srv pg_verifymbstr fuel n festate with
      | .ok (slots, festate) => .ok (slot :: slots, festate)
      | .error e context => .error e context
      | .crash context => .crash context
      | .out_of_fuel => .out_of_fuel
    | .error e context => .error e context
    | .crash context => .crash context
    | .out_of_fuel => .out_of_fuel

/-! ## Reading an array literal back -/

/-- Where the reader of an array literal stands. -/
inductive ReadState
  | start
  | opened
  | item (acc : Str)
  | escape (acc : Str)
  | closed
  | comma
  | done

/-- The reading the round trip is stated against: a brace-delimited,
comma-separated list of double-quoted items, in which a backslash makes the next
character literal.  `none` when the text is not of that form. -/
def read_items : ReadState → List Str → Str → Option (List Str)
  | .done, items, [] => some items
  | _, _, [] => none
  | .start, items, c :: rest => if c = '{' then read_items .opened items rest else none
  | .opened, items, c :: rest =>
    if c = '}' then read_items .done items rest
    else if c = '"' then read_items (.item []) items rest
    else none
  | .item acc, items, c :: rest =>
    if c = '\\' then read_items (.escape acc) items rest
    else if c = '"' then read_items .closed (items ++ [acc]) rest
    else read_items (.item (acc ++ [c])) items rest
  | .escape acc, items, c :: rest => read_items (.item (acc ++ [c])) items rest
  | .closed, items, c :: rest =>
    if c = ',' then read_items .comma items rest
    else if c = '}' then read_items .done items rest
    else none
  | .comma, items, c :: rest => if c = '"' then read_items (.item []) items rest else none
  | .done, _, _ :: _ => none

/-- The items of an array literal. -/
def read_array_literal (text : Str) : Option (List Str) := read_items .start [] text

/-! ## Notions the statements use -/

/-- The shape of a qualifier that can be pushed down: an operator expression with
exactly two arguments, a column reference on the left, a constant on the right, the
operator function being text equality and the column being named `key`. -/
def pushdown_shape (node : Option Node) (tupdesc : List Str) : Prop :=
  ∃ opfuncid varattno constvalue,
    node = some (.OpExpr opfuncid [.Var varattno, .Const constvalue]) ∧
      opfuncid = 67 ∧ TupleDescAttr tupdesc (varattno - 1) = some "key".data

/-- A column reference compared with a constant names a column of the relation:
its attribute number lies between 1 and the number of columns. -/
def refers_to_columns (node : Option Node) (tupdesc : List Str) : Prop :=
  ∀ opfuncid varattno constvalue,
    node = some (.OpExpr opfuncid [.Var varattno, .Const constvalue]) →
      1 ≤ varattno ∧ varattno ≤ tupdesc.length

/-- The node is not the comparison of a column reference with a constant passed by
value. -/
def text_constant (node : Option Node) : Prop :=
  ∀ opfuncid varattno constvalue,
    node ≠ some (.OpExpr opfuncid [.Var varattno, .ConstByVal constvalue])

/-- A command of the cursor family: one of the three page-request formats. -/
def is_cursor_command (cmd : Cmd) : Bool :=
  cmd.fmt = SSCAN_FMT ∨ cmd.fmt = SCAN_MATCH_FMT ∨ cmd.fmt = SCAN_FMT

/-- The number of page requests among the commands sent. -/
def page_requests (sent : List Cmd) : Nat := sent.countP is_cursor_command

/-- A store that answers every page request with the token `0` once it has
received `n` page requests. -/
def ends_after (srv : Server) (n : Nat) : Prop :=
  ∀ sent cmd, is_cursor_command cmd = true → n ≤ page_requests sent →
    ∃ page rest, srv.respond sent cmd = some (.array (.string ['0'] :: page :: rest))

/-- The connection as an outcome leaves it; `none` when the model ran out of fuel. -/
def outcome_context {α : Type} : Result (α × RedisFdwExecutionState) → Option redisContext
  | .ok (_, festate) => some festate.context
  | .error _ context => some context
  | .crash context => some context
  | .out_of_fuel => none

/-- The format string of the scan is one of the three page-request formats. -/
def cursor_format (festate : RedisFdwExecutionState) : Prop :=
  festate.cursor_search_string = some SSCAN_FMT ∨
    festate.cursor_search_string = some SCAN_MATCH_FMT ∨
    festate.cursor_search_string = some SCAN_FMT

/-- The membership check sent for a pushed-down key when the table has a key set. -/
def scope_commands (keyset : Option Str) (qual_value : Str) : List Cmd :=
  match keyset with
  | some keyset => [⟨"SISMEMBER %s %s", [.s keyset, .s qual_value]⟩]
  | none => []

/-- A command that reads the value of a key: one of the formats of `value_request`. -/
def is_value_command (cmd : Cmd) : Bool :=
  cmd.fmt = "GET %s" ∨ cmd.fmt = "HGETALL %s" ∨ cmd.fmt = "LRANGE %s 0 -1" ∨
    cmd.fmt = "SMEMBERS %s" ∨ cmd.fmt = "ZRANGE %s 0 -1"

/-- The number of value requests among the commands sent. -/
def value_fetches (sent : List Cmd) : Nat := sent.countP is_value_command

/-! ## A small store for the examples -/

/-- A store with the keys `k1` (whose value request is answered with nil) and `k2`
(holding `v2`), listed on two pages: the first page is `k1` with the token `5`, the
second is `k2` with the token `0`.  The key set `ks` has the member `k2`. -/
def demo_server : Server where
  connect_err := false
  respond := fun _ cmd =>
    if cmd.fmt = "SELECT %d" then some (.status "OK".data)
    else if cmd.fmt = SCAN_FMT then
      if cmd.args = [.s "0".data] then
        some (.array [.string "5".data, .array [.string "k1".data]])
      else if cmd.args = [.s "5".data] then
        some (.array [.string "0".data, .array [.string "k2".data]])
      else none
    else if cmd = ⟨"GET %s", [.s "k1".data]⟩ then some .nil
    else if cmd = ⟨"GET %s", [.s "k2".data]⟩ then some (.string "v2".data)
    else if cmd = ⟨"EXISTS %s", [.s "k2".data]⟩ then some (.integer 1)
    else if cmd.fmt = "EXISTS %s" then some (.integer 0)
    else if cmd = ⟨"SISMEMBER %s %s", [.s "ks".data, .s "k2".data]⟩ then some (.integer 1)
    else if cmd.fmt = "SISMEMBER %s %s" then some (.integer 0)
    else none

/-- An unscoped scalar table in database 0. -/
def demo_options : redisTableOptions :=
  { address := "127.0.0.1".data
    port := 6379
    password := none
    database := 0
    keyprefix := none
    keyset := none
    singleton_key := none
    table_type := .PG_REDIS_SCALAR_TABLE }

/-- The connection of the example once the database is selected. -/
def demo_context : redisContext := ⟨false, [⟨"SELECT %d", [.d 0]⟩], false⟩

/-- The state of the example scan after `redisBeginForeignScan`: the first page is
in, the cursor is `5`. -/
def demo_state : RedisFdwExecutionState :=
  { context := ⟨false, [⟨"SELECT %d", [.d 0]⟩, ⟨SCAN_FMT, [.s "0".data]⟩], false⟩
    reply := some (.array [.string "k1".data])
    row := 0
    address := "127.0.0.1".data
    port := 6379
    keyprefix := none
    keyset := none
    qual_value := none
    singleton_key := none
    table_type := .PG_REDIS_SCALAR_TABLE
    cursor_search_string := some SCAN_FMT
    cursor_id := some "5".data }

/-- A store whose pages are empty: the first page request is answered with the
token `7`, every later one with the token `0`. -/
def counting_server : Server where
  connect_err := false
  respond := fun sent cmd =>
    if is_cursor_command cmd then
      if 1 ≤ page_requests sent then some (.array [.string "0".data, .array []])
      else some (.array [.string "7".data, .array []])
    else if cmd.fmt = "SELECT %d" then some (.status "OK".data)
    else none

/-- The state of a scan of the store with empty pages after `redisBeginForeignScan`. -/
def counting_state : RedisFdwExecutionState :=
  { demo_state with
    reply := some (.array [])
    cursor_id := some "7".data }

/-- The example table scoped by the key set `ks`. -/
def demo_keyset_options : redisTableOptions := { demo_options with keyset := some "ks".data }

/-! ## The modify state and check_reply (lines 1826-2061) -/

/-- The operation of a `ModifyTable` node. -/
inductive CmdType
  | CMD_INSERT
  | CMD_UPDATE
  | CMD_DELETE
  deriving DecidableEq, Repr

/-- A column value of a slot: SQL null, a text value, or an array of text values
with its null flags (an element is `none` where `nulls[i]` is set).  A text value is
held as the C string its output function returns. -/
inductive Datum
  | null
  | text (s : Str)
  | array (elements : List (Option Str))
  deriving DecidableEq, Repr

/-- The call `slot_getattr(slot, attnum, &isnull)`: the value of the column, null
when the slot has no such column. -/
def slot_getattr (slot : List Datum) (attnum : Int) : Datum :=
  if 1 ≤ attnum then slot.getD (attnum.toNat - 1) .null else .null

/-- The call `OutputFunctionCall` with the output function of text: the C string of
a text value; `none` when the datum is not a text value (the call reads through it). -/
def OutputFunctionCall : Datum → Option Str
  | .text s => some s
  | _ => none

/-- The struct `RedisFdwModifyState`; `context` is `none` until the connection is
made, `array_elem_type` tells whether the element type is a valid oid, that is
whether the second column is an array. -/
structure RedisFdwModifyState where
  context : Option redisContext
  address : Str
  port : Int
  keyprefix : Option Str
  keyset : Option Str
  singleton_key : Option Str
  table_type : redis_table_type
  target_attrs : List Int
  p_nums : Nat
  array_elem_type : Bool

/-- The function `check_reply`: without a reply the connection is freed and the
error raised, with a reply of error kind the error is raised, otherwise the call
returns.  The message is the format `message` followed by `": %s"`; its argument
`arg` only fills the message. -/
def check_reply (reply : Option redisReply) (context : redisContext) (error_code : ErrCode)
    (message : String) : Result redisContext :=
  match reply with
  | none => .error ⟨error_code, message ++ ": %s"⟩ (redisFree context)
  | some reply =>
    if reply.type = .REDIS_REPLY_ERROR then .error ⟨error_code, message ++ ": %s"⟩ context
    else .ok context

/-- A command sent with `redisCommand` and its reply passed to `check_reply` under
the code `ERRCODE_FDW_UNABLE_TO_CREATE_EXECUTION`, as the modify callbacks do for
every write. -/
def send_checked (srv : Server) (context : redisContext) (cmd : Cmd) (message : String) :
    Result redisContext :=
  check_reply (redisCommand srv context cmd).1 (redisCommand srv context cmd).2
    .ERRCODE_FDW_UNABLE_TO_CREATE_EXECUTION message

/-- How `redisBeginForeignModify` ends: with an error of the checks it makes before
it connects, reading outside the tuple descriptor, or with the outcome of the part
that connects. -/
inductive BeginModify
  | refused (e : PgError)
  | out_of_descriptor
  | began (outcome : Result RedisFdwModifyState)

/-- Lines 1895-1926: the loop over the target columns, given the number of
dimensions of each column of the relation; counts the columns in `p_nums`. -/
def target_attrs_loop (op : CmdType) (attndims : List Nat) (singleton_key : Option Str)
    (table_type : redis_table_type) : List Int → Nat → Except (Option PgError) Nat
  | [], p_nums => .ok p_nums
  | attnum :: rest, p_nums =>
    if attnum < 1 then .error none
    else
      match (attndims[(attnum - 1).toNat]? : Option Nat) with
      | none => .error none
      | some dims =>
        if op = .CMD_UPDATE ∧ attnum > 1 ∧ dims = 0 ∧ singleton_key = none ∧
            table_type ≠ .PG_REDIS_SCALAR_TABLE then
          .error (some ⟨.ERRCODE_FEATURE_NOT_SUPPORTED,
            "value update not supported for this type of table"⟩)
        else target_attrs_loop op attndims singleton_key table_type rest (p_nums + 1)

/-- Lines 1935-1974: the checks on the number of columns and on the operations a
singleton list table does not support. -/
def sanity_check (op : CmdType) (table_options : redisTableOptions) (p_nums : Nat) :
    Option PgError :=
  match op with
  | .CMD_INSERT =>
    if table_options.singleton_key.isSome then
      if table_options.table_type = .PG_REDIS_ZSET_TABLE ∧ p_nums < 2 then
        some ⟨.ERRCODE_FEATURE_NOT_SUPPORTED,
          "operation not supported for singleton zset table without priorities column"⟩
      else if p_nums ≠ (if table_options.table_type = .PG_REDIS_HASH_TABLE ∨
          table_options.table_type = .PG_REDIS_ZSET_TABLE then 2 else 1) then
        some ⟨.ERRCODE_FEATURE_NOT_SUPPORTED,
          "table has incorrect number of columns: %d for type %d"⟩
      else none
    else if p_nums ≠ 2 then
      some ⟨.ERRCODE_FEATURE_NOT_SUPPORTED, "table has incorrect number of columns"⟩
    else none
  | .CMD_UPDATE =>
    if table_options.singleton_key.isSome ∧ table_options.table_type = .PG_REDIS_LIST_TABLE then
      some ⟨.ERRCODE_FEATURE_NOT_SUPPORTED, "update not supported for this type of table"⟩
    else none
  | .CMD_DELETE =>
    if table_options.singleton_key.isSome ∧ table_options.table_type = .PG_REDIS_LIST_TABLE then
      some ⟨.ERRCODE_FEATURE_NOT_SUPPORTED, "delete not supported for this type of table"⟩
    else none

/-- Lines 1985-2023: connect, authenticate when a password is set, select the
database, the reply to `SELECT` being passed to `check_reply`. -/
def connect_modify (srv : Server) (table_options : redisTableOptions) : Result redisContext :=
  let context : redisContext := ⟨srv.connect_err, [], false⟩
  if context.err then
    .error ⟨.ERRCODE_FDW_UNABLE_TO_ESTABLISH_CONNECTION, "failed to connect to Redis: %s"⟩
      (redisFree context)
  else
    let select (context : redisContext) : Result redisContext :=
      check_reply (redisCommand srv context ⟨"SELECT %d", [.d table_options.database]⟩).1
        (redisCommand srv context ⟨"SELECT %d", [.d table_options.database]⟩).2
        .ERRCODE_FDW_UNABLE_TO_ESTABLISH_CONNECTION "failed to select database"
    match table_options.password with
    | none => select context
    | some password =>
      match redisCommand srv context ⟨"AUTH %s", [.s password]⟩ with
      | (none, context) =>
        .error ⟨.ERRCODE_FDW_UNABLE_TO_ESTABLISH_CONNECTION,
          "failed to authenticate to redis: %s"⟩ (redisFree context)
      | (some _, context) => select context

/-- The function `redisBeginForeignModify`, given the table options, the operation,
the target columns of the plan, the number of dimensions of each column of the
relation, whether the second column has an element type, and whether
`EXEC_FLAG_EXPLAIN_ONLY` is set. -/
def redisBeginForeignModify (srv : Server) (table_options : redisTableOptions) (op : CmdType)
    (target_attrs : List Int) (attndims : List Nat) (array_elem_type : Bool)
    (explain_only : Bool) : BeginModify :=
  let fmstate : RedisFdwModifyState :=
    { context := none
      address := table_options.address
      port := table_options.port
      keyprefix := table_options.keyprefix
      keyset := table_options.keyset
      singleton_key := table_options.singleton_key
      table_type := table_options.table_type
      target_attrs := target_attrs
      p_nums := 0
      array_elem_type := array_elem_type }
  let junk : Option Nat :=
    if op = .CMD_UPDATE ∨ op = .CMD_DELETE then
      match attndims with
      | [] => none
      | _ :: _ => some 1
    else some 0
  match junk with
  | none => .out_of_descriptor
  | some p_nums =>
    let counted : Except (Option PgError) Nat :=
      if op = .CMD_UPDATE ∨ op = .CMD_INSERT then
        target_attrs_loop op attndims table_options.singleton_key table_options.table_type
          target_attrs p_nums
      else .ok p_nums
    match counted with
    | .error none => .out_of_descriptor
    | .error (some e) => .refused e
    | .ok p_nums =>
      match sanity_check op table_options p_nums with
      | some e => .refused e
      | none =>
        if explain_only then .began (.ok { fmstate with p_nums := p_nums })
        else
          match connect_modify srv table_options with
          | .ok context =>
            .began (.ok { fmstate with p_nums := p_nums, context := some context })
          | .error e context => .began (.error e context)
          | .crash context => .began (.crash context)
          | .out_of_fuel => .began .out_of_fuel

/-! ## redisExecForeignInsert (lines 2067-2405) -/

/-- Lines 2104-2126: the existence check of a singleton table, by table type; a list
has none. -/
def singleton_exists_request (table_type : redis_table_type) (singleton_key keyval : Str) :
    Option Cmd :=
  match table_type with
  | .PG_REDIS_SCALAR_TABLE => some ⟨"EXISTS %s", [.s singleton_key]⟩
  | .PG_REDIS_HASH_TABLE => some ⟨"HEXISTS %s %s", [.s singleton_key, .s keyval]⟩
  | .PG_REDIS_SET_TABLE => some ⟨"SISMEMBER %s %s", [.s singleton_key, .s keyval]⟩
  | .PG_REDIS_ZSET_TABLE => some ⟨"ZRANK %s %s", [.s singleton_key, .s keyval]⟩
  | .PG_REDIS_LIST_TABLE => none

/-- Lines 2135-2139 and 2644-2648: the reply of an existence check says the key or
member is absent: the integer 0, or nil for the rank in a sorted set. -/
def reply_absent (table_type : redis_table_type) (sreply : redisReply) : Bool :=
  if table_type ≠ .PG_REDIS_ZSET_TABLE then
    sreply.type = .REDIS_REPLY_INTEGER ∧ sreply.integer_ = 0
  else sreply.type = .REDIS_REPLY_NIL

/-- Lines 2164-2195: the write of a singleton table, by table type. -/
def singleton_write_request (table_type : redis_table_type)
    (singleton_key keyval extraval : Str) : Cmd :=
  match table_type with
  | .PG_REDIS_SCALAR_TABLE => ⟨"SET %s %s", [.s singleton_key, .s keyval]⟩
  | .PG_REDIS_SET_TABLE => ⟨"SADD %s %s", [.s singleton_key, .s keyval]⟩
  | .PG_REDIS_LIST_TABLE => ⟨"RPUSH %s %s", [.s singleton_key, .s keyval]⟩
  | .PG_REDIS_HASH_TABLE => ⟨"HSET %s %s %s", [.s singleton_key, .s keyval, .s extraval]⟩
  | .PG_REDIS_ZSET_TABLE => ⟨"ZADD %s %s %s", [.s singleton_key, .s extraval, .s keyval]⟩

/-- Lines 2089-2200: the insert into a singleton table. -/
def insert_singleton (srv : Server) (fmstate : RedisFdwModifyState) (context : redisContext)
    (singleton_key keyval : Str) (slot : List Datum) : Result redisContext :=
  let checked : Result redisContext :=
    match singleton_exists_request fmstate.table_type singleton_key keyval with
    | none => .ok context
    | some cmd =>
      let sent := redisCommand srv context cmd
      match check_reply sent.1 sent.2
          .ERRCODE_FDW_UNABLE_TO_CREATE_EXECUTION "failed checking key existence" with
      | .ok context =>
        match sent.1 with
        | none => .crash context
        | some sreply =>
          if reply_absent fmstate.table_type sreply then .ok context
          else .error ⟨.ERRCODE_UNIQUE_VIOLATION, "key already exists: %s"⟩ context
      | .error e context => .error e context
      | .crash context => .crash context
      | .out_of_fuel => .out_of_fuel
  match checked with
  | .ok context =>
    let extraval : Option Str :=
      if fmstate.table_type = .PG_REDIS_ZSET_TABLE ∨
          fmstate.table_type = .PG_REDIS_HASH_TABLE then
        OutputFunctionCall (slot_getattr slot 2)
      else some []
    match extraval with
    | none => .crash context
    | some extraval =>
      send_checked srv context
        (singleton_write_request fmstate.table_type singleton_key keyval extraval)
        "cannot insert value for key %s"
  | .error e context => .error e context
  | .crash context => .crash context
  | .out_of_fuel => .out_of_fuel

/-- The loops over the elements of a set (lines 2311-2321 in the insert, 2841-2849 in
the update, which differ in the message): one `SADD` for each element. -/
def sadd_loop (srv : Server) (message : String) (keyval : Str) :
    List Str → redisContext → Result redisContext
  | [], context => .ok context
  | valueval :: rest, context =>
    match send_checked srv context ⟨"SADD %s %s", [.s keyval, .s valueval]⟩ message with
    | .ok context => sadd_loop srv message keyval rest context
    | .error e context => .error e context
    | .crash context => .crash context
    | .out_of_fuel => .out_of_fuel

/-- The loops over the elements of a list (lines 2328-2337 and 2856-2864): one
`RPUSH` for each element. -/
def rpush_loop (srv : Server) (message : String) (keyval : Str) :
    List Str → redisContext → Result redisContext
  | [], context => .ok context
  | valueval :: rest, context =>
    match send_checked srv context ⟨"RPUSH %s %s", [.s keyval, .s valueval]⟩ message with
    | .ok context => rpush_loop srv message keyval rest context
    | .error e context => .error e context
    | .crash context => .crash context
    | .out_of_fuel => .out_of_fuel

/-- The loops over the elements of a hash (lines 2346-2358 and 2873-2883), which
advance by two: one `HSET` for the elements `i` and `i + 1`; reading an element
past the end is a crash. -/
def hset_loop (srv : Server) (message : String) (keyval : Str) :
    List Str → redisContext → Result redisContext
  | [], context => .ok context
  | [_], context => .crash context
  | hk :: hv :: rest, context =>
    match send_checked srv context ⟨"HSET %s %s %s", [.s keyval, .s hk, .s hv]⟩ message with
    | .ok context => hset_loop srv message keyval rest context
    | .error e context => .error e context
    | .crash context => .crash context
    | .out_of_fuel => .out_of_fuel

/-- The loops over the elements of a sorted set (lines 2366-2382 and 2892-2907): one
`ZADD` for each element, its index `i`, printed with `%d`, being the score. -/
def zadd_loop (srv : Server) (message : String) (keyval : Str) :
    Nat → List Str → redisContext → Result redisContext
  | _, [], context => .ok context
  | i, valueval :: rest, context =>
    match send_checked srv context
        ⟨"ZADD %s %s %s", [.s keyval, .s (fmt_lld (i : Int)), .s valueval]⟩ message with
    | .ok context => zadd_loop srv message keyval (i + 1) rest context
    | .error e context => .error e context
    | .crash context => .crash context
    | .out_of_fuel => .out_of_fuel

/-- Lines 2287-2294 and 2589-2599: the elements of an array as C strings, `none`
when one of them is null. -/
def non_null_elements : List (Option Str) → Option (List Str)
  | [] => some []
  | none :: _ => none
  | some s :: rest =>
    match non_null_elements rest with
    | none => none
    | some items => some (s :: items)

/-- Lines 2258-2295: the value to write into a table that is not a singleton: the
text of a scalar table, or the elements of the array, which must not be empty, must
be even in number for a hash, and must not hold a null. -/
def insert_value (fmstate : RedisFdwModifyState) (value : Datum) :
    Except (Option PgError) (Str ⊕ List Str) :=
  if fmstate.table_type = .PG_REDIS_SCALAR_TABLE then
    match OutputFunctionCall value with
    | none => .error none
    | some valueval => .ok (.inl valueval)
  else
    match value with
    | .array elements =>
      if elements.length = 0 then
        .error (some ⟨.ERRCODE_FEATURE_NOT_SUPPORTED, "cannot store empty list in a Redis table"⟩)
      else if fmstate.table_type = .PG_REDIS_HASH_TABLE ∧ elements.length % 2 ≠ 0 then
        .error (some ⟨.ERRCODE_FEATURE_NOT_SUPPORTED,
          "cannot decompose odd number of items into a Redis hash"⟩)
      else
        match non_null_elements elements with
        | none =>
          .error (some ⟨.ERRCODE_FEATURE_NOT_SUPPORTED, "cannot insert NULL into a Redis table"⟩)
        | some items => .ok (.inr items)
    | _ => .error none

/-- Lines 2297-2390: the writes of the value into a table that is not a singleton,
by table type. -/
def insert_writes (srv : Server) (fmstate : RedisFdwModifyState) (context : redisContext)
    (keyval : Str) (value : Str ⊕ List Str) : Result redisContext :=
  match fmstate.table_type, value with
  | .PG_REDIS_SCALAR_TABLE, .inl valueval =>
    send_checked srv context ⟨"SET %s %s", [.s keyval, .s valueval]⟩ "could not add key %s"
  | .PG_REDIS_SET_TABLE, .inr items =>
    sadd_loop srv "could not add set member %s" keyval items context
  | .PG_REDIS_LIST_TABLE, .inr items =>
    rpush_loop srv "could not add value %s" keyval items context
  | .PG_REDIS_HASH_TABLE, .inr items =>
    hset_loop srv "could not add key %s" keyval items context
  | .PG_REDIS_ZSET_TABLE, .inr items =>
    zadd_loop srv "could not add key %s" keyval 0 items context
  | _, _ => .crash context

/-- Lines 2201-2403: the insert into a table that is not a singleton. -/
def insert_scoped (srv : Server) (fmstate : RedisFdwModifyState) (context : redisContext)
    (keyval : Str) (slot : List Datum) : Result redisContext :=
  let is_array := fmstate.array_elem_type
  let value := slot_getattr slot 2
  if value = .null then
    .error ⟨.ERRCODE_FEATURE_NOT_SUPPORTED, "cannot insert NULL into a Redis table"⟩ context
  else if is_array ∧ fmstate.table_type = .PG_REDIS_SCALAR_TABLE then
    .error ⟨.ERRCODE_FEATURE_NOT_SUPPORTED, "cannot insert array into into a Redis scalar table"⟩
      context
  else if ¬ is_array ∧ fmstate.table_type ≠ .PG_REDIS_SCALAR_TABLE then
    .error ⟨.ERRCODE_FEATURE_NOT_SUPPORTED,
      "cannot insert into this type of Redis table - needs an array"⟩ context
  else if (match fmstate.keyprefix with
      | some keyprefix => ! keyprefix.isPrefixOf keyval
      | none => false) then
    .error ⟨.ERRCODE_FEATURE_NOT_SUPPORTED, "key '%s' does not match table key prefix '%s'"⟩
      context
  else
    let sent := redisCommand srv context ⟨"EXISTS %s", [.s keyval]⟩
    match check_reply sent.1 sent.2
        .ERRCODE_FDW_UNABLE_TO_CREATE_EXECUTION "failed checking key existence" with
    | .ok context =>
      match sent.1 with
      | none => .crash context
      | some sreply =>
        if sreply.type ≠ .REDIS_REPLY_INTEGER ∨ sreply.integer_ ≠ 0 then
          .error ⟨.ERRCODE_UNIQUE_VIOLATION, "key already exists: %s"⟩ context
        else
          match insert_value fmstate value with
          | .error none => .crash context
          | .error (some e) => .error e context
          | .ok value =>
            match insert_writes srv fmstate context keyval value with
            | .ok context =>
              match fmstate.keyset with
              | some keyset =>
                send_checked srv context ⟨"SADD %s %s", [.s keyset, .s keyval]⟩
                  "could not add keyset element %s"
              | none => .ok context
            | .error e context => .error e context
            | .crash context => .crash context
            | .out_of_fuel => .out_of_fuel
    | .error e context => .error e context
    | .crash context => .crash context
    | .out_of_fuel => .out_of_fuel

/-- The function `redisExecForeignInsert` on the slot of the row to insert; returns
the connection as the call leaves it. -/
def redisExecForeignInsert (srv : Server) (fmstate : RedisFdwModifyState) (slot : List Datum) :
    Result redisContext :=
  match fmstate.context with
  | none => .crash ⟨false, [], false⟩
  | some context =>
    match OutputFunctionCall (slot_getattr slot 1) with
    | none => .crash context
    | some keyval =>
      match fmstate.singleton_key with
      | some singleton_key => insert_singleton srv fmstate context singleton_key keyval slot
      | none => insert_scoped srv fmstate context keyval slot

/-! ## redisExecForeignUpdate (lines 2496-2919) -/

/-- The values the update takes from its target columns: the new key, the new scalar
value (or hash value, or score) if any, and the elements of the new array if any. -/
structure UpdateValues where
  newkey : Str
  newval : Option Str
  array_vals : Option (List Str)
  deriving DecidableEq, Repr

/-- Lines 2532-2603: the loop over the target columns, which reads the new values
from the slot.  The error is `none` when a value is read through a datum of the
wrong kind. -/
def update_values_loop (fmstate : RedisFdwModifyState) (slot : List Datum) :
    List Int → UpdateValues → Except (Option PgError) UpdateValues
  | [], values => .ok values
  | attnum :: rest, values =>
    let datum := slot_getattr slot attnum
    if datum = .null then
      .error (some ⟨.ERRCODE_INTERNAL_ERROR, "NULL update not supported"⟩)
    else if attnum = 1 then
      match OutputFunctionCall datum with
      | none => .error none
      | some newkey => update_values_loop fmstate slot rest { values with newkey := newkey }
    else if fmstate.singleton_key.isSome ∨ fmstate.table_type = .PG_REDIS_SCALAR_TABLE then
      match OutputFunctionCall datum with
      | none => .error none
      | some newval => update_values_loop fmstate slot rest { values with newval := some newval }
    else
      match datum with
      | .array elements =>
        if elements.length = 0 then
          .error (some ⟨.ERRCODE_FEATURE_NOT_SUPPORTED,
            "cannot store empty list in a Redis table"⟩)
        else if fmstate.table_type = .PG_REDIS_HASH_TABLE ∧ elements.length % 2 ≠ 0 then
          .error (some ⟨.ERRCODE_FEATURE_NOT_SUPPORTED,
            "cannot decompose odd number of items into a Redis hash"⟩)
        else
          match non_null_elements elements with
          | none =>
            .error (some ⟨.ERRCODE_FEATURE_NOT_SUPPORTED, "cannot set NULL in a Redis table"⟩)
          | some items =>
            update_values_loop fmstate slot rest { values with array_vals := some items }
      | _ => .error none

/-- Lines 2625-2641: the existence check of the new key of a singleton table, by
table type; a scalar and a list have none. -/
def update_exists_request (table_type : redis_table_type) (singleton_key newkey : Str) :
    Option Cmd :=
  match table_type with
  | .PG_REDIS_SET_TABLE => some ⟨"SISMEMBER %s %s", [.s singleton_key, .s newkey]⟩
  | .PG_REDIS_ZSET_TABLE => some ⟨"ZRANK %s %s", [.s singleton_key, .s newkey]⟩
  | .PG_REDIS_HASH_TABLE => some ⟨"HEXISTS %s %s", [.s singleton_key, .s newkey]⟩
  | _ => none

/-- Lines 2610-2662: the new key must not exist.  The reply is read before it is
passed to `check_reply`, so a missing reply is a crash. -/
def update_check_new_key (srv : Server) (fmstate : RedisFdwModifyState)
    (context : redisContext) (newkey : Str) : Result redisContext :=
  let checked : Result (Bool × redisContext) :=
    match fmstate.singleton_key with
    | none =>
      let sent := redisCommand srv context ⟨"EXISTS %s", [.s newkey]⟩
      match sent.1 with
      | none => .crash sent.2
      | some ereply =>
        match check_reply (some ereply) sent.2 .ERRCODE_FDW_UNABLE_TO_CREATE_EXECUTION
            "failed checking key existence %s" with
        | .ok context =>
          .ok (decide (ereply.type = .REDIS_REPLY_INTEGER ∧ ereply.integer_ = 0), context)
        | .error e context => .error e context
        | .crash context => .crash context
        | .out_of_fuel => .out_of_fuel
    | some singleton_key =>
      if fmstate.table_type ≠ .PG_REDIS_SCALAR_TABLE then
        match update_exists_request fmstate.table_type singleton_key newkey with
        | none => .crash context
        | some cmd =>
          let sent := redisCommand srv context cmd
          match sent.1 with
          | none => .crash sent.2
          | some ereply =>
            match check_reply (some ereply) sent.2 .ERRCODE_FDW_UNABLE_TO_CREATE_EXECUTION
                "failed checking key existence %s" with
            | .ok context => .ok (reply_absent fmstate.table_type ereply, context)
            | .error e context => .error e context
            | .crash context => .crash context
            | .out_of_fuel => .out_of_fuel
      else .ok (true, context)
  match checked with
  | .ok (ok, context) =>
    if ok then .ok context
    else .error ⟨.ERRCODE_UNIQUE_VIOLATION, "key already exists: %s"⟩ context
  | .error e context => .error e context
  | .crash context => .crash context
  | .out_of_fuel => .out_of_fuel

/-- Two commands sent one after the other, each checked. -/
def send_then (srv : Server) (context : redisContext) (first : Cmd) (message : String)
    (next : redisContext → Result redisContext) : Result redisContext :=
  match send_checked srv context first message with
  | .ok context => next context
  | .error e context => .error e context
  | .crash context => .crash context
  | .out_of_fuel => .out_of_fuel

/-- Lines 2664-2705: the key of a table that is not a singleton is renamed, a new
scalar value is set, and the key set is brought up to date. -/
def update_rename_scoped (srv : Server) (fmstate : RedisFdwModifyState)
    (context : redisContext) (keyval : Str) (values : UpdateValues) : Result redisContext :=
  if (match fmstate.keyprefix with
      | some keyprefix => ! keyprefix.isPrefixOf values.newkey
      | none => false) then
    .error ⟨.ERRCODE_UNIQUE_VIOLATION, "key prefix condition violation: %s"⟩ context
  else
    send_then srv context ⟨"RENAME %s %s", [.s keyval, .s values.newkey]⟩
      "failure renaming key %s" fun context =>
    let set_value (context : redisContext) : Result redisContext :=
      match values.newval with
      | some newval =>
        if fmstate.table_type = .PG_REDIS_SCALAR_TABLE then
          send_checked srv context ⟨"SET %s %s", [.s values.newkey, .s newval]⟩ "upating key %s"
        else .ok context
      | none => .ok context
    match set_value context with
    | .ok context =>
      match fmstate.keyset with
      | some keyset =>
        send_then srv context ⟨"SREM %s %s", [.s keyset, .s keyval]⟩
          "deleting keyset element %s" fun context =>
        send_checked srv context ⟨"SADD %s %s", [.s keyset, .s values.newkey]⟩
          "adding keyset element %s"
      | none => .ok context
    | .error e context => .error e context
    | .crash context => .crash context
    | .out_of_fuel => .out_of_fuel

/-- Lines 2738-2746 and 2769-2777: the score or hash value carried over to the new
member: the new value when the update sets one, otherwise the text that `fetch`
returns for the old member, duplicated with `pstrdup`. -/
def carried_value (srv : Server) (context : redisContext) (newval : Option Str)
    (fetch : Cmd) (message : String) : Result (Str × redisContext) :=
  match newval with
  | some newval => .ok (newval, context)
  | none =>
    let sent := redisCommand srv context fetch
    match check_reply sent.1 sent.2 .ERRCODE_FDW_UNABLE_TO_CREATE_EXECUTION message with
    | .ok context =>
      match sent.1 with
      | none => .crash context
      | some ereply =>
        match ereply.str_ptr with
        | none => .crash context
        | some str => .ok (pstrdup str, context)
    | .error e context => .error e context
    | .crash context => .crash context
    | .out_of_fuel => .out_of_fuel

/-- Lines 2706-2797: the member of a singleton table is replaced: removed and added
again under the new name, by table type. -/
def update_rename_singleton (srv : Server) (fmstate : RedisFdwModifyState)
    (context : redisContext) (singleton_key keyval : Str) (values : UpdateValues) :
    Result redisContext :=
  match fmstate.table_type with
  | .PG_REDIS_SCALAR_TABLE =>
    send_checked srv context ⟨"SET %s %s", [.s singleton_key, .s values.newkey]⟩
      "setting value %s"
  | .PG_REDIS_SET_TABLE =>
    send_then srv context ⟨"SREM %s %s", [.s singleton_key, .s keyval]⟩
      "removing value %s" fun context =>
    send_checked srv context ⟨"SADD %s %s", [.s singleton_key, .s values.newkey]⟩
      "setting value %s"
  | .PG_REDIS_ZSET_TABLE =>
    match carried_value srv context values.newval
        ⟨"ZSCORE %s %s", [.s singleton_key, .s keyval]⟩ "getting score for key %s" with
    | .ok (priority, context) =>
      send_then srv context ⟨"ZREM %s %s", [.s singleton_key, .s keyval]⟩
        "removing set element %s" fun context =>
      send_checked srv context
        ⟨"ZADD %s %s %s", [.s singleton_key, .s priority, .s values.newkey]⟩
        "setting element %s"
    | .error e context => .error e context
    | .crash context => .crash context
    | .out_of_fuel => .out_of_fuel
  | .PG_REDIS_HASH_TABLE =>
    match carried_value srv context values.newval
        ⟨"HGET %s %s", [.s singleton_key, .s keyval]⟩ "fetching vcalue for key %s" with
    | .ok (nval, context) =>
      send_then srv context ⟨"HDEL %s %s", [.s singleton_key, .s keyval]⟩
        "removing hash element %s" fun context =>
      send_checked srv context
        ⟨"HSET %s %s %s", [.s singleton_key, .s values.newkey, .s nval]⟩
        "adding hash element %s"
    | .error e context => .error e context
    | .crash context => .crash context
    | .out_of_fuel => .out_of_fuel
  | .PG_REDIS_LIST_TABLE => .ok context

/-- Lines 2799-2822: the key is unchanged and a scalar value, hash value or score is
set. -/
def update_set_value (srv : Server) (fmstate : RedisFdwModifyState) (context : redisContext)
    (keyval newval : Str) : Result redisContext :=
  match fmstate.singleton_key with
  | none => send_checked srv context ⟨"SET %s %s", [.s keyval, .s newval]⟩ "setting key %s"
  | some singleton_key =>
    if fmstate.table_type = .PG_REDIS_ZSET_TABLE then
      send_checked srv context ⟨"ZADD %s %s %s", [.s singleton_key, .s newval, .s keyval]⟩
        "setting key %s"
    else if fmstate.table_type = .PG_REDIS_HASH_TABLE then
      send_checked srv context ⟨"HSET %s %s %s", [.s singleton_key, .s keyval, .s newval]⟩
        "setting key %s"
    else .error ⟨.ERRCODE_INTERNAL_ERROR, "impossible update"⟩ context

/-- Lines 2824-2917: the collection under the new key is deleted and its elements
are written again, by table type. -/
def update_array (srv : Server) (fmstate : RedisFdwModifyState) (context : redisContext)
    (newkey : Str) (array_vals : List Str) : Result redisContext :=
  send_then srv context ⟨"DEL %s ", [.s newkey]⟩ "could not delete key %s" fun context =>
  match fmstate.table_type with
  | .PG_REDIS_SET_TABLE => sadd_loop srv "could not add element %s" newkey array_vals context
  | .PG_REDIS_LIST_TABLE => rpush_loop srv "could not add value %s" newkey array_vals context
  | .PG_REDIS_HASH_TABLE => hset_loop srv "could not add key %s" newkey array_vals context
  | .PG_REDIS_ZSET_TABLE => zadd_loop srv "could not add key %s" newkey 0 array_vals context
  | .PG_REDIS_SCALAR_TABLE =>
    .error ⟨.ERRCODE_FEATURE_NOT_SUPPORTED, "update not supported for this type of table"⟩
      context

/-- The function `redisExecForeignUpdate` on the old key, passed up as a junk
column, and the slot of the new row; returns the connection as the call leaves it. -/
def redisExecForeignUpdate (srv : Server) (fmstate : RedisFdwModifyState) (key : Datum)
    (slot : List Datum) : Result redisContext :=
  match fmstate.context with
  | none => .crash ⟨false, [], false⟩
  | some context =>
    match OutputFunctionCall key with
    | none => .crash context
    | some keyval =>
      match update_values_loop fmstate slot fmstate.target_attrs ⟨keyval, none, none⟩ with
      | .error none => .crash context
      | .error (some e) => .error e context
      | .ok values =>
        let keyed : Result redisContext :=
          if keyval ≠ values.newkey then
            match update_check_new_key srv fmstate context values.newkey with
            | .ok context =>
              match fmstate.singleton_key with
              | none => update_rename_scoped srv fmstate context keyval values
              | some singleton_key =>
                update_rename_singleton srv fmstate context singleton_key keyval values
            | .error e context => .error e context
            | .crash context => .crash context
            | .out_of_fuel => .out_of_fuel
          else
            match values.newval with
            | some newval => update_set_value srv fmstate context keyval newval
            | none => .ok context
        match keyed with
        | .ok context =>
          match values.array_vals with
          | some array_vals => update_array srv fmstate context values.newkey array_vals
          | none => .ok context
        | .error e context => .error e context
        | .crash context => .crash context
        | .out_of_fuel => .out_of_fuel

/-! ## Notions the statements on the modify callbacks use -/

/-- A command that changes the store. -/
def is_mutating (cmd : Cmd) : Bool :=
  cmd.fmt = "SET %s %s" ∨ cmd.fmt = "SADD %s %s" ∨ cmd.fmt = "RPUSH %s %s" ∨
    cmd.fmt = "HSET %s %s %s" ∨ cmd.fmt = "ZADD %s %s %s" ∨ cmd.fmt = "DEL %s" ∨
    cmd.fmt = "DEL %s " ∨ cmd.fmt = "RENAME %s %s" ∨ cmd.fmt = "SREM %s %s" ∨
    cmd.fmt = "HDEL %s %s" ∨ cmd.fmt = "ZREM %s %s"

/-- The number of commands sent that change the store. -/
def mutations (sent : List Cmd) : Nat := sent.countP is_mutating

/-- The connection as a modify callback leaves it; `none` when the model ran out of
fuel. -/
def left_context : Result redisContext → Option redisContext
  | .ok context => some context
  | .error _ context => some context
  | .crash context => some context
  | .out_of_fuel => none

/-- The existence check that `redisExecForeignInsert` sends for a key or member: the
check of the table type for a singleton table (none for a list), `EXISTS` for the key
of any other table. -/
def insert_check_request (fmstate : RedisFdwModifyState) (keyval : Str) : Option Cmd :=
  match fmstate.singleton_key with
  | some singleton_key => singleton_exists_request fmstate.table_type singleton_key keyval
  | none => some ⟨"EXISTS %s", [.s keyval]⟩

/-- The reply of an existence check reports the key or member as present: it is not
an error, and it is not the answer for an absent one (the integer 0, or nil for the
rank in a singleton sorted set). -/
def reports_present (fmstate : RedisFdwModifyState) (reply : redisReply) : Prop :=
  reply.type ≠ .REDIS_REPLY_ERROR ∧
    match fmstate.singleton_key with
    | some _ => reply_absent fmstate.table_type reply = false
    | none => ¬ (reply.type = .REDIS_REPLY_INTEGER ∧ reply.integer_ = 0)

/-- The row passes the checks that `redisExecForeignInsert` makes before the
existence check of a table that is not a singleton: the value is not null, it is an
array exactly when the table is not scalar, and the key carries the key prefix. -/
def reaches_check (fmstate : RedisFdwModifyState) (slot : List Datum) (keyval : Str) : Prop :=
  fmstate.singleton_key = none →
    slot_getattr slot 2 ≠ .null ∧
      (fmstate.array_elem_type = true ↔ fmstate.table_type ≠ .PG_REDIS_SCALAR_TABLE) ∧
      ∀ keyprefix, fmstate.keyprefix = some keyprefix → keyprefix <+: keyval

/-- The store answers a command, after the commands `sent`, with a reply that is not
an error. -/
def accepts (srv : Server) (sent : List Cmd) (cmd : Cmd) : Prop :=
  ∃ reply, srv.respond sent cmd = some reply ∧ reply.type ≠ .REDIS_REPLY_ERROR

/-- The store answers every command with a reply that is not an error. -/
def accepting (srv : Server) : Prop := ∀ sent cmd, accepts srv sent cmd

/-- The commands of a list sent in order, each reply passed to `check_reply`. -/
def send_all (srv : Server) (message : String) : List Cmd → redisContext → Result redisContext
  | [], context => .ok context
  | cmd :: rest, context =>
    match send_checked srv context cmd message with
    | .ok context => send_all srv message rest context
    | .error e context => .error e context
    | .crash context => .crash context
    | .out_of_fuel => .out_of_fuel

/-- The value-write commands for a key `k` and array elements `e[0..n-1]`: for a set
`SADD k e[i]` for `i = 0..n-1`; for a list `RPUSH k e[i]`; for a hash
`HSET k e[2j] e[2j+1]` for `j = 0..n/2-1`; for a sorted set `ZADD k i e[i]` with the
index as the score. -/
def write_commands (table_type : redis_table_type) (k : Str) (e : List Str) : List Cmd :=
  match table_type with
  | .PG_REDIS_SET_TABLE =>
    (List.range e.length).map fun i => ⟨"SADD %s %s", [.s k, .s (e.getD i [])]⟩
  | .PG_REDIS_LIST_TABLE =>
    (List.range e.length).map fun i => ⟨"RPUSH %s %s", [.s k, .s (e.getD i [])]⟩
  | .PG_REDIS_HASH_TABLE =>
    (List.range (e.length / 2)).map fun j =>
      ⟨"HSET %s %s %s", [.s k, .s (e.getD (2 * j) []), .s (e.getD (2 * j + 1) [])]⟩
  | .PG_REDIS_ZSET_TABLE =>
    (List.range e.length).map fun (i : Nat) =>
      ⟨"ZADD %s %s %s", [.s k, .s (fmt_lld (Int.ofNat i)), .s (e.getD i [])]⟩
  | .PG_REDIS_SCALAR_TABLE => []

/-- The command that registers a key in the key set of the table, if it has one. -/
def keyset_commands (keyset : Option Str) (k : Str) : List Cmd :=
  match keyset with
  | some keyset => [⟨"SADD %s %s", [.s keyset, .s k]⟩]
  | none => []

/-- An array the modify callbacks refuse: empty, holding a null element, or, for a
hash, with an odd number of elements. -/
def refused_array (table_type : redis_table_type) (elements : List (Option Str)) : Prop :=
  elements = [] ∨ none ∈ elements ∨
    (table_type = .PG_REDIS_HASH_TABLE ∧ elements.length % 2 ≠ 0)

/-- The commands that rename the key of a table that is not a singleton from `old`
to `new`: the existence check on `new`, `RENAME`, and for a table with a key set
`SREM keyset old` and `SADD keyset new`. -/
def rename_commands (keyset : Option Str) (old new : Str) : List Cmd :=
  ⟨"EXISTS %s", [.s new]⟩ :: ⟨"RENAME %s %s", [.s old, .s new]⟩ ::
    match keyset with
    | some keyset =>
      [⟨"SREM %s %s", [.s keyset, .s old]⟩, ⟨"SADD %s %s", [.s keyset, .s new]⟩]
    | none => []

/-! ## Example tables for the modify callbacks -/

/-- A store without keys that accepts every write: an existence check is answered
with 0 and every other command with the status `OK`. -/
def fresh_server : Server where
  connect_err := false
  respond := fun _ cmd =>
    if cmd.fmt = "EXISTS %s" then some (.integer 0) else some (.status "OK".data)

/-- The modify state of a connected table of the example that is not a singleton, of
the given table type and key set; its second column is an array unless the table is
scalar. -/
def demo_fmstate (table_type : redis_table_type) (keyset : Option Str) : RedisFdwModifyState :=
  { context := some demo_context
    address := "127.0.0.1".data
    port := 6379
    keyprefix := none
    keyset := keyset
    singleton_key := none
    table_type := table_type
    target_attrs := [1, 2]
    p_nums := 2
    array_elem_type := decide (table_type ≠ .PG_REDIS_SCALAR_TABLE) }

/-- The modify state of a connected singleton table of the example, held under the
key `t`. -/
def demo_singleton_fmstate (table_type : redis_table_type) : RedisFdwModifyState :=
  { demo_fmstate table_type none with
    singleton_key := some "t".data
    array_elem_type := false }

/-- A store without a password: it answers `AUTH` with an error reply, `SELECT` with
`OK`, and a listing with an empty page. -/
def open_server : Server where
  connect_err := false
  respond := fun _ cmd =>
    if cmd.fmt = "AUTH %s" then
      some (.error "ERR Client sent AUTH, but no password is set".data)
    else if cmd.fmt = "SELECT %d" then some (.status "OK".data)
    else if cmd.fmt = SCAN_FMT then some (.array [.string "0".data, .array []])
    else some (.error "ERR unknown command".data)

/-- The example table with the password `pw` configured. -/
def demo_password_options : redisTableOptions := { demo_options with password := some "pw".data }

/-- A store with the keys `a` (holding `1`) and `b` (holding `2`), listed on two
pages: the first page is `a` with the token `5`, the second is `b` with the token `0`. -/
def paged_server : Server where
  connect_err := false
  respond := fun _ cmd =>
    if cmd.fmt = "SELECT %d" then some (.status "OK".data)
    else if cmd = ⟨SCAN_FMT, [.s "0".data]⟩ then
      some (.array [.string "5".data, .array [.string "a".data]])
    else if cmd = ⟨SCAN_FMT, [.s "5".data]⟩ then
      some (.array [.string "0".data, .array [.string "b".data]])
    else if cmd = ⟨"GET %s", [.s "a".data]⟩ then some (.string "1".data)
    else if cmd = ⟨"GET %s", [.s "b".data]⟩ then some (.string "2".data)
    else if cmd.fmt = "EXISTS %s" then some (.integer 1)
    else none

/-- The state of the scan of the store `paged_server` after `redisBeginForeignScan`:
the first page is in, the cursor is `5`. -/
def paged_state : RedisFdwExecutionState :=
  { demo_state with reply := some (.array [.string "a".data]) }

/-- The state of that scan once both rows have been returned: the second page is in,
the cursor has ended. -/
def paged_state_end : RedisFdwExecutionState :=
  { paged_state with
    context := ⟨false, [⟨"SELECT %d", [.d 0]⟩, ⟨SCAN_FMT, [.s "0".data]⟩,
      ⟨"GET %s", [.s "a".data]⟩, ⟨SCAN_FMT, [.s "5".data]⟩, ⟨"GET %s", [.s "b".data]⟩], false⟩
    reply := some (.array [.string "b".data])
    row := 1
    cursor_id := none }

/-- A store that answers `SELECT` with the reply `select` and every other command
with the reply `other`. -/
def reply_server (select other : redisReply) : Server where
  connect_err := false
  respond := fun _ cmd => if cmd.fmt = "SELECT %d" then some select else some other

/-! ## A store with the standard semantics of the commands

The claims on round trips are stated against a store with the standard semantics of
`EXISTS`, `GET`, `SET`, `DEL`, `RENAME`, `SADD`, `SREM`, `SISMEMBER`, `RPUSH`,
`LRANGE`, `HSET` and `ZADD`.  The store below is that reference: a finite map from
keys to strings, lists, sets, hashes and sorted sets.  A listing command returns the
whole listing in one page; the score of `ZADD` is taken as given. -/

/-- A value held under a key of the store: a string, a list, a set, a hash (fields
with their values) or a sorted set (members with their scores). -/
inductive Value
  | string (s : Str)
  | list (items : List Str)
  | set (members : List Str)
  | hash (fields : List (Str × Str))
  | zset (scores : List (Str × Str))
  deriving DecidableEq, Repr

/-- The store: keys with their values, the value of a key being that of its first
entry. -/
abbrev Store := List (Str × Value)

/-- The value held under a key, if any. -/
def store_get : Store → Str → Option Value
  | [], _ => none
  | (k', v) :: rest, k => if k' = k then some v else store_get rest k

/-- The store without a key. -/
def store_del (st : Store) (k : Str) : Store := st.filter (fun kv => kv.1 ≠ k)

/-- The store with a key set to a value. -/
def store_put (st : Store) (k : Str) (v : Value) : Store := (k, v) :: store_del st k

/-- The keys of the store. -/
def store_keys (st : Store) : List Str := st.map (fun kv => kv.1)

/-- The bytes that `redisCommand` sends for an argument: the C string of a `%s`
argument, the decimal digits of a `%d` argument. -/
def arg_text : Arg → Str
  | .s v => cstr v
  | .d v => fmt_lld v

/-- The status reply `OK`. -/
def OK : redisReply := .status "OK".data

/-- The error reply to a command on a key that holds a value of another kind. -/
def WRONGTYPE : redisReply :=
  .error "WRONGTYPE Operation against a key holding the wrong kind of value".data

/-- The standard semantics of a command with one argument. -/
def store_exec_one (fmt : String) (a : Str) (st : Store) : redisReply × Store :=
  if fmt = "SELECT %d" ∨ fmt = "AUTH %s" then (OK, st)
  else if fmt = "EXISTS %s" then (.integer (if (store_get st a).isSome then 1 else 0), st)
  else if fmt = "GET %s" then
    match store_get st a with
    | none => (.nil, st)
    | some (.string s) => (.string s, st)
    | some _ => (WRONGTYPE, st)
  else if fmt = "LRANGE %s 0 -1" then
    match store_get st a with
    | none => (.array [], st)
    | some (.list items) => (.array (items.map .string), st)
    | some _ => (WRONGTYPE, st)
  else if fmt = "SMEMBERS %s" then
    match store_get st a with
    | none => (.array [], st)
    | some (.set members) => (.array (members.map .string), st)
    | some _ => (WRONGTYPE, st)
  else if fmt = "DEL %s" ∨ fmt = "DEL %s " then
    (.integer (if (store_get st a).isSome then 1 else 0), store_del st a)
  else if fmt = SCAN_FMT then
    (.array [.string ZERO, .array ((store_keys st).map .string)], st)
  else (.error "ERR unknown command".data, st)

/-- The standard semantics of a command with two arguments. -/
def store_exec_two (fmt : String) (a b : Str) (st : Store) : redisReply × Store :=
  if fmt = "SET %s %s" then (OK, store_put st a (.string b))
  else if fmt = "RENAME %s %s" then
    match store_get st a with
    | none => (.error "ERR no such key".data, st)
    | some v => (OK, store_put (store_del st a) b v)
  else if fmt = "SADD %s %s" then
    match store_get st a with
    | none => (.integer 1, store_put st a (.set [b]))
    | some (.set members) =>
      if b ∈ members then (.integer 0, st)
      else (.integer 1, store_put st a (.set (members ++ [b])))
    | some _ => (WRONGTYPE, st)
  else if fmt = "SREM %s %s" then
    match store_get st a with
    | none => (.integer 0, st)
    | some (.set members) =>
      if b ∈ members then
        (.integer 1,
          if members.filter (fun m => m ≠ b) = [] then store_del st a
          else store_put st a (.set (members.filter (fun m => m ≠ b))))
      else (.integer 0, st)
    | some _ => (WRONGTYPE, st)
  else if fmt = "SISMEMBER %s %s" then
    match store_get st a with
    | none => (.integer 0, st)
    | some (.set members) => (.integer (if b ∈ members then 1 else 0), st)
    | some _ => (WRONGTYPE, st)
  else if fmt = "RPUSH %s %s" then
    match store_get st a with
    | none => (.integer 1, store_put st a (.list [b]))
    | some (.list items) =>
      (.integer (items.length + 1 : Nat), store_put st a (.list (items ++ [b])))
    | some _ => (WRONGTYPE, st)
  else if fmt = SCAN_MATCH_FMT then
    (.array [.string ZERO,
      .array (((store_keys st).filter (fun k => b.isPrefixOf k)).map .string)], st)
  else if fmt = SSCAN_FMT then
    match store_get st a with
    | none => (.array [.string ZERO, .array []], st)
    | some (.set members) => (.array [.string ZERO, .array (members.map .string)], st)
    | some _ => (WRONGTYPE, st)
  else (.error "ERR unknown command".data, st)

/-- The standard semantics of a command with three arguments: `HSET key field value`
and `ZADD key score member`. -/
def store_exec_three (fmt : String) (a b c : Str) (st : Store) : redisReply × Store :=
  if fmt = "HSET %s %s %s" then
    match store_get st a with
    | none => (.integer 1, store_put st a (.hash [(b, c)]))
    | some (.hash fields) =>
      if fields.any (fun fv => fv.1 = b) then
        (.integer 0, store_put st a (.hash (fields.map fun fv => if fv.1 = b then (b, c) else fv)))
      else (.integer 1, store_put st a (.hash (fields ++ [(b, c)])))
    | some _ => (WRONGTYPE, st)
  else if fmt = "ZADD %s %s %s" then
    match store_get st a with
    | none => (.integer 1, store_put st a (.zset [(c, b)]))
    | some (.zset scores) =>
      if scores.any (fun ms => ms.1 = c) then
        (.integer 0, store_put st a (.zset (scores.map fun ms => if ms.1 = c then (c, b) else ms)))
      else (.integer 1, store_put st a (.zset (scores ++ [(c, b)])))
    | some _ => (WRONGTYPE, st)
  else (.error "ERR unknown command".data, st)

/-- The standard semantics of a command: its reply and the store after it. -/
def store_exec (cmd : Cmd) (st : Store) : redisReply × Store :=
  match cmd.args.map arg_text with
  | [a] => store_exec_one cmd.fmt a st
  | [a, b] => store_exec_two cmd.fmt a b st
  | [a, b, c] => store_exec_three cmd.fmt a b c st
  | _ => (.error "ERR unknown command".data, st)

/-- The store after the commands of a connection, oldest first. -/
def store_run (st : Store) (sent : List Cmd) : Store :=
  sent.foldl (fun st cmd => (store_exec cmd st).2) st

/-- The server that holds the store `st` when a connection is made and answers every
command of the connection by the standard semantics. -/
def store_server (st : Store) : Server where
  connect_err := false
  respond := fun sent cmd => some (store_exec cmd (store_run st sent)).1

/-- A store with the key `old` holding the string `v`, registered in the key set `ks`. -/
def demo_store : Store := [("old".data, .string "v".data), ("ks".data, .set ["old".data])]

/-- The modify state of an update of the key column of a scalar table with the key
set `ks`. -/
def demo_rename_fmstate : RedisFdwModifyState :=
  { demo_fmstate .PG_REDIS_SCALAR_TABLE (some "ks".data) with target_attrs := [1] }

/-! ## Notions for the later statements -/

/-- Line 1681: the number of bytes `palloc(ir->len * 2 + 3)` allocates for the
escape buffer of an element of length `len`, computed in `size_t`. -/
def buff_size (len : Nat) : Nat := (len * 2 + 3) % 2 ^ 64

/-! ## redisExecForeignDelete (lines 2411-2490) -/

/-- Lines 2438-2470: the command that deletes the row, by table type for a singleton
table (a list has none), `DEL` of the key for any other table. -/
def delete_request (fmstate : RedisFdwModifyState) (keyval : Str) : Option Cmd :=
  match fmstate.singleton_key with
  | some singleton_key =>
    match fmstate.table_type with
    | .PG_REDIS_SCALAR_TABLE => some ⟨"DEL %s", [.s singleton_key]⟩
    | .PG_REDIS_SET_TABLE => some ⟨"SREM %s %s", [.s singleton_key, .s keyval]⟩
    | .PG_REDIS_HASH_TABLE => some ⟨"HDEL %s %s", [.s singleton_key, .s keyval]⟩
    | .PG_REDIS_ZSET_TABLE => some ⟨"ZREM %s %s", [.s singleton_key, .s keyval]⟩
    | .PG_REDIS_LIST_TABLE => none
  | none => some ⟨"DEL %s", [.s keyval]⟩

/-- The function `redisExecForeignDelete` on the key of the row, passed up as a junk
column; returns the connection as the call leaves it. -/
def redisExecForeignDelete (srv : Server) (fmstate : RedisFdwModifyState) (key : Datum) :
    Result redisContext :=
  match fmstate.context with
  | none => .crash ⟨false, [], false⟩
  | some context =>
    match OutputFunctionCall key with
    | none => .crash context
    | some keyval =>
      match delete_request fmstate keyval with
      | none =>
        .error ⟨.ERRCODE_FEATURE_NOT_SUPPORTED, "delete not supported for this type of table"⟩
          context
      | some cmd =>
        match send_checked srv context cmd "failed to delete key %s" with
        | .ok context =>
          match fmstate.keyset with
          | some keyset =>
            send_checked srv context ⟨"SREM %s %s", [.s keyset, .s keyval]⟩
              "failed to delete keyset element %s"
          | none => .ok context
        | .error e context => .error e context
        | .crash context => .crash context
        | .out_of_fuel => .out_of_fuel

/-! ## redis_fdw_validator (lines 303-488) -/

/-- The catalogs whose objects carry options. -/
inductive Catalog
  | ForeignDataWrapperRelationId
  | ForeignServerRelationId
  | UserMappingRelationId
  | ForeignTableRelationId
  deriving DecidableEq, Repr

/-- The table `valid_options` (lines 83-101): option names with the catalog in which
each may appear. -/
def valid_options : List (Str × Catalog) :=
  [("address".data, .ForeignServerRelationId),
    ("port".data, .ForeignServerRelationId),
    ("password".data, .UserMappingRelationId),
    ("database".data, .ForeignTableRelationId),
    ("singleton_key".data, .ForeignTableRelationId),
    ("tablekeyprefix".data, .ForeignTableRelationId),
    ("tablekeyset".data, .ForeignTableRelationId),
    ("tabletype".data, .ForeignTableRelationId)]

/-- The function `redisIsValidOption` (lines 495-512). -/
def redisIsValidOption (option : Str) (context : Catalog) : Bool :=
  valid_options.any (fun opt => decide (context = opt.2 ∧ opt.1 = option))

/-- The local variables of `redis_fdw_validator` that record the options seen. -/
structure ValidatorState where
  svr_address : Option Str
  svr_port : Int
  svr_password : Option Str
  svr_database : Int
  tabletype : redis_table_type
  tablekeyprefix : Option Str
  tablekeyset : Option Str
  singletonkey : Option Str
  deriving DecidableEq, Repr

/-- Lines 358-378: the branches for `address` and `port`, an `if ... else if`
of their own. -/
def validate_server_option (atoi : Str → Int) (defname value : Str) (state : ValidatorState) :
    Except PgError ValidatorState :=
  if defname = "address".data then
    if state.svr_address.isSome then
      .error ⟨.ERRCODE_SYNTAX_ERROR, "conflicting or redundant options: address (%s)"⟩
    else .ok { state with svr_address := some value }
  else if defname = "port".data then
    if state.svr_port ≠ 0 then
      .error ⟨.ERRCODE_SYNTAX_ERROR, "conflicting or redundant options: port (%s)"⟩
    else .ok { state with svr_port := atoi value }
  else .ok state

/-- Lines 379-484: the second chain of branches, from `password` to `tabletype`.
The branch for the singleton key compares the name with `"singleton_key "`, the
option name followed by a blank. -/
def validate_table_option (atoi : Str → Int) (defname value : Str) (state : ValidatorState) :
    Except PgError ValidatorState :=
  if defname = "password".data then
    if state.svr_password.isSome then
      .error ⟨.ERRCODE_SYNTAX_ERROR, "conflicting or redundant options: password"⟩
    else .ok { state with svr_password := some value }
  else if defname = "database".data then
    if state.svr_database ≠ 0 then
      .error ⟨.ERRCODE_SYNTAX_ERROR, "conflicting or redundant options: database (%s)"⟩
    else .ok { state with svr_database := atoi value }
  else if defname = "singleton_key ".data then
    if state.tablekeyset.isSome then
      .error ⟨.ERRCODE_SYNTAX_ERROR,
        "conflicting options: tablekeyset(%s) and singleton_key (%s)"⟩
    else if state.tablekeyprefix.isSome then
      .error ⟨.ERRCODE_SYNTAX_ERROR,
        "conflicting options: tablekeyprefix(%s) and singleton_key (%s)"⟩
    else if state.singletonkey.isSome then
      .error ⟨.ERRCODE_SYNTAX_ERROR, "conflicting or redundant options: singleton_key (%s)"⟩
    else .ok { state with singletonkey := some value }
  else if defname = "tablekeyprefix".data then
    if state.tablekeyset.isSome then
      .error ⟨.ERRCODE_SYNTAX_ERROR,
        "conflicting options: tablekeyset(%s) and tablekeyprefix (%s)"⟩
    else if state.singletonkey.isSome then
      .error ⟨.ERRCODE_SYNTAX_ERROR,
        "conflicting options: singleton_key(%s) and tablekeyprefix (%s)"⟩
    else if state.tablekeyprefix.isSome then
      .error ⟨.ERRCODE_SYNTAX_ERROR, "conflicting or redundant options: tablekeyprefix (%s)"⟩
    else .ok { state with tablekeyprefix := some value }
  else if defname = "tablekeyset".data then
    if state.tablekeyprefix.isSome then
      .error ⟨.ERRCODE_SYNTAX_ERROR,
        "conflicting options: tablekeyprefix (%s) and tablekeyset (%s)"⟩
    else if state.singletonkey.isSome then
      .error ⟨.ERRCODE_SYNTAX_ERROR,
        "conflicting options: singleton_key(%s) and tablekeyset (%s)"⟩
    else if state.tablekeyset.isSome then
      .error ⟨.ERRCODE_SYNTAX_ERROR, "conflicting or redundant options: tablekeyset (%s)"⟩
    else .ok { state with tablekeyset := some value }
  else if defname = "tabletype".data then
    if state.tabletype ≠ .PG_REDIS_SCALAR_TABLE then
      .error ⟨.ERRCODE_SYNTAX_ERROR, "conflicting or redundant options: tabletype (%s)"⟩
    else if value = "hash".data then .ok { state with tabletype := .PG_REDIS_HASH_TABLE }
    else if value = "list".data then .ok { state with tabletype := .PG_REDIS_LIST_TABLE }
    else if value = "set".data then .ok { state with tabletype := .PG_REDIS_SET_TABLE }
    else if value = "zset".data then .ok { state with tabletype := .PG_REDIS_ZSET_TABLE }
    else
      .error ⟨.ERRCODE_SYNTAX_ERROR,
        "invalid tabletype (%s) - must be hash, list, set or zset"⟩
  else .ok state

/-- Lines 331-485: the loop over the options, each given by its name and its value;
`atoi` is the C library function. -/
def validator_loop (atoi : Str → Int) (catalog : Catalog) :
    List (Str × Str) → ValidatorState → Except PgError ValidatorState
  | [], state => .ok state
  | (defname, value) :: rest, state =>
    if ! redisIsValidOption defname catalog then
      .error ⟨.ERRCODE_FDW_INVALID_OPTION_NAME, "invalid option \"%s\""⟩
    else
      match validate_server_option atoi defname value state with
      | .error e => .error e
      | .ok state =>
        match validate_table_option atoi defname value state with
        | .error e => .error e
        | .ok state => validator_loop atoi catalog rest state

/-- The function `redis_fdw_validator` on the option list and the catalog of the
object; returns normally or raises an error. -/
def redis_fdw_validator (atoi : Str → Int) (options_list : List (Str × Str))
    (catalog : Catalog) : Except PgError Unit :=
  match validator_loop atoi catalog options_list
      ⟨none, 0, none, 0, .PG_REDIS_SCALAR_TABLE, none, none, none⟩ with
  | .error e => .error e
  | .ok _ => .ok ()

/-! ## redisIterateForeignScanSingleton (lines 1434-1549) -/

/-- The call `snprintf(key, 64, "%lld", ...)` of line 1521 on the buffer behind the
text `str` of a reply (its bytes followed by the terminating NUL): the digits and a
NUL overwrite the start of the buffer.  Returns the bytes of the text afterwards;
`none` when the digits and the NUL do not fit the buffer. -/
def snprintf_into (str digits : Str) : Option Str :=
  if digits.length ≤ str.length then
    some ((digits ++ NUL :: (str ++ [NUL]).drop (digits.length + 1)).take str.length)
  else none

/-- A reply with its text replaced, the kind kept. -/
def with_str (reply : redisReply) (str : Str) : redisReply :=
  match reply with
  | .string _ => .string str
  | .status _ => .status str
  | .error _ => .error str
  | reply => reply

/-- An array reply with the element at a position replaced. -/
def set_element (reply : redisReply) (i : Nat) (element : redisReply) : redisReply :=
  match reply with
  | .array es => .array (es.set i element)
  | reply => reply

/-- Lines 1458-1481 and 1482-1507: the one row of a singleton scalar, or of a hash
read with a qualifier: the digits of an integer, the text of a string, an error for
an array, nothing for the other kinds. -/
def single_value (reply : redisReply) (message : String) (context : redisContext) :
    Except (PgError × redisContext) (Option Str) :=
  match reply with
  | .integer i => .ok (some (fmt_lld i))
  | .string str => .ok (some str)
  | .array _ => .error (⟨.ERRCODE_FDW_UNABLE_TO_CREATE_REPLY, message⟩, redisFree context)
  | _ => .ok none

/-- Lines 1513-1537: the value column of a hash field or the score of a sorted set
member, read from the element after the key at position `i`.  For an integer the
digits are written with `snprintf` into the buffer of the key, and the value column
is the buffer of 64 bytes just allocated, whose content `garbage` is whatever the
allocator left there.  Returns the key column, the value column and the reply. -/
def pair_value (garbage : Str) (festate : RedisFdwExecutionState) (reply : redisReply)
    (i : Nat) (kelem : redisReply) :
    Result (Option Str × Option Str × redisReply) :=
  match (reply.element_[i + 1]? : Option redisReply) with
  | none => .crash festate.context
  | some dreply =>
    match dreply with
    | .integer n =>
      match kelem.str_ptr with
      | none => .crash festate.context
      | some str =>
        match snprintf_into str (fmt_lld n) with
        | none => .crash festate.context
        | some written =>
          .ok (some written, some garbage, set_element reply i (with_str kelem written))
    | .string str => .ok (kelem.str_ptr, some str, reply)
    | .array _ =>
      .error ⟨.ERRCODE_FDW_UNABLE_TO_CREATE_REPLY,
        "not expecting array for a hash value or zset score"⟩ (redisFree festate.context)
    | _ => .ok (kelem.str_ptr, none, reply)

/-- The function `redisIterateForeignScanSingleton`.  The slot is `none` when empty
and holds the key column and the value column, each `none` for a `NULL` pointer,
otherwise.  `garbage` is the content of a fresh allocation of 64 bytes. -/
def redisIterateForeignScanSingleton (garbage : Str) (festate : RedisFdwExecutionState) :
    Result (Option (Option Str × Option Str) × RedisFdwExecutionState) :=
  if festate.row < 0 then .ok (none, festate)
  else
    match festate.reply with
    | none => .crash festate.context
    | some reply =>
      if festate.table_type = .PG_REDIS_SCALAR_TABLE then
        match single_value reply "not expecting an array for a singleton scalar table"
            festate.context with
        | .error (e, context) => .error e context
        | .ok (some key) => .ok (some (some key, none), { festate with row := -1 })
        | .ok none => .ok (none, { festate with row := -1 })
      else if festate.table_type = .PG_REDIS_HASH_TABLE ∧ festate.qual_value.isSome then
        match single_value reply "not expecting an array for a single hash property: %s"
            festate.context with
        | .error (e, context) => .error e context
        | .ok (some data) =>
          .ok (some (festate.qual_value, some data), { festate with row := -1 })
        | .ok none => .ok (none, { festate with row := -1 })
      else if to_size_t festate.row < reply.elements then
        match (reply.element_[festate.row.toNat]? : Option redisReply) with
        | none => .crash festate.context
        | some kelem =>
          if festate.table_type = .PG_REDIS_HASH_TABLE ∨
              festate.table_type = .PG_REDIS_ZSET_TABLE then
            match pair_value garbage festate reply festate.row.toNat kelem with
            | .ok (key, data, reply) =>
              .ok (some (key, data),
                { festate with row := festate.row + 2, reply := some reply })
            | .error e context => .error e context
            | .crash context => .crash context
            | .out_of_fuel => .out_of_fuel
          else .ok (some (kelem.str_ptr, none), { festate with row := festate.row + 1 })
      else .ok (none, festate)

/-- The state of a scan of the singleton hash `h` that holds the reply `reply`. -/
def demo_hash_state (reply : redisReply) (qual_value : Option Str) : RedisFdwExecutionState :=
  { demo_state with
    context := ⟨false, [⟨"SELECT %d", [.d 0]⟩], false⟩
    reply := some reply
    qual_value := qual_value
    singleton_key := some "h".data
    table_type := .PG_REDIS_HASH_TABLE
    cursor_search_string := none
    cursor_id := none }

/-- The key `k` is a member of the key set `ks` of the store. -/
def member (s : Store) (ks k : Str) : Prop :=
  ∃ m, store_get s ks = some (.set m) ∧ k ∈ m

/-- The key set is in step with the store at the key `k`: `k` is a member of the key
set exactly when it exists in the store. -/
def synced (s : Store) (ks k : Str) : Prop :=
  member s ks k ↔ store_get s k ≠ none

/-- Every command of a list, sent in order after the commands `base`, is answered
with a reply that is not an error. -/
def all_accepted (srv : Server) : List Cmd → List Cmd → Prop
  | _, [] => True
  | base, cmd :: rest => accepts srv base cmd ∧ all_accepted srv (base ++ [cmd]) rest

/-- A command that writes a value, an element, a field or a member under the key `k`. -/
def is_write_on (k : Str) (cmd : Cmd) : Prop :=
  (∃ x, cmd = ⟨"SET %s %s", [.s k, .s x]⟩ ∨ cmd = ⟨"SADD %s %s", [.s k, .s x]⟩ ∨
      cmd = ⟨"RPUSH %s %s", [.s k, .s x]⟩) ∨
    ∃ x y, cmd = ⟨"HSET %s %s %s", [.s k, .s x, .s y]⟩ ∨
      cmd = ⟨"ZADD %s %s %s", [.s k, .s x, .s y]⟩

/-! ## A singleton hash for the examples -/

theorem cstr_append_NUL (l rest : Str) (h : NUL ∉ l) : cstr (l ++ NUL :: rest) = l := by
  induction l with
  | nil => simp [cstr]
  | cons c l ih =>
    have hc : c ≠ NUL := fun e => h (by simp [e])
    have hl : NUL ∉ l := fun e => h (by simp [e])
    have := ih hl
    have hb : (c != NUL) = true := by simpa using hc
    simp only [cstr] at this ⊢
    rw [List.cons_append, List.takeWhile_cons, hb, if_pos rfl, this]

theorem cstr_of_no_NUL (l : Str) (h : NUL ∉ l) : cstr l = l := by
  induction l with
  | nil => simp [cstr]
  | cons c l ih =>
    have hc : c ≠ NUL := fun e => h (by simp [e])
    have hl : NUL ∉ l := fun e => h (by simp [e])
    have := ih hl
    have hb : (c != NUL) = true := by simpa using hc
    simp only [cstr] at this ⊢
    rw [List.takeWhile_cons, hb, if_pos rfl, this]

theorem escape_loop_eq (s buff : Str) : escape_loop s buff = buff ++ escaped s := by
  induction s generalizing buff with
  | nil => simp [escape_loop, escaped]
  | cons c s ih =>
    simp only [escape_loop, escaped]
    split <;> simp [ih]

theorem NUL_not_mem_escaped (s : Str) (h : NUL ∉ s) : NUL ∉ escaped s := by
  induction s with
  | nil => simp [escaped]
  | cons c s ih =>
    have hc : NUL ≠ c := fun e => h (by simp [e])
    have hl : NUL ∉ s := fun e => h (by simp [e])
    have hb : NUL ≠ '\\' := by decide
    simp only [escaped]
    split <;> simp [hc, hb, ih hl]

theorem cstr_quote_buffer (s : Str) (h : NUL ∉ s) :
    cstr (quote_buffer s) = '"' :: (escaped s ++ ['"']) := by
  have hq : NUL ≠ '"' := by decide
  have hmem : NUL ∉ '"' :: (escaped s ++ ['"']) := by
    simp [hq, NUL_not_mem_escaped s h]
  have := cstr_append_NUL ('"' :: (escaped s ++ ['"'])) [] hmem
  simpa [quote_buffer, escape_loop_eq] using this

/-! ## The array literal -/

theorem join_commas_cons (x : Str) (ys : List Str) :
    join_commas (x :: ys) = x ++ (if ys = [] then [] else ',' :: join_commas ys) := by
  cases ys <;> simp [join_commas]

theorem process_redis_array_loop_ok (v : Str → Bool) (es : List redisReply)
    (hk : ∀ ir ∈ es, rendered_kind v ir)
    (ha : es.any (fun ir => ir.type = .REDIS_REPLY_ARRAY) = false)
    (res : Str) (need_sep : Bool) :
    process_redis_array_loop v es res need_sep
      = .ok (res ++ separator need_sep es ++ join_commas (es.map render_element)) := by
  induction es generalizing res need_sep with
  | nil => simp [process_redis_array_loop, separator, join_commas]
  | cons ir rest ih =>
    have hk1 := hk ir (by simp)
    have hrest : ∀ ir ∈ rest, rendered_kind v ir := fun x hx => hk x (by simp [hx])
    simp only [List.any_cons, Bool.or_eq_false_iff] at ha
    have ih1 := fun res => ih hrest ha.2 res true
    have hsep : ∀ r : Str, r ++ separator true rest ++ join_commas (rest.map render_element)
        = r ++ (if rest.map render_element = [] then [] else ',' :: join_commas (rest.map render_element)) := by
      intro r; cases rest <;> simp [separator, join_commas]
    cases ir with
    | array es => simp [redisReply.type] at ha
    | error s => simp [rendered_kind] at hk1
    | string s =>
      simp only [process_redis_array_loop, redisReply.type, redisReply.str_, hk1.1, if_true,
        ih1, hsep, cstr_quote_buffer s hk1.2, List.map_cons, join_commas_cons, render_element]
      cases need_sep <;> simp [separator]
    | status s =>
      simp only [process_redis_array_loop, redisReply.type, redisReply.str_, hk1.1, if_true,
        ih1, hsep, cstr_quote_buffer s hk1.2, List.map_cons, join_commas_cons, render_element]
      cases need_sep <;> simp [separator]
    | integer i =>
      simp only [process_redis_array_loop, redisReply.type, redisReply.integer_,
        ih1, hsep, List.map_cons, join_commas_cons, render_element]
      cases need_sep <;> simp [separator]
    | nil =>
      simp only [process_redis_array_loop, redisReply.type,
        ih1, hsep, List.map_cons, join_commas_cons, render_element]
      cases need_sep <;> simp [separator]

theorem process_redis_array_loop_nested (v : Str → Bool) (es : List redisReply)
    (hk : ∀ ir ∈ es, rendered_kind v ir)
    (ha : es.any (fun ir => ir.type = .REDIS_REPLY_ARRAY) = true)
    (res : Str) (need_sep : Bool) :
    process_redis_array_loop v es res need_sep
      = .error ⟨.ERRCODE_INVALID_PARAMETER_VALUE, "nested array returns not yet supported"⟩ := by
  induction es generalizing res need_sep with
  | nil => simp at ha
  | cons ir rest ih =>
    have hk1 := hk ir (by simp)
    have hrest : ∀ ir ∈ rest, rendered_kind v ir := fun x hx => hk x (by simp [hx])
    cases ir with
    | array es => simp [process_redis_array_loop, redisReply.type]
    | error s => simp [rendered_kind] at hk1
    | string s =>
      have ha2 : rest.any (fun ir => ir.type = .REDIS_REPLY_ARRAY) = true := by
        simpa [redisReply.type] using ha
      simp [process_redis_array_loop, redisReply.type, redisReply.str_, hk1.1, ih hrest ha2]
    | status s =>
      have ha2 : rest.any (fun ir => ir.type = .REDIS_REPLY_ARRAY) = true := by
        simpa [redisReply.type] using ha
      simp [process_redis_array_loop, redisReply.type, redisReply.str_, hk1.1, ih hrest ha2]
    | integer i =>
      have ha2 : rest.any (fun ir => ir.type = .REDIS_REPLY_ARRAY) = true := by
        simpa [redisReply.type] using ha
      simp [process_redis_array_loop, redisReply.type, ih hrest ha2]
    | nil =>
      have ha2 : rest.any (fun ir => ir.type = .REDIS_REPLY_ARRAY) = true := by
        simpa [redisReply.type] using ha
      simp [process_redis_array_loop, redisReply.type, ih hrest ha2]

theorem process_redis_array_ok (v : Str → Bool) (es : List redisReply)
    (hk : ∀ ir ∈ es, rendered_kind v ir)
    (ha : es.any (fun ir => ir.type = .REDIS_REPLY_ARRAY) = false) :
    process_redis_array v (.array es)
      = .ok ('{' :: (join_commas (es.map render_element) ++ ['}'])) := by
  unfold process_redis_array
  simp [redisReply.element_, process_redis_array_loop_ok v es hk ha, separator]
  cases es <;> simp [separator]

/-- C1: for every reply whose elements are of the kinds the reference definition
names (string or status text that is valid and free of NUL, integer, nil, array),
`process_redis_array` equals the reference definition: an error when an element is an
array, otherwise the braces around the comma-joined renderings. -/
theorem process_redis_array_eq_reference (v : Str → Bool) (es : List redisReply)
    (hk : ∀ ir ∈ es, rendered_kind v ir) :
    process_redis_array v (.array es) = array_literal_reference es := by
  unfold array_literal_reference
  cases ha : es.any (fun ir => ir.type = .REDIS_REPLY_ARRAY) with
  | true =>
    simp [process_redis_array, redisReply.element_, process_redis_array_loop_nested v es hk ha]
  | false =>
    simp [process_redis_array_ok v es hk ha]

/-- A reply with a quoted string, a negative integer and a nil renders as the
reference definition says. -/
theorem process_redis_array_eq_reference_witness :
    (∀ ir ∈ [redisReply.string "a\"b".data, .integer (-12), .nil],
        rendered_kind (fun _ => true) ir) ∧
      process_redis_array (fun _ => true)
        (.array [.string "a\"b".data, .integer (-12), .nil])
        = array_literal_reference [.string "a\"b".data, .integer (-12), .nil] ∧
      array_literal_reference [.string "a\"b".data, .integer (-12), .nil]
        = .ok "\x7b\"a\\\"b\",-12,NULL\x7d".data :=
  have h : ∀ ir ∈ [redisReply.string "a\"b".data, .integer (-12), .nil],
      rendered_kind (fun _ => true) ir := by
    simp [rendered_kind, NUL]
  ⟨h, process_redis_array_eq_reference (fun _ => true) _ h, by decide⟩

/-! ## The round trip of the string escaping -/

theorem read_items_escaped (s acc : Str) (items : List Str) (rest : Str) :
    read_items (.item acc) items (escaped s ++ '"' :: rest)
      = read_items .closed (items ++ [acc ++ s]) rest := by
  induction s generalizing acc with
  | nil => simp [escaped, read_items]
  | cons c s ih =>
    simp only [escaped]
    by_cases hq : c = '"'
    · subst hq
      simp [read_items, ih]
    · by_cases hb : c = '\\'
      · subst hb
        simp [read_items, ih]
      · simp [read_items, hq, hb, ih]

theorem read_items_quoted (s : Str) (items : List Str) (rest : Str) :
    read_items (.item []) items (escaped s ++ '"' :: rest)
      = read_items .closed (items ++ [s]) rest := by
  simpa using read_items_escaped s [] items rest

theorem read_items_tail (ss : List Str) (items : List Str) :
    read_items .closed items
        ((if ss.map (fun s => render_element (.string s)) = [] then []
          else ',' :: join_commas (ss.map (fun s => render_element (.string s)))) ++ ['}'])
      = some (items ++ ss) := by
  induction ss generalizing items with
  | nil => simp [read_items]
  | cons s ss ih =>
    have := ih (items ++ [s])
    simp only [List.map_cons, join_commas_cons, render_element] at this ⊢
    simp only [List.map_eq_nil_iff, List.append_assoc, List.singleton_append,
      List.cons_append, List.nil_append] at this
    simp [read_items, read_items_quoted, this]

theorem read_array_literal_strings (ss : List Str) :
    read_array_literal
        ('{' :: (join_commas (ss.map (fun s => render_element (.string s))) ++ ['}']))
      = some ss := by
  cases ss with
  | nil => simp [read_array_literal, read_items, join_commas]
  | cons s ss =>
    have := read_items_tail ss [s]
    simp only [List.map_cons, join_commas_cons, render_element] at this ⊢
    simp only [List.map_eq_nil_iff, List.append_assoc, List.singleton_append,
      List.cons_append, List.nil_append] at this
    simp [read_array_literal, read_items, read_items_quoted, this]

/-- C2: for every list of strings that are valid text and hold no NUL byte,
`process_redis_array` returns a literal, and reading that literal as a
brace-delimited, comma-separated list of double-quoted items with backslash escapes
gives back exactly the original list: same elements, same length, same order. -/
theorem process_redis_array_round_trip (v : Str → Bool) (ss : List Str)
    (hs : ∀ s ∈ ss, v s = true ∧ NUL ∉ s) :
    ∃ text, process_redis_array v (.array (ss.map redisReply.string)) = .ok text ∧
      read_array_literal text = some ss := by
  have hk : ∀ ir ∈ ss.map redisReply.string, rendered_kind v ir := by
    intro ir hir
    obtain ⟨s, hs1, rfl⟩ := List.mem_map.1 hir
    exact hs s hs1
  have ha : (ss.map redisReply.string).any (fun ir => ir.type = .REDIS_REPLY_ARRAY) = false := by
    simp [redisReply.type]
  refine ⟨'{' :: (join_commas (ss.map (fun s => render_element (.string s))) ++ ['}']), ?_,
    read_array_literal_strings ss⟩
  rw [process_redis_array_ok v _ hk ha]
  simp [Function.comp_def]

/-- Three strings holding a comma, braces, a quote and a backslash come back as they were. -/
theorem process_redis_array_round_trip_witness :
    (∀ s ∈ ["a,b".data, "\x7b\"\x7d".data, "\\".data],
        (fun _ => true) s = true ∧ NUL ∉ s) ∧
      ∃ text, process_redis_array (fun _ => true)
          (.array (["a,b".data, "\x7b\"\x7d".data, "\\".data].map redisReply.string))
            = .ok text ∧
        read_array_literal text = some ["a,b".data, "\x7b\"\x7d".data, "\\".data] :=
  have h : ∀ s ∈ ["a,b".data, "\x7b\"\x7d".data, "\\".data],
      (fun _ => true) s = true ∧ NUL ∉ s := by
    simp [NUL]
  ⟨h, process_redis_array_round_trip (fun _ => true) _ h⟩

/-! ## redisGetQual -/

theorem TupleDescAttr_isSome (tupdesc : List Str) (varattno : Int)
    (h : 1 ≤ varattno ∧ varattno ≤ tupdesc.length) :
    ∃ attname, TupleDescAttr tupdesc (varattno - 1) = some attname := by
  have h0 : 0 ≤ varattno - 1 := by omega
  have hlt : (varattno - 1).toNat < tupdesc.length := by omega
  refine ⟨tupdesc[(varattno - 1).toNat], ?_⟩
  simp [TupleDescAttr, h0, List.getElem?_eq_getElem hlt]

theorem redisGetQual_pushdown (node : Option Node) (tupdesc : List Str) (q : Qual)
    (h : redisGetQual node tupdesc = some q) (hp : q.pushdown = true) :
    ∃ opfuncid varattno constvalue,
      node = some (.OpExpr opfuncid [.Var varattno, .Const constvalue]) ∧
        opfuncid = 67 ∧ TupleDescAttr tupdesc (varattno - 1) = some "key".data ∧
        q = ⟨some "key".data, some constvalue, true⟩ := by
  unfold redisGetQual at h
  split at h
  · simp at h; subst h; simp at hp
  · rename_i opfuncid args
    split at h
    · simp at h; subst h; simp at hp
    · rename_i hlen
      split at h
      · rename_i varattno h0
        split at h
        · rename_i constvalue h1
          split at h
          · simp at h
          · rename_i attname hatt
            simp only [Option.some.injEq] at h
            subst h
            simp only [decide_eq_true_eq, PROCID_TEXTEQ] at hp
            obtain ⟨hf, hk⟩ := hp
            subst hk
            refine ⟨opfuncid, varattno, constvalue, ?_, hf, hatt, by simp [hf, PROCID_TEXTEQ]⟩
            have hl : args.length = 2 := by simpa using hlen
            match args, hl, h0, h1 with
            | [a, b], _, h0, h1 =>
              simp at h0 h1
              subst h0 h1
              rfl
        · simp at h
        · simp at h; subst h; simp at hp
      · simp at h; subst h; simp at hp
  · simp at h; subst h; simp at hp

/-- Where the comparison of a column with a constant names a column of the relation
and the constant is of text type, `redisGetQual` returns without error, and it reports
pushdown exactly when the node is an operator expression with exactly two arguments,
a column reference on the left, a constant on the right, operator function 67 (text
equality) and a column named `key`; for every other such node pushdown is false. -/
theorem redisGetQual_pushdown_iff (node : Option Node) (tupdesc : List Str)
    (hcol : refers_to_columns node tupdesc) (htext : text_constant node) :
    ∃ q, redisGetQual node tupdesc = some q ∧
      (q.pushdown = true ↔ pushdown_shape node tupdesc) := by
  have hsome : ∃ q, redisGetQual node tupdesc = some q := by
    unfold redisGetQual
    split
    · exact ⟨_, rfl⟩
    · rename_i opfuncid args
      split
      · exact ⟨_, rfl⟩
      · rename_i hlen
        split
        · rename_i varattno h0
          have hl : args.length = 2 := by simpa using hlen
          split
          · rename_i constvalue h1
            have hargs : args = [.Var varattno, .Const constvalue] := by
              match args, hl, h0, h1 with
              | [a, b], _, h0, h1 =>
                simp at h0 h1
                subst h0 h1
                rfl
            obtain ⟨attname, hatt⟩ :=
              TupleDescAttr_isSome tupdesc varattno (hcol opfuncid varattno constvalue (by rw [hargs]))
            rw [hatt]
            exact ⟨_, rfl⟩
          · rename_i constvalue h1
            have hargs : args = [.Var varattno, .ConstByVal constvalue] := by
              match args, hl, h0, h1 with
              | [a, b], _, h0, h1 =>
                simp at h0 h1
                subst h0 h1
                rfl
            exact absurd (by rw [hargs]) (htext opfuncid varattno constvalue)
          · exact ⟨_, rfl⟩
        · exact ⟨_, rfl⟩
    · exact ⟨_, rfl⟩
  obtain ⟨q, hq⟩ := hsome
  refine ⟨q, hq, ?_, ?_⟩
  · intro hp
    obtain ⟨f, n, c, hn, hf, hk, _⟩ := redisGetQual_pushdown node tupdesc q hq hp
    exact ⟨f, n, c, hn, hf, hk⟩
  · rintro ⟨f, n, c, rfl, rfl, hk⟩
    simp [redisGetQual, hk, PROCID_TEXTEQ] at hq
    subst hq
    rfl

/-- The comparison `key = 'k2'` on a relation `(key, value)` is pushed down. -/
theorem redisGetQual_pushdown_iff_example :
    ∃ q, redisGetQual (some (.OpExpr 67 [.Var 1, .Const "k2".data]))
        ["key".data, "value".data] = some q ∧
      (q.pushdown = true ↔
        pushdown_shape (some (.OpExpr 67 [.Var 1, .Const "k2".data]))
          ["key".data, "value".data]) := by
  refine redisGetQual_pushdown_iff _ _ ?_ ?_
  · intro f n c e
    simp only [Option.some.injEq, Node.OpExpr.injEq, List.cons.injEq, Node.Var.injEq] at e
    obtain ⟨_, hn, _⟩ := e
    subst hn
    simp
  · intro f n c e
    simp at e

/-- C8, as stated, fails: on a relation `(value, key)` the comparison of the second
column with a constant is pushed down, so the referenced column need not be column
number 1. -/
theorem redisGetQual_pushdown_not_first_column :
    ¬ ∀ (tupdesc : List Str) (opfuncid : Nat) (varattno : Int) (constvalue : Str) (q : Qual),
        redisGetQual (some (.OpExpr opfuncid [.Var varattno, .Const constvalue])) tupdesc = some q →
          q.pushdown = true → varattno = 1 := by
  intro h
  have := h ["value".data, "key".data] 67 2 "x".data ⟨some "key".data, some "x".data, true⟩
    (by decide) rfl
  exact absurd this (by decide)

/-- C8 amended: whenever `redisGetQual` reports pushdown the node compares a column
named `key` with a constant, and that column is column number 1 in every relation
whose column names are distinct and whose first column is named `key`. -/
theorem redisGetQual_pushdown_key_column (node : Option Node) (tupdesc : List Str) (q : Qual)
    (h : redisGetQual node tupdesc = some q) (hp : q.pushdown = true) :
    ∃ opfuncid varattno constvalue,
      node = some (.OpExpr opfuncid [.Var varattno, .Const constvalue]) ∧
        TupleDescAttr tupdesc (varattno - 1) = some "key".data ∧
        (tupdesc.Nodup → tupdesc[0]? = some "key".data → varattno = 1) := by
  obtain ⟨f, n, c, hn, _, hk, _⟩ := redisGetQual_pushdown node tupdesc q h hp
  refine ⟨f, n, c, hn, hk, ?_⟩
  intro hnd h0
  unfold TupleDescAttr at hk
  split at hk
  · rename_i hpos
    have hi := List.getElem?_eq_some_iff.1 hk
    have hz := List.getElem?_eq_some_iff.1 h0
    obtain ⟨hi1, hi2⟩ := hi
    obtain ⟨hz1, hz2⟩ := hz
    have := (List.Nodup.getElem_inj_iff hnd).1 (hi2.trans hz2.symm)
    omega
  · simp at hk

/-- On the relation `(key, value)` the pushed-down comparison is on column 1. -/
theorem redisGetQual_pushdown_key_column_witness :
    redisGetQual (some (.OpExpr 67 [.Var 1, .Const "k2".data])) ["key".data, "value".data]
        = some ⟨some "key".data, some "k2".data, true⟩ ∧
      ∃ opfuncid varattno constvalue,
        (some (Node.OpExpr 67 [.Var 1, .Const "k2".data]))
            = some (.OpExpr opfuncid [.Var varattno, .Const constvalue]) ∧
          TupleDescAttr ["key".data, "value".data] (varattno - 1) = some "key".data ∧
          (["key".data, "value".data].Nodup → ["key".data, "value".data][0]? = some "key".data →
            varattno = 1) :=
  ⟨by decide, redisGetQual_pushdown_key_column _ _
    ⟨some "key".data, some "k2".data, true⟩ (by decide) rfl⟩

/-! ## The cursor -/

theorem cursor_request_args (festate : RedisFdwExecutionState) (cursor_id : Str) (cmd : Cmd)
    (h : cursor_request festate cursor_id = some cmd) : Arg.s cursor_id ∈ cmd.args := by
  unfold cursor_request at h
  split at h
  · simp at h
  · split at h
    · simp at h; subst h; simp
    · split at h <;> (simp at h; subst h; simp)

/-- C4 fails on the code: on the example store the first call of
`redisIterateForeignScanMulti` reads `k1`, whose reply is nil, and returns an empty
slot although the cursor is still `5`; the page behind the cursor holds the row
`(k2, v2)`, which one more call would return. -/
theorem iterate_empty_slot_with_live_cursor :
    redisBeginForeignScan demo_server demo_options [] ["key".data, "value".data] false
        = .ok demo_state ∧
      redisIterateForeignScanMulti demo_server (fun _ => true) 8 demo_state
        = .ok (none, { demo_state with
            context := { demo_state.context with
              sent := demo_state.context.sent ++ [⟨"GET %s", [.s "k1".data]⟩] }
            row := 1 }) ∧
      demo_state.cursor_id = some "5".data ∧
      ∃ festate, redisIterateForeignScanMulti demo_server (fun _ => true) 8
          { demo_state with
            context := { demo_state.context with
              sent := demo_state.context.sent ++ [⟨"GET %s", [.s "k1".data]⟩] }
            row := 1 }
        = .ok (some ("k2".data, "v2".data), festate) :=
  ⟨rfl, rfl, rfl, _, rfl⟩

/-! ## Rows of a cursor scan -/

theorem fetch_pages_cursor_none (srv : Server) (fuel : Nat) (festate : RedisFdwExecutionState)
    (h : festate.cursor_id = none) : fetch_pages srv fuel festate = .ok festate := by
  cases fuel <;> simp [fetch_pages, h]

theorem cursor_request_is_cursor_command (festate : RedisFdwExecutionState) (cursor_id : Str)
    (cmd : Cmd) (hf : cursor_format festate) (h : cursor_request festate cursor_id = some cmd) :
    is_cursor_command cmd = true := by
  unfold cursor_request at h
  have key : ∀ fmt args, festate.cursor_search_string = some fmt →
      is_cursor_command ⟨fmt, args⟩ = true := by
    intro fmt args hfmt
    rcases hf with hf | hf | hf <;>
      (rw [hfmt] at hf; cases hf; simp [is_cursor_command])
  split at h
  · simp at h
  · rename_i css hcss
    split at h
    · simp at h; subst h; exact key _ _ hcss
    · split at h <;> (simp at h; subst h; exact key _ _ hcss)

theorem page_requests_append_cursor (sent : List Cmd) (cmd : Cmd)
    (h : is_cursor_command cmd = true) :
    page_requests (sent ++ [cmd]) = page_requests sent + 1 := by
  simp [page_requests, List.countP_append, h]

theorem page_requests_append_other (sent : List Cmd) (cmd : Cmd)
    (h : is_cursor_command cmd = false) :
    page_requests (sent ++ [cmd]) = page_requests sent := by
  simp [page_requests, List.countP_append, h]

theorem next_cursor_id_zero : next_cursor_id ['0'] = none := by
  simp [next_cursor_id]

theorem fetch_pages_succ (srv : Server) (fuel : Nat) (festate : RedisFdwExecutionState)
    (cursor_id : Str) (page : redisReply) (cmd : Cmd)
    (hc : festate.cursor_id = some cursor_id) (hp : festate.reply = some page)
    (hrow : to_size_t festate.row ≥ page.elements)
    (hcmd : cursor_request festate cursor_id = some cmd) :
    fetch_pages srv (fuel + 1) festate =
      match srv.respond festate.context.sent cmd with
      | none =>
        .error ⟨.ERRCODE_FDW_UNABLE_TO_CREATE_EXECUTION, "failed to list keys: %s"⟩
          (redisFree { festate.context with sent := festate.context.sent ++ [cmd] })
      | some creply =>
        if creply.type = .REDIS_REPLY_ERROR then
          .error ⟨.ERRCODE_FDW_UNABLE_TO_ESTABLISH_CONNECTION, "failed somehow: %s"⟩
            { festate.context with sent := festate.context.sent ++ [cmd] }
        else
          match (creply.element_[0]? : Option redisReply) with
          | none => .crash { festate.context with sent := festate.context.sent ++ [cmd] }
          | some (.string str) =>
            match (creply.element_[1]? : Option redisReply) with
            | none => .crash { festate.context with sent := festate.context.sent ++ [cmd] }
            | some page =>
              fetch_pages srv fuel
                { festate with
                  context := { festate.context with sent := festate.context.sent ++ [cmd] }
                  cursor_id := next_cursor_id str
                  reply := some page
                  row := 0 }
          | some _ =>
            .error ⟨.ERRCODE_FDW_UNABLE_TO_ESTABLISH_CONNECTION, "wrong reply type %d"⟩
              { festate.context with sent := festate.context.sent ++ [cmd] } := by
  rw [fetch_pages]
  simp only [hc, hp, hrow, if_true, hcmd, redisCommand]
  cases srv.respond festate.context.sent cmd with
  | none => rfl
  | some creply =>
    simp only
    split
    · rfl
    · cases h0 : (creply.element_[0]? : Option redisReply) with
      | none => rfl
      | some cursor => cases cursor <;> rfl

theorem fetch_pages_idle (srv : Server) (fuel : Nat) (festate : RedisFdwExecutionState)
    (page : redisReply) (hp : festate.reply = some page)
    (hrow : ¬ to_size_t festate.row ≥ page.elements) :
    fetch_pages srv fuel festate = .ok festate := by
  cases fuel <;> (rw [fetch_pages]; cases festate.cursor_id <;> simp [hp, hrow])

theorem fetch_pages_no_page (srv : Server) (fuel : Nat) (festate : RedisFdwExecutionState)
    (cursor_id : Str) (hc : festate.cursor_id = some cursor_id) (hp : festate.reply = none) :
    fetch_pages srv fuel festate = .crash festate.context := by
  cases fuel <;> (rw [fetch_pages]; simp [hp, hc])

theorem fetch_pages_no_format (srv : Server) (fuel : Nat) (festate : RedisFdwExecutionState)
    (cursor_id : Str) (page : redisReply)
    (hc : festate.cursor_id = some cursor_id) (hp : festate.reply = some page)
    (hrow : to_size_t festate.row ≥ page.elements)
    (hcmd : cursor_request festate cursor_id = none) :
    fetch_pages srv (fuel + 1) festate = .crash festate.context := by
  rw [fetch_pages]; simp [hp, hc, hrow, hcmd]

theorem fetch_pages_fuel (srv : Server) (n : Nat) (hend : ends_after srv n) :
    ∀ (fuel : Nat) (festate : RedisFdwExecutionState),
      (festate.cursor_id ≠ none → cursor_format festate) →
      (n - page_requests festate.context.sent) + 1 ≤ fuel →
      fetch_pages srv fuel festate ≠ .out_of_fuel := by
  intro fuel
  induction fuel with
  | zero => intro festate _ h; omega
  | succ fuel ih =>
    intro festate hf hfuel
    cases hc : festate.cursor_id with
    | none => simp [fetch_pages_cursor_none srv _ festate hc]
    | some cursor_id =>
      have hfmt := hf (by simp [hc])
      cases hp : festate.reply with
      | none => simp [fetch_pages_no_page srv _ festate cursor_id hc hp]
      | some page =>
        by_cases hrow : to_size_t festate.row ≥ page.elements
        · cases hcmd : cursor_request festate cursor_id with
          | none => simp [fetch_pages_no_format srv fuel festate cursor_id page hc hp hrow hcmd]
          | some cmd =>
            have hcc := cursor_request_is_cursor_command festate cursor_id cmd hfmt hcmd
            rw [fetch_pages_succ srv fuel festate cursor_id page cmd hc hp hrow hcmd]
            by_cases hn : n ≤ page_requests festate.context.sent
            · obtain ⟨pg, rest, hresp⟩ := hend festate.context.sent cmd hcc hn
              simp only [hresp, redisReply.type, redisReply.element_]
              simp [next_cursor_id_zero, fetch_pages_cursor_none]
            · split
              · simp
              · split
                · simp
                · split
                  · simp
                  · split
                    · simp
                    · apply ih
                      · intro _; exact hfmt
                      · simp only
                        rw [page_requests_append_cursor _ _ hcc]
                        omega
                  · simp
        · simp [fetch_pages_idle srv _ festate page hp hrow]

theorem value_request_not_cursor (table_type : redis_table_type) (key : Str) :
    is_cursor_command (value_request table_type key) = false := by
  cases table_type <;>
    simp [is_cursor_command, value_request, SSCAN_FMT, SCAN_MATCH_FMT, SCAN_FMT]

theorem fetch_pages_ok_fields (srv : Server) :
    ∀ (fuel : Nat) (festate festate' : RedisFdwExecutionState),
      fetch_pages srv fuel festate = .ok festate' →
      festate'.cursor_search_string = festate.cursor_search_string ∧
        (festate.cursor_id = none → festate'.cursor_id = none) := by
  intro fuel
  induction fuel with
  | zero =>
    intro festate festate' h
    rw [fetch_pages] at h
    split at h
    · cases h; exact ⟨rfl, id⟩
    · split at h
      · cases h
      · split at h
        · cases h
        · cases h; exact ⟨rfl, id⟩
  | succ fuel ih =>
    intro festate festate' h
    cases hc : festate.cursor_id with
    | none =>
      rw [fetch_pages_cursor_none srv _ festate hc] at h
      cases h
      exact ⟨rfl, fun _ => hc⟩
    | some cursor_id =>
      refine ⟨?_, fun h => by simp at h⟩
      cases hp : festate.reply with
      | none => rw [fetch_pages_no_page srv _ festate cursor_id hc hp] at h; cases h
      | some page =>
        by_cases hrow : to_size_t festate.row ≥ page.elements
        · cases hcmd : cursor_request festate cursor_id with
          | none =>
            rw [fetch_pages_no_format srv fuel festate cursor_id page hc hp hrow hcmd] at h
            cases h
          | some cmd =>
            rw [fetch_pages_succ srv fuel festate cursor_id page cmd hc hp hrow hcmd] at h
            split at h
            · cases h
            · split at h
              · cases h
              · split at h
                · cases h
                · split at h
                  · cases h
                  · exact (ih _ _ h).1
                · cases h
        · rw [fetch_pages_idle srv _ festate page hp hrow] at h
          cases h
          rfl

theorem fetch_value_outcome (srv : Server) :
    ∀ (fuel : Nat) (festate : RedisFdwExecutionState),
      (∀ rep key festate', fetch_value srv fuel festate = .ok (rep, key, festate') →
        page_requests festate'.context.sent = page_requests festate.context.sent ∧
          festate'.cursor_id = festate.cursor_id ∧
          festate'.cursor_search_string = festate.cursor_search_string ∧
          festate'.qual_value = festate.qual_value ∧
          festate'.reply = festate.reply) ∧
      (∀ e context, fetch_value srv fuel festate = .error e context →
        page_requests context.sent = page_requests festate.context.sent) ∧
      (∀ context, fetch_value srv fuel festate = .crash context →
        page_requests context.sent = page_requests festate.context.sent) := by
  intro fuel
  induction fuel with
  | zero =>
    intro festate
    rw [fetch_value]
    cases hk : row_key festate with
    | none => simp
    | some key =>
      have hnc := page_requests_append_other festate.context.sent _
        (value_request_not_cursor festate.table_type key)
      simp only [redisCommand]
      cases hresp : srv.respond festate.context.sent (value_request festate.table_type key) with
      | none => simp [redisFree, hnc]
      | some reply =>
        simp only
        cases hs : skipped reply with
        | false => simp [hnc]
        | true =>
          simp only [if_true]
          cases hm : more_keys { festate with
              context := { festate.context with
                sent := festate.context.sent ++ [value_request festate.table_type key] }
              row := festate.row + 1 } with
          | none => simp [hnc]
          | some b => cases b <;> simp [hnc]
  | succ fuel ih =>
    intro festate
    rw [fetch_value]
    cases hk : row_key festate with
    | none => simp
    | some key =>
      have hnc := page_requests_append_other festate.context.sent _
        (value_request_not_cursor festate.table_type key)
      simp only [redisCommand]
      cases hresp : srv.respond festate.context.sent (value_request festate.table_type key) with
      | none => simp [redisFree, hnc]
      | some reply =>
        simp only
        cases hs : skipped reply with
        | false => simp [hnc]
        | true =>
          simp only [if_true]
          cases hm : more_keys { festate with
              context := { festate.context with
                sent := festate.context.sent ++ [value_request festate.table_type key] }
              row := festate.row + 1 } with
          | none => simp [hnc]
          | some b =>
            cases b with
            | false => simp [hnc]
            | true =>
              simp only
              obtain ⟨h1, h2, h3⟩ := ih { festate with
                context := { festate.context with
                  sent := festate.context.sent ++ [value_request festate.table_type key] }
                row := festate.row + 1 }
              simp only [hnc] at h1 h2 h3
              exact ⟨h1, h2, h3⟩

theorem row_key_some_none (festate : RedisFdwExecutionState) (key : Str) (page : redisReply)
    (hq : festate.qual_value = none) (hp : festate.reply = some page)
    (hk : row_key festate = some key) :
    0 ≤ festate.row ∧ festate.row.toNat < page.elements := by
  unfold row_key at hk
  simp only [hq, hp] at hk
  split at hk
  · cases hk
  · rename_i hneg
    refine ⟨by omega, ?_⟩
    cases he : (page.element_[festate.row.toNat]? : Option redisReply) with
    | none => simp [he] at hk
    | some e =>
      have := (List.getElem?_eq_some_iff.1 he).1
      exact this

theorem fetch_value_fuel (srv : Server) :
    ∀ (fuel : Nat) (festate : RedisFdwExecutionState),
      (festate.qual_value = none → ∀ page, festate.reply = some page →
        page.elements ≤ fuel + festate.row.toNat) →
      fetch_value srv fuel festate ≠ .out_of_fuel := by
  intro fuel
  induction fuel with
  | zero =>
    intro festate hfuel
    rw [fetch_value]
    cases hk : row_key festate with
    | none => simp
    | some key =>
      simp only [redisCommand]
      cases hresp : srv.respond festate.context.sent (value_request festate.table_type key) with
      | none => simp
      | some reply =>
        simp only
        cases hs : skipped reply with
        | false => simp
        | true =>
          simp only [if_true]
          cases hq : festate.qual_value with
          | some q => simp [more_keys, hq]
          | none =>
            cases hp : festate.reply with
            | none => simp [more_keys, hq, hp]
            | some page =>
              have := row_key_some_none festate key page hq hp hk
              have := hfuel hq page hp
              omega
  | succ fuel ih =>
    intro festate hfuel
    rw [fetch_value]
    cases hk : row_key festate with
    | none => simp
    | some key =>
      simp only [redisCommand]
      cases hresp : srv.respond festate.context.sent (value_request festate.table_type key) with
      | none => simp
      | some reply =>
        simp only
        cases hs : skipped reply with
        | false => simp
        | true =>
          simp only [if_true]
          cases hq : festate.qual_value with
          | some q => simp [more_keys, hq]
          | none =>
            cases hp : festate.reply with
            | none => simp [more_keys, hq, hp]
            | some page =>
              have hrk := row_key_some_none festate key page hq hp hk
              have hf := hfuel hq page hp
              simp only [more_keys, hq, hp]
              split
              · simp
              · apply ih
                intro _ page' hp'
                simp only [hp, Option.some.injEq] at hp'
                subst hp'
                have : (festate.row + 1).toNat = festate.row.toNat + 1 := by omega
                simp only [this]
                omega
              · simp

theorem build_row_outcome (v : Str → Bool) (reply : redisReply) (key : Str)
    (festate : RedisFdwExecutionState) :
    build_row v reply key festate ≠ .out_of_fuel ∧
      outcome_context (build_row v reply key festate) = some festate.context ∧
      ∀ slot festate', build_row v reply key festate = .ok (slot, festate') →
        festate'.cursor_id = festate.cursor_id ∧
          festate'.cursor_search_string = festate.cursor_search_string := by
  unfold build_row
  cases within_page festate with
  | none => simp [outcome_context]
  | some within =>
    simp only
    cases (if within = true then row_data v reply else Except.ok none) with
    | error e => simp [outcome_context]
    | ok data =>
      cases data with
      | none =>
        simp only [outcome_context]
        refine ⟨by simp, by split <;> rfl, ?_⟩
        intro slot festate' h
        simp only [Result.ok.injEq, Prod.mk.injEq] at h
        obtain ⟨_, rfl⟩ := h
        split <;> exact ⟨rfl, rfl⟩
      | some data =>
        simp only [outcome_context]
        refine ⟨by simp, by split <;> rfl, ?_⟩
        intro slot festate' h
        simp only [Result.ok.injEq, Prod.mk.injEq] at h
        obtain ⟨_, rfl⟩ := h
        split <;> exact ⟨rfl, rfl⟩

theorem next_row_outcome (srv : Server) (v : Str → Bool) (festate : RedisFdwExecutionState) :
    (∃ context, outcome_context (next_row srv v festate) = some context ∧
        page_requests context.sent = page_requests festate.context.sent) ∧
      ∀ slot festate', next_row srv v festate = .ok (slot, festate') →
        festate'.cursor_id = festate.cursor_id ∧
          festate'.cursor_search_string = festate.cursor_search_string := by
  have hfv : fetch_value srv (value_fuel festate) festate ≠ .out_of_fuel := by
    apply fetch_value_fuel
    intro _ page hp
    simp [value_fuel, hp]
  obtain ⟨hok, herr, hcrash⟩ := fetch_value_outcome srv (value_fuel festate) festate
  unfold next_row
  cases has_row festate with
  | none => exact ⟨⟨_, rfl, rfl⟩, fun _ _ h => by cases h⟩
  | some b =>
    cases b with
    | false =>
      refine ⟨⟨_, rfl, rfl⟩, fun _ _ h => ?_⟩
      simp only [Result.ok.injEq, Prod.mk.injEq] at h
      obtain ⟨_, rfl⟩ := h
      exact ⟨rfl, rfl⟩
    | true =>
      simp only
      cases hres : fetch_value srv (value_fuel festate) festate with
      | ok a =>
        obtain ⟨rep, key, st⟩ := a
        obtain ⟨h1, h2, h3, _, _⟩ := hok rep key st hres
        obtain ⟨_, hb2, hb3⟩ := build_row_outcome v rep key st
        simp only
        refine ⟨⟨st.context, hb2, h1⟩, fun slot festate' h => ?_⟩
        obtain ⟨hc1, hc2⟩ := hb3 slot festate' h
        exact ⟨hc1.trans h2, hc2.trans h3⟩
      | error e context =>
        exact ⟨⟨context, rfl, herr e context hres⟩, fun _ _ h => by cases h⟩
      | crash context =>
        exact ⟨⟨context, rfl, hcrash context hres⟩, fun _ _ h => by cases h⟩
      | out_of_fuel => exact absurd hres hfv

theorem next_row_fuel (srv : Server) (v : Str → Bool) (festate : RedisFdwExecutionState) :
    next_row srv v festate ≠ .out_of_fuel := by
  obtain ⟨⟨context, h1, _⟩, _⟩ := next_row_outcome srv v festate
  intro h
  rw [h] at h1
  simp [outcome_context] at h1

theorem store_reply_fields (reply : Option redisReply)
    (festate festate' : RedisFdwExecutionState)
    (h : store_reply reply festate = .ok festate') :
    festate'.cursor_search_string = festate.cursor_search_string ∧
      festate'.context = festate.context ∧
      festate'.row = festate.row ∧
      festate'.qual_value = festate.qual_value ∧
      (festate'.cursor_id ≠ none →
        festate.cursor_id ≠ none ∨ (festate.singleton_key = none ∧ festate.qual_value = none)) := by
  unfold store_reply at h
  split at h
  · cases h
  · split at h
    · cases h
    · split at h
      · cases h
        exact ⟨rfl, rfl, rfl, rfl, fun hc => Or.inl hc⟩
      · rename_i hs
        split at h
        · rename_i hrq
          split at h
          · cases h
          · split at h
            · split at h
              · cases h
              · cases h
                refine ⟨rfl, rfl, rfl, rfl, fun _ => Or.inr ⟨?_, hrq.2⟩⟩
                cases hsk : festate.singleton_key with
                | none => rfl
                | some s => simp [hsk] at hs
            · cases h
        · cases h
          exact ⟨rfl, rfl, rfl, rfl, fun hc => Or.inl hc⟩

theorem check_qual_fields (srv : Server) (festate : RedisFdwExecutionState) (qual_value : Str)
    (reply : Option redisReply) (festate' : RedisFdwExecutionState)
    (h : check_qual srv festate qual_value = .ok (reply, festate')) :
    festate'.cursor_search_string = festate.cursor_search_string ∧
      festate'.cursor_id = festate.cursor_id ∧
      festate'.qual_value = festate.qual_value ∧
      festate'.singleton_key = festate.singleton_key := by
  unfold check_qual at h
  have hscope : ∀ st, check_scope srv festate qual_value = .ok st →
      st.cursor_search_string = festate.cursor_search_string ∧
        st.cursor_id = festate.cursor_id ∧ st.qual_value = festate.qual_value ∧
        st.singleton_key = festate.singleton_key := by
    intro st hst
    unfold check_scope at hst
    split at hst
    · simp only [redisCommand] at hst
      split at hst
      · cases hst
      · split at hst
        · cases hst
        · split at hst <;> (cases hst; exact ⟨rfl, rfl, rfl, rfl⟩)
    · split at hst
      · split at hst <;> (cases hst; exact ⟨rfl, rfl, rfl, rfl⟩)
      · cases hst; exact ⟨rfl, rfl, rfl, rfl⟩
  split at h
  · rename_i st hst
    obtain ⟨h1, h2, h3, h4⟩ := hscope st hst
    unfold check_exists at h
    simp only [redisCommand] at h
    split at h
    · cases h
    · split at h <;>
        (simp only [Result.ok.injEq, Prod.mk.injEq] at h
         obtain ⟨_, rfl⟩ := h
         exact ⟨h1, h2, h3, h4⟩)
  · cases h
  · cases h
  · cases h

theorem first_page_format (srv : Server) (festate : RedisFdwExecutionState) :
    cursor_format (first_page srv festate).2 := by
  unfold first_page cursor_format
  split
  · simp [redisCommand]
  · split <;> simp [redisCommand]

theorem begin_cursor_format (srv : Server) (opts : redisTableOptions) (qual : List Node)
    (tupdesc : List Str) (explain_only : Bool) (festate : RedisFdwExecutionState)
    (h : redisBeginForeignScan srv opts qual tupdesc explain_only = .ok festate) :
    festate.cursor_id ≠ none → cursor_format festate := by
  unfold redisBeginForeignScan at h
  split at h
  · rename_i context hconn
    split at h
    · cases h
    · rename_i q hq
      simp only at h
      split at h
      · cases h
        intro hc
        simp [init_state] at hc
      · split at h
        · rename_i singleton_key hsk
          simp only [redisCommand] at h
          obtain ⟨_, _, _, _, h5⟩ := store_reply_fields _ _ _ h
          intro hc
          rcases h5 hc with h6 | h6
          · simp [init_state] at h6
          · simp only at h6
            rw [h6.1] at hsk
            cases hsk
        · rename_i hsk
          split at h
          · rename_i qual_value hv hp
            split at h
            · rename_i reply st hcq
              obtain ⟨c1, c2, c3, c4⟩ := check_qual_fields srv _ qual_value reply st hcq
              obtain ⟨_, _, _, _, h5⟩ := store_reply_fields _ _ _ h
              intro hc
              rcases h5 hc with h6 | h6
              · rw [c2] at h6
                simp [init_state] at h6
              · rw [c3] at h6
                simp [init_state, hp, hv] at h6
            · cases h
            · cases h
            · cases h
          · obtain ⟨h1, _⟩ := store_reply_fields _ _ _ h
            intro _
            have := first_page_format srv (init_state context opts q)
            unfold cursor_format at this ⊢
            rw [h1]
            exact this
  · cases h
  · cases h
  · cases h

theorem iterate_cursor_format (srv : Server) (v : Str → Bool) (fuel : Nat)
    (festate festate' : RedisFdwExecutionState) (slot : Option (Str × Str))
    (h : redisIterateForeignScanMulti srv v fuel festate = .ok (slot, festate'))
    (hf : festate.cursor_id ≠ none → cursor_format festate) :
    festate'.cursor_id ≠ none → cursor_format festate' := by
  unfold redisIterateForeignScanMulti at h
  split at h
  · rename_i st hst
    obtain ⟨h1, h2⟩ := fetch_pages_ok_fields srv fuel festate st hst
    obtain ⟨_, h3⟩ := next_row_outcome srv v st
    obtain ⟨h4, h5⟩ := h3 slot festate' h
    intro hc
    have hc0 : festate.cursor_id ≠ none := by
      intro hn
      exact hc (h4.trans (h2 hn))
    have := hf hc0
    unfold cursor_format at this ⊢
    rw [h5, h1]
    exact this
  · cases h
  · cases h
  · cases h

theorem iterate_times_cursor_format (srv : Server) (v : Str → Bool) (fuel : Nat) :
    ∀ (k : Nat) (festate festate' : RedisFdwExecutionState) (slots : List (Option (Str × Str))),
      iterate_times srv v fuel k festate = .ok (slots, festate') →
      (festate.cursor_id ≠ none → cursor_format festate) →
      festate'.cursor_id ≠ none → cursor_format festate' := by
  intro k
  induction k with
  | zero =>
    intro festate festate' slots h hf
    simp only [iterate_times, Result.ok.injEq, Prod.mk.injEq] at h
    obtain ⟨_, rfl⟩ := h
    exact hf
  | succ k ih =>
    intro festate festate' slots h hf
    rw [iterate_times] at h
    split at h
    · rename_i slot st hst
      split at h
      · rename_i slots' st' hst'
        simp only [Result.ok.injEq, Prod.mk.injEq] at h
        obtain ⟨_, rfl⟩ := h
        exact ih st st' slots' hst' (iterate_cursor_format srv v fuel festate st slot hst hf)
      · cases h
      · cases h
      · cases h
    · cases h
    · cases h
    · cases h

theorem iterate_times_no_cursor (srv : Server) (v : Str → Bool) (fuel : Nat) :
    ∀ (m : Nat) (festate : RedisFdwExecutionState), festate.cursor_id = none →
      ∃ context, outcome_context (iterate_times srv v fuel m festate) = some context ∧
        page_requests context.sent = page_requests festate.context.sent := by
  intro m
  induction m with
  | zero => intro festate _; exact ⟨_, rfl, rfl⟩
  | succ m ih =>
    intro festate hc
    rw [iterate_times]
    unfold redisIterateForeignScanMulti
    rw [fetch_pages_cursor_none srv fuel festate hc]
    simp only
    obtain ⟨⟨context, h1, h2⟩, h3⟩ := next_row_outcome srv v festate
    cases hnr : next_row srv v festate with
    | ok a =>
      obtain ⟨slot, st⟩ := a
      obtain ⟨h4, _⟩ := h3 slot st hnr
      rw [hnr] at h1
      simp only [outcome_context, Option.some.injEq] at h1
      obtain ⟨c2, h5, h6⟩ := ih st (h4.trans hc)
      simp only
      cases hit : iterate_times srv v fuel m st with
      | ok b =>
        obtain ⟨slots, st2⟩ := b
        rw [hit] at h5
        simp only [outcome_context, Option.some.injEq] at h5
        refine ⟨st2.context, rfl, ?_⟩
        rw [h5, h6, h1, h2]
      | error e c =>
        rw [hit] at h5
        simp only [outcome_context, Option.some.injEq] at h5
        refine ⟨c, rfl, ?_⟩
        rw [h5, h6, h1, h2]
      | crash c =>
        rw [hit] at h5
        simp only [outcome_context, Option.some.injEq] at h5
        refine ⟨c, rfl, ?_⟩
        rw [h5, h6, h1, h2]
      | out_of_fuel =>
        rw [hit] at h5
        simp [outcome_context] at h5
    | error e c =>
      rw [hnr] at h1
      simp only [outcome_context, Option.some.injEq] at h1
      exact ⟨c, rfl, by rw [h1, h2]⟩
    | crash c =>
      rw [hnr] at h1
      simp only [outcome_context, Option.some.injEq] at h1
      exact ⟨c, rfl, by rw [h1, h2]⟩
    | out_of_fuel =>
      rw [hnr] at h1
      simp [outcome_context] at h1

/-- C6: in every scan (a state reached by `redisBeginForeignScan` and any number of
calls of `redisIterateForeignScanMulti`, whatever the scope of the table) against a
store that answers with the token `0` once it has received `n` page requests, the
page loop returns with `n + 1` units of fuel, hence after at most `n + 1` page
requests; once the cursor is `NULL` no later call sends a page request; and a reply
with the token `0` ends the loop at once with the cursor `NULL`. -/
theorem page_loop_terminates (srv : Server) (v : Str → Bool) (n : Nat)
    (opts : redisTableOptions) (qual : List Node) (tupdesc : List Str) (explain_only : Bool)
    (festate0 festate : RedisFdwExecutionState) (fuel0 k : Nat)
    (slots : List (Option (Str × Str)))
    (hend : ends_after srv n)
    (hbegin : redisBeginForeignScan srv opts qual tupdesc explain_only = .ok festate0)
    (hcalls : iterate_times srv v fuel0 k festate0 = .ok (slots, festate)) :
    (∀ fuel, n + 1 ≤ fuel →
        fetch_pages srv fuel festate ≠ .out_of_fuel ∧
          redisIterateForeignScanMulti srv v fuel festate ≠ .out_of_fuel) ∧
      (festate.cursor_id = none → ∀ fuel m,
        ∃ context, outcome_context (iterate_times srv v fuel m festate) = some context ∧
          page_requests context.sent = page_requests festate.context.sent) ∧
      (∀ fuel cursor_id page cmd pg rest,
        festate.cursor_id = some cursor_id → festate.reply = some page →
        to_size_t festate.row ≥ page.elements →
        cursor_request festate cursor_id = some cmd →
        srv.respond festate.context.sent cmd = some (.array (.string ['0'] :: pg :: rest)) →
        fetch_pages srv (fuel + 1) festate
          = .ok { festate with
              context := { festate.context with sent := festate.context.sent ++ [cmd] }
              cursor_id := none
              reply := some pg
              row := 0 }) := by
  have hf0 := begin_cursor_format srv opts qual tupdesc explain_only festate0 hbegin
  have hf := iterate_times_cursor_format srv v fuel0 k festate0 festate slots hcalls hf0
  refine ⟨?_, ?_, ?_⟩
  · intro fuel hfuel
    have hp : fetch_pages srv fuel festate ≠ .out_of_fuel :=
      fetch_pages_fuel srv n hend fuel festate hf (by omega)
    refine ⟨hp, ?_⟩
    unfold redisIterateForeignScanMulti
    cases hfp : fetch_pages srv fuel festate with
    | ok st => exact next_row_fuel srv v st
    | error e c => simp
    | crash c => simp
    | out_of_fuel => exact absurd hfp hp
  · intro hc fuel m
    exact iterate_times_no_cursor srv v fuel m festate hc
  · intro fuel cursor_id page cmd pg rest hc hp hrow hcmd hresp
    rw [fetch_pages_succ srv fuel festate cursor_id page cmd hc hp hrow hcmd, hresp]
    simp only [redisReply.type, redisReply.element_]
    simp [next_cursor_id_zero, fetch_pages_cursor_none]

/-- On the store with empty pages, which ends after one page request, the page loop
of a scan returns with two units of fuel. -/
theorem page_loop_terminates_witness :
    ends_after counting_server 1 ∧
      redisBeginForeignScan counting_server demo_options [] ["key".data, "value".data] false
        = .ok counting_state ∧
      iterate_times counting_server (fun _ => true) 0 0 counting_state = .ok ([], counting_state) ∧
      ((∀ fuel, 1 + 1 ≤ fuel →
          fetch_pages counting_server fuel counting_state ≠ .out_of_fuel ∧
            redisIterateForeignScanMulti counting_server (fun _ => true) fuel counting_state
              ≠ .out_of_fuel) ∧
        (counting_state.cursor_id = none → ∀ fuel m,
          ∃ context, outcome_context
              (iterate_times counting_server (fun _ => true) fuel m counting_state) = some context ∧
            page_requests context.sent = page_requests counting_state.context.sent) ∧
        (∀ fuel cursor_id page cmd pg rest,
          counting_state.cursor_id = some cursor_id → counting_state.reply = some page →
          to_size_t counting_state.row ≥ page.elements →
          cursor_request counting_state cursor_id = some cmd →
          counting_server.respond counting_state.context.sent cmd
            = some (.array (.string ['0'] :: pg :: rest)) →
          fetch_pages counting_server (fuel + 1) counting_state
            = .ok { counting_state with
                context := { counting_state.context with
                  sent := counting_state.context.sent ++ [cmd] }
                cursor_id := none
                reply := some pg
                row := 0 })) :=
  have h : ends_after counting_server 1 := by
    intro sent cmd hc hn
    exact ⟨.array [], [], by simp [counting_server, hc, hn]⟩
  ⟨h, rfl, rfl,
    page_loop_terminates counting_server (fun _ => true) 1 demo_options []
      ["key".data, "value".data] false counting_state counting_state 0 0 [] h rfl rfl⟩

/-! ## A pushed-down qualifier -/

theorem connect_and_select_formats (srv : Server) (opts : redisTableOptions)
    (context : redisContext) (h : connect_and_select srv opts = .ok context) :
    ∀ cmd ∈ context.sent, cmd.fmt = "AUTH %s" ∨ cmd.fmt = "SELECT %d" := by
  have hsel : ∀ c0 c1, (∀ cmd ∈ c0.sent, cmd.fmt = "AUTH %s" ∨ cmd.fmt = "SELECT %d") →
      select_database srv opts c0 = .ok c1 →
      ∀ cmd ∈ c1.sent, cmd.fmt = "AUTH %s" ∨ cmd.fmt = "SELECT %d" := by
    intro c0 c1 h0 h1
    unfold select_database at h1
    simp only [redisCommand] at h1
    split at h1
    · cases h1
    · rename_i reply c hres
      simp only [Prod.mk.injEq] at hres
      obtain ⟨_, rfl⟩ := hres
      split at h1
      · cases h1
      · cases h1
        intro cmd hcmd
        simp only [List.mem_append, List.mem_singleton] at hcmd
        rcases hcmd with hcmd | hcmd
        · exact h0 cmd hcmd
        · subst hcmd; exact Or.inr rfl
  unfold connect_and_select at h
  simp only at h
  split at h
  · cases h
  · split at h
    · exact hsel _ _ (by simp) h
    · simp only [redisCommand] at h
      split at h
      · cases h
      · rename_i reply c hres
        simp only [Prod.mk.injEq] at hres
        obtain ⟨_, rfl⟩ := hres
        refine hsel _ _ ?_ h
        intro cmd hcmd
        simp only [List.nil_append, List.mem_singleton] at hcmd
        subst hcmd
        exact Or.inl rfl

theorem connect_and_select_sent (srv : Server) (opts : redisTableOptions)
    (context : redisContext) (h : connect_and_select srv opts = .ok context) :
    page_requests context.sent = 0 ∧ value_fetches context.sent = 0 := by
  have hf := connect_and_select_formats srv opts context h
  constructor
  · unfold page_requests
    rw [List.countP_eq_zero]
    intro cmd hcmd
    rcases hf cmd hcmd with h1 | h1 <;>
      simp [is_cursor_command, h1, SSCAN_FMT, SCAN_MATCH_FMT, SCAN_FMT]
  · unfold value_fetches
    rw [List.countP_eq_zero]
    intro cmd hcmd
    rcases hf cmd hcmd with h1 | h1 <;> simp [is_value_command, h1]

theorem scope_commands_counts (keyset : Option Str) (qual_value : Str) :
    page_requests (scope_commands keyset qual_value ++ [⟨"EXISTS %s", [.s qual_value]⟩]) = 0 ∧
      value_fetches (scope_commands keyset qual_value ++ [⟨"EXISTS %s", [.s qual_value]⟩]) = 0 := by
  cases keyset <;>
    simp [scope_commands, page_requests, value_fetches, is_cursor_command, is_value_command,
      SSCAN_FMT, SCAN_MATCH_FMT, SCAN_FMT]

theorem value_request_counts (table_type : redis_table_type) (key : Str) :
    is_value_command (value_request table_type key) = true := by
  cases table_type <;> simp [is_value_command, value_request]

theorem begin_pushdown (srv : Server) (opts : redisTableOptions) (qual : List Node)
    (tupdesc : List Str) (context : redisContext) (q : Qual) (qual_value : Str) (m e : Int)
    (hconn : connect_and_select srv opts = .ok context)
    (hqual : qual_loop tupdesc qual ⟨none, none, false⟩ = some q)
    (hv : q.value = some qual_value) (hp : q.pushdown = true)
    (hsingle : opts.singleton_key = none)
    (hmember : ∀ keyset, opts.keyset = some keyset →
      srv.respond context.sent ⟨"SISMEMBER %s %s", [.s keyset, .s qual_value]⟩
        = some (.integer m))
    (hexists : srv.respond (context.sent ++ scope_commands opts.keyset qual_value)
      ⟨"EXISTS %s", [.s qual_value]⟩ = some (.integer e)) :
    redisBeginForeignScan srv opts qual tupdesc false
      = .ok { init_state context opts q with
          context := { context with
            sent := context.sent ++ scope_commands opts.keyset qual_value ++
              [⟨"EXISTS %s", [.s qual_value]⟩] }
          row :=
            if (opts.keyset ≠ none ∧ m ≠ 1) ∨
                (opts.keyset = none ∧ ∃ p, opts.keyprefix = some p ∧ ¬ p <+: qual_value) ∨
                e = 0
            then -1 else 0 } := by
  unfold redisBeginForeignScan
  simp only [hconn, hqual]
  have hs : (init_state context opts q).singleton_key = none := by simp [init_state, hsingle]
  simp only [hs, Bool.false_eq_true, if_false, hv, hp]
  unfold check_qual check_scope
  cases hks : opts.keyset with
  | some keyset =>
    have hm := hmember keyset hks
    simp only [hks, scope_commands] at hexists
    by_cases hm1 : m = 1 <;> by_cases he : e = 0 <;>
      simp [init_state, hks, redisCommand, hm, redisReply.type, redisReply.integer_,
        check_exists, hexists, store_reply, hsingle, hp, hv, scope_commands, hm1, he]
  | none =>
    simp only [hks, scope_commands, List.append_nil] at hexists
    cases hkp : opts.keyprefix with
    | none =>
      by_cases he : e = 0 <;>
        simp [init_state, hks, hkp, redisCommand, redisReply.type, redisReply.integer_,
          check_exists, hexists, store_reply, hsingle, hp, hv, scope_commands, he]
    | some p =>
      by_cases hpre : p <+: qual_value <;> by_cases he : e = 0 <;>
        simp [init_state, hks, hkp, redisCommand, redisReply.type, redisReply.integer_,
          check_exists, hexists, store_reply, hsingle, hp, hv, scope_commands, he, hpre]

theorem iterate_times_done (srv : Server) (v : Str → Bool) (fuel : Nat)
    (festate : RedisFdwExecutionState) (hc : festate.cursor_id = none)
    (hrow : festate.row = -1) :
    ∀ n, iterate_times srv v fuel n festate = .ok (List.replicate n none, festate) := by
  have hone : redisIterateForeignScanMulti srv v fuel festate = .ok (none, festate) := by
    unfold redisIterateForeignScanMulti
    rw [fetch_pages_cursor_none srv fuel festate hc]
    simp [next_row, has_row, hrow]
  intro n
  induction n with
  | zero => rfl
  | succ n ih =>
    rw [iterate_times, hone]
    simp only [ih, List.replicate_succ]

/-- C9: on a table that is not a singleton, scanned with a pushed-down qualifier key
`q` and a store that answers the membership check with the integer `m` and the
existence check with the integer `e`: when the table has a key set and `m` is not 1,
or has (in place of a key set) a key prefix that is not a prefix of `q`, or `e` is 0,
`redisBeginForeignScan` raises no error, every call of `redisIterateForeignScanMulti`
returns an empty slot and sends nothing, and no value request is among the commands
sent. -/
theorem pushdown_miss_no_rows (srv : Server) (v : Str → Bool) (opts : redisTableOptions)
    (qual : List Node) (tupdesc : List Str) (context : redisContext) (q : Qual)
    (qual_value : Str) (m e : Int)
    (hconn : connect_and_select srv opts = .ok context)
    (hqual : qual_loop tupdesc qual ⟨none, none, false⟩ = some q)
    (hv : q.value = some qual_value) (hp : q.pushdown = true)
    (hsingle : opts.singleton_key = none)
    (hmember : ∀ keyset, opts.keyset = some keyset →
      srv.respond context.sent ⟨"SISMEMBER %s %s", [.s keyset, .s qual_value]⟩
        = some (.integer m))
    (hexists : srv.respond (context.sent ++ scope_commands opts.keyset qual_value)
      ⟨"EXISTS %s", [.s qual_value]⟩ = some (.integer e))
    (hmiss : (opts.keyset ≠ none ∧ m ≠ 1) ∨
      (opts.keyset = none ∧ ∃ p, opts.keyprefix = some p ∧ ¬ p <+: qual_value) ∨ e = 0) :
    ∃ festate, redisBeginForeignScan srv opts qual tupdesc false = .ok festate ∧
      festate.context.sent = context.sent ++ scope_commands opts.keyset qual_value ++
        [⟨"EXISTS %s", [.s qual_value]⟩] ∧
      value_fetches festate.context.sent = 0 ∧
      ∀ fuel n, iterate_times srv v fuel n festate = .ok (List.replicate n none, festate) := by
  refine ⟨_, begin_pushdown srv opts qual tupdesc context q qual_value m e hconn hqual hv hp
    hsingle hmember hexists, rfl, ?_, ?_⟩
  · simp only [value_fetches, List.append_assoc, List.countP_append]
    have h1 := (connect_and_select_sent srv opts context hconn).2
    have h2 := (scope_commands_counts opts.keyset qual_value).2
    simp only [value_fetches, List.countP_append] at h1 h2
    omega
  · intro fuel n
    exact iterate_times_done srv v fuel _ rfl (by simp only [if_pos hmiss]) n

/-- The scenario of the key set `ks`: a scan for the key `c`, which is not a member,
yields no rows and raises no error. -/
theorem pushdown_miss_no_rows_witness :
    ∃ festate, redisBeginForeignScan demo_server demo_keyset_options
        [.OpExpr 67 [.Var 1, .Const "c".data]] ["key".data, "value".data] false = .ok festate ∧
      festate.context.sent = demo_context.sent ++
        scope_commands demo_keyset_options.keyset "c".data ++ [⟨"EXISTS %s", [.s "c".data]⟩] ∧
      value_fetches festate.context.sent = 0 ∧
      ∀ fuel n, iterate_times demo_server (fun _ => true) fuel n festate
        = .ok (List.replicate n none, festate) :=
  pushdown_miss_no_rows demo_server (fun _ => true) demo_keyset_options
    [.OpExpr 67 [.Var 1, .Const "c".data]] ["key".data, "value".data] demo_context
    ⟨some "key".data, some "c".data, true⟩ "c".data 0 0 rfl (by decide) rfl rfl rfl
    (fun keyset h => by
      have hk : keyset = "ks".data := by
        simp only [demo_keyset_options, Option.some.injEq] at h
        exact h.symm
      subst hk
      rfl)
    rfl (Or.inl ⟨by simp [demo_keyset_options], by decide⟩)

/-- C10: on a table that is not a singleton, scanned with a pushed-down qualifier key
`q` that passes the checks (member of the key set, or carrying the key prefix, when
the table has one, and `EXISTS` not 0), `redisBeginForeignScan` sends no cursor
command and no value request; the first call of `redisIterateForeignScanMulti` sends
exactly one command, the value request for `q`, and returns an empty slot or a row
whose key is `q`; every later call returns an empty slot and sends nothing. -/
theorem pushdown_hit_single_fetch (srv : Server) (v : Str → Bool) (opts : redisTableOptions)
    (qual : List Node) (tupdesc : List Str) (context : redisContext) (q : Qual)
    (qual_value : Str) (e : Int)
    (hconn : connect_and_select srv opts = .ok context)
    (hqual : qual_loop tupdesc qual ⟨none, none, false⟩ = some q)
    (hv : q.value = some qual_value) (hp : q.pushdown = true)
    (hsingle : opts.singleton_key = none)
    (hmember : ∀ keyset, opts.keyset = some keyset →
      srv.respond context.sent ⟨"SISMEMBER %s %s", [.s keyset, .s qual_value]⟩
        = some (.integer 1))
    (hstarts : opts.keyset = none → ∀ p, opts.keyprefix = some p → p <+: qual_value)
    (hexists : srv.respond (context.sent ++ scope_commands opts.keyset qual_value)
      ⟨"EXISTS %s", [.s qual_value]⟩ = some (.integer e))
    (he : e ≠ 0) :
    ∃ festate, redisBeginForeignScan srv opts qual tupdesc false = .ok festate ∧
      festate.context.sent = context.sent ++ scope_commands opts.keyset qual_value ++
        [⟨"EXISTS %s", [.s qual_value]⟩] ∧
      page_requests festate.context.sent = 0 ∧ value_fetches festate.context.sent = 0 ∧
      ∀ rep, srv.respond festate.context.sent (value_request opts.table_type qual_value)
          = some rep →
        ∀ fuel,
          redisIterateForeignScanMulti srv v fuel festate =
            (match row_data v rep with
            | .error err =>
              .error err { festate.context with
                sent := festate.context.sent ++ [value_request opts.table_type qual_value] }
            | .ok none =>
              .ok (none, { festate with
                row := -1
                context := { festate.context with
                  sent := festate.context.sent ++ [value_request opts.table_type qual_value] } })
            | .ok (some data) =>
              .ok (some (qual_value, data), { festate with
                row := -1
                context := { festate.context with
                  sent := festate.context.sent ++
                    [value_request opts.table_type qual_value] } })) ∧
          page_requests
            (festate.context.sent ++ [value_request opts.table_type qual_value]) = 0 ∧
          value_fetches
            (festate.context.sent ++ [value_request opts.table_type qual_value]) = 1 ∧
          ∀ n, iterate_times srv v fuel n { festate with
                row := -1
                context := { festate.context with
                  sent := festate.context.sent ++ [value_request opts.table_type qual_value] } }
            = .ok (List.replicate n none, { festate with
                row := -1
                context := { festate.context with
                  sent := festate.context.sent ++
                    [value_request opts.table_type qual_value] } }) := by
  have hbegin := begin_pushdown srv opts qual tupdesc context q qual_value 1 e hconn hqual hv hp
    hsingle hmember hexists
  have hrow : ¬ ((opts.keyset ≠ none ∧ (1 : Int) ≠ 1) ∨
      (opts.keyset = none ∧ ∃ p, opts.keyprefix = some p ∧ ¬ p <+: qual_value) ∨ e = 0) := by
    rintro (⟨_, h⟩ | ⟨hk, p, hp1, hp2⟩ | h)
    · exact h rfl
    · exact hp2 (hstarts hk p hp1)
    · exact he h
  rw [if_neg hrow] at hbegin
  have hpr : page_requests (context.sent ++ scope_commands opts.keyset qual_value ++
      [⟨"EXISTS %s", [.s qual_value]⟩]) = 0 := by
    have h1 := (connect_and_select_sent srv opts context hconn).1
    have h2 := (scope_commands_counts opts.keyset qual_value).1
    simp only [page_requests, List.append_assoc, List.countP_append] at h1 h2 ⊢
    omega
  have hvf : value_fetches (context.sent ++ scope_commands opts.keyset qual_value ++
      [⟨"EXISTS %s", [.s qual_value]⟩]) = 0 := by
    have h1 := (connect_and_select_sent srv opts context hconn).2
    have h2 := (scope_commands_counts opts.keyset qual_value).2
    simp only [value_fetches, List.append_assoc, List.countP_append] at h1 h2 ⊢
    omega
  refine ⟨_, hbegin, rfl, hpr, hvf, ?_⟩
  intro rep hrep fuel
  have hqv : (init_state context opts q).qual_value = some qual_value := by
    simp [init_state, hp, hv]
  refine ⟨?_, ?_, ?_, ?_⟩
  · unfold redisIterateForeignScanMulti
    rw [fetch_pages_cursor_none srv fuel _ (by simp [init_state])]
    simp only at hrep
    simp only [next_row, has_row, hqv, value_fuel]
    have h0 : ((0 : Int) > -1) := by decide
    simp only [h0, if_true]
    rw [fetch_value]
    simp only [row_key, hqv, redisCommand, init_state, hrep]
    have hmk : ∀ st : RedisFdwExecutionState, st.qual_value = some qual_value →
        more_keys st = some false := by
      intro st h; simp [more_keys, h]
    cases hs : skipped rep with
    | false =>
      simp only [Bool.false_eq_true, if_false, build_row, within_page, hp, hv, if_true,
        Option.isSome_some]
      cases row_data v rep with
      | error err => rfl
      | ok data => cases data <;> rfl
    | true =>
      simp only [if_true, more_keys, hp, hv, build_row, within_page, Option.isSome_some]
      cases row_data v rep with
      | error err => rfl
      | ok data => cases data <;> rfl
  · simp only
    rw [page_requests_append_other _ _ (value_request_not_cursor _ _)]
    exact hpr
  · simp only
    have : ∀ (sent : List Cmd) (cmd : Cmd), is_value_command cmd = true →
        value_fetches (sent ++ [cmd]) = value_fetches sent + 1 := by
      intro sent cmd h
      simp [value_fetches, List.countP_append, h]
    rw [this _ _ (value_request_counts _ _), hvf]
  · intro n
    exact iterate_times_done srv v fuel _ (by simp [init_state]) rfl n

/-- On the example store a scan for the key `k2` sends `EXISTS` and then one `GET`,
and returns the row `(k2, v2)` once. -/
theorem pushdown_hit_single_fetch_witness :
    ∃ festate, redisBeginForeignScan demo_server demo_options
        [.OpExpr 67 [.Var 1, .Const "k2".data]] ["key".data, "value".data] false = .ok festate ∧
      festate.context.sent = demo_context.sent ++
        scope_commands demo_options.keyset "k2".data ++ [⟨"EXISTS %s", [.s "k2".data]⟩] ∧
      page_requests festate.context.sent = 0 ∧ value_fetches festate.context.sent = 0 ∧
      ∀ rep, demo_server.respond festate.context.sent
          (value_request demo_options.table_type "k2".data) = some rep →
        ∀ fuel,
          redisIterateForeignScanMulti demo_server (fun _ => true) fuel festate =
            (match row_data (fun _ => true) rep with
            | .error err =>
              .error err { festate.context with
                sent := festate.context.sent ++
                  [value_request demo_options.table_type "k2".data] }
            | .ok none =>
              .ok (none, { festate with
                row := -1
                context := { festate.context with
                  sent := festate.context.sent ++
                    [value_request demo_options.table_type "k2".data] } })
            | .ok (some data) =>
              .ok (some ("k2".data, data), { festate with
                row := -1
                context := { festate.context with
                  sent := festate.context.sent ++
                    [value_request demo_options.table_type "k2".data] } })) ∧
          page_requests
            (festate.context.sent ++ [value_request demo_options.table_type "k2".data]) = 0 ∧
          value_fetches
            (festate.context.sent ++ [value_request demo_options.table_type "k2".data]) = 1 ∧
          ∀ n, iterate_times demo_server (fun _ => true) fuel n { festate with
                row := -1
                context := { festate.context with
                  sent := festate.context.sent ++
                    [value_request demo_options.table_type "k2".data] } }
            = .ok (List.replicate n none, { festate with
                row := -1
                context := { festate.context with
                  sent := festate.context.sent ++
                    [value_request demo_options.table_type "k2".data] } }) :=
  pushdown_hit_single_fetch demo_server (fun _ => true) demo_options
    [.OpExpr 67 [.Var 1, .Const "k2".data]] ["key".data, "value".data] demo_context
    ⟨some "key".data, some "k2".data, true⟩ "k2".data 1 rfl (by decide) rfl rfl rfl
    (fun keyset h => by simp [demo_options] at h)
    (fun _ p h => by simp [demo_options] at h)
    rfl (by decide)

/-! ## Commands of the modify callbacks -/

theorem check_reply_ok (reply : redisReply) (context : redisContext) (code : ErrCode)
    (message : String) (h : reply.type ≠ .REDIS_REPLY_ERROR) :
    check_reply (some reply) context code message = .ok context := by
  simp [check_reply, h]

theorem check_reply_ok_iff (reply : Option redisReply) (context context' : redisContext)
    (code : ErrCode) (message : String) :
    check_reply reply context code message = .ok context' ↔
      context' = context ∧ ∃ r, reply = some r ∧ r.type ≠ .REDIS_REPLY_ERROR := by
  unfold check_reply
  cases reply with
  | none => simp
  | some r =>
    by_cases h : r.type = .REDIS_REPLY_ERROR
    · simp [h]
    · simp only [h, if_false, Result.ok.injEq, Option.some.injEq, ne_eq, exists_eq_left',
        not_false_eq_true, and_true]
      exact eq_comm

theorem send_checked_accepts (srv : Server) (context : redisContext) (cmd : Cmd)
    (message : String) (h : accepts srv context.sent cmd) :
    send_checked srv context cmd message
      = .ok { context with sent := context.sent ++ [cmd] } := by
  obtain ⟨reply, h1, h2⟩ := h
  simp [send_checked, redisCommand, h1, check_reply, h2]

theorem send_checked_ok (srv : Server) (context context' : redisContext) (cmd : Cmd)
    (message : String) (h : send_checked srv context cmd message = .ok context') :
    context' = { context with sent := context.sent ++ [cmd] } ∧
      accepts srv context.sent cmd := by
  unfold send_checked at h
  obtain ⟨h1, r, h2, h3⟩ := (check_reply_ok_iff _ _ _ _ _).1 h
  exact ⟨h1, r, h2, h3⟩

theorem send_all_ok (srv : Server) (message : String) :
    ∀ (cmds : List Cmd) (context context' : redisContext),
      send_all srv message cmds context = .ok context' →
      context' = { context with sent := context.sent ++ cmds } := by
  intro cmds
  induction cmds with
  | nil =>
    intro context context' h
    simp only [send_all, Result.ok.injEq] at h
    subst h
    simp
  | cons cmd rest ih =>
    intro context context' h
    rw [send_all] at h
    split at h
    · rename_i c hc
      obtain ⟨h1, _⟩ := send_checked_ok srv context c cmd message hc
      have := ih c context' h
      rw [this, h1]
      simp
    · cases h
    · cases h
    · cases h

theorem send_all_accepting (srv : Server) (message : String) (hsrv : accepting srv) :
    ∀ (cmds : List Cmd) (context : redisContext),
      send_all srv message cmds context = .ok { context with sent := context.sent ++ cmds } := by
  intro cmds
  induction cmds with
  | nil => intro context; simp [send_all]
  | cons cmd rest ih =>
    intro context
    rw [send_all, send_checked_accepts srv context cmd message (hsrv _ _)]
    simp only [ih]
    simp

theorem sadd_loop_eq (srv : Server) (message : String) (keyval : Str) :
    ∀ (items : List Str) (context : redisContext),
      sadd_loop srv message keyval items context
        = send_all srv message
            (items.map fun v => ⟨"SADD %s %s", [.s keyval, .s v]⟩) context := by
  intro items
  induction items with
  | nil => intro context; rfl
  | cons v rest ih =>
    intro context
    simp only [sadd_loop, List.map_cons, send_all]
    cases send_checked srv context ⟨"SADD %s %s", [.s keyval, .s v]⟩ message with
    | ok c => exact ih c
    | error e c => rfl
    | crash c => rfl
    | out_of_fuel => rfl

theorem rpush_loop_eq (srv : Server) (message : String) (keyval : Str) :
    ∀ (items : List Str) (context : redisContext),
      rpush_loop srv message keyval items context
        = send_all srv message
            (items.map fun v => ⟨"RPUSH %s %s", [.s keyval, .s v]⟩) context := by
  intro items
  induction items with
  | nil => intro context; rfl
  | cons v rest ih =>
    intro context
    simp only [rpush_loop, List.map_cons, send_all]
    cases send_checked srv context ⟨"RPUSH %s %s", [.s keyval, .s v]⟩ message with
    | ok c => exact ih c
    | error e c => rfl
    | crash c => rfl
    | out_of_fuel => rfl

theorem zadd_loop_eq (srv : Server) (message : String) (keyval : Str) :
    ∀ (items : List Str) (i : Nat) (context : redisContext),
      zadd_loop srv message keyval i items context
        = send_all srv message
            ((List.range items.length).map fun (j : Nat) =>
              ⟨"ZADD %s %s %s",
                [.s keyval, .s (fmt_lld (Int.ofNat (i + j))), .s (items.getD j [])]⟩)
            context := by
  intro items
  induction items with
  | nil => intro i context; rfl
  | cons v rest ih =>
    intro i context
    simp only [zadd_loop, List.length_cons, List.range_succ_eq_map, List.map_cons, List.map_map,
      send_all, Nat.add_zero, List.getD_cons_zero]
    cases send_checked srv context
        ⟨"ZADD %s %s %s", [.s keyval, .s (fmt_lld (i : Int)), .s v]⟩ message with
    | ok c =>
      simp only [Int.ofNat_eq_coe]
      rw [ih (i + 1) c]
      congr 1
      apply List.map_congr_left
      intro j _
      simp only [Function.comp, List.getD_cons_succ, Int.ofNat_eq_coe]
      have : i + 1 + j = i + (j + 1) := by omega
      simp [this]
    | error e c => rfl
    | crash c => rfl
    | out_of_fuel => rfl

theorem range_map_getD {α β : Type} (f : α → β) (d : α) :
    ∀ (l : List α), (List.range l.length).map (fun i => f (l.getD i d)) = l.map f := by
  intro l
  induction l with
  | nil => rfl
  | cons a rest ih =>
    simp only [List.length_cons, List.range_succ_eq_map, List.map_cons, List.map_map,
      List.getD_cons_zero]
    congr 1

theorem hset_loop_eq (srv : Server) (message : String) (keyval : Str) :
    ∀ (n : Nat) (items : List Str) (context : redisContext), items.length = 2 * n →
      hset_loop srv message keyval items context
        = send_all srv message
            ((List.range n).map fun j =>
              ⟨"HSET %s %s %s",
                [.s keyval, .s (items.getD (2 * j) []), .s (items.getD (2 * j + 1) [])]⟩)
            context := by
  intro n
  induction n with
  | zero =>
    intro items context h
    have : items = [] := by
      cases items with
      | nil => rfl
      | cons a l => simp at h
    subst this
    rfl
  | succ n ih =>
    intro items context h
    match items, h with
    | hk :: hv :: rest, h =>
      have hrest : rest.length = 2 * n := by
        simp only [List.length_cons] at h
        omega
      simp only [hset_loop, List.range_succ_eq_map, List.map_cons, List.map_map, send_all,
        Nat.mul_zero, List.getD_cons_zero, Nat.zero_add, List.getD_cons_succ]
      cases send_checked srv context
          ⟨"HSET %s %s %s", [.s keyval, .s hk, .s hv]⟩ message with
      | ok c =>
        simp only
        rw [ih rest c hrest]
        congr 1
      | error e c => rfl
      | crash c => rfl
      | out_of_fuel => rfl

theorem non_null_elements_map_some (items : List Str) :
    non_null_elements (items.map some) = some items := by
  induction items with
  | nil => rfl
  | cons s rest ih => simp [non_null_elements, ih]

theorem non_null_elements_eq_none (elements : List (Option Str)) (h : none ∈ elements) :
    non_null_elements elements = none := by
  induction elements with
  | nil => simp at h
  | cons a rest ih =>
    cases a with
    | none => rfl
    | some s =>
      have : none ∈ rest := by simpa using h
      simp [non_null_elements, ih this]

theorem insert_writes_eq (srv : Server) (fmstate : RedisFdwModifyState)
    (context : redisContext) (k : Str) (items : List Str)
    (htype : fmstate.table_type ≠ .PG_REDIS_SCALAR_TABLE)
    (heven : fmstate.table_type = .PG_REDIS_HASH_TABLE → items.length % 2 = 0) :
    ∃ message, insert_writes srv fmstate context k (.inr items)
      = send_all srv message (write_commands fmstate.table_type k items) context := by
  unfold insert_writes write_commands
  cases htt : fmstate.table_type with
  | PG_REDIS_SCALAR_TABLE => exact absurd htt htype
  | PG_REDIS_SET_TABLE =>
    refine ⟨"could not add set member %s", ?_⟩
    simp only
    rw [sadd_loop_eq, range_map_getD (fun v => (⟨"SADD %s %s", [.s k, .s v]⟩ : Cmd))]
  | PG_REDIS_LIST_TABLE =>
    refine ⟨"could not add value %s", ?_⟩
    simp only
    rw [rpush_loop_eq, range_map_getD (fun v => (⟨"RPUSH %s %s", [.s k, .s v]⟩ : Cmd))]
  | PG_REDIS_HASH_TABLE =>
    refine ⟨"could not add key %s", ?_⟩
    simp only
    have := heven htt
    rw [hset_loop_eq srv _ k (items.length / 2) items context (by omega)]
  | PG_REDIS_ZSET_TABLE =>
    refine ⟨"could not add key %s", ?_⟩
    simp only
    rw [zadd_loop_eq]
    simp

theorem update_array_eq (srv : Server) (fmstate : RedisFdwModifyState)
    (context : redisContext) (k : Str) (items : List Str)
    (htype : fmstate.table_type ≠ .PG_REDIS_SCALAR_TABLE)
    (heven : fmstate.table_type = .PG_REDIS_HASH_TABLE → items.length % 2 = 0) :
    ∃ message, update_array srv fmstate context k items
      = send_then srv context ⟨"DEL %s ", [.s k]⟩ "could not delete key %s" fun context =>
          send_all srv message (write_commands fmstate.table_type k items) context := by
  unfold update_array write_commands
  cases htt : fmstate.table_type with
  | PG_REDIS_SCALAR_TABLE => exact absurd htt htype
  | PG_REDIS_SET_TABLE =>
    refine ⟨"could not add element %s", ?_⟩
    simp only
    congr 1
    funext c
    rw [sadd_loop_eq, range_map_getD (fun v => (⟨"SADD %s %s", [.s k, .s v]⟩ : Cmd))]
  | PG_REDIS_LIST_TABLE =>
    refine ⟨"could not add value %s", ?_⟩
    simp only
    congr 1
    funext c
    rw [rpush_loop_eq, range_map_getD (fun v => (⟨"RPUSH %s %s", [.s k, .s v]⟩ : Cmd))]
  | PG_REDIS_HASH_TABLE =>
    refine ⟨"could not add key %s", ?_⟩
    simp only
    congr 1
    funext c
    have := heven htt
    rw [hset_loop_eq srv _ k (items.length / 2) items c (by omega)]
  | PG_REDIS_ZSET_TABLE =>
    refine ⟨"could not add key %s", ?_⟩
    simp only
    congr 1
    funext c
    rw [zadd_loop_eq]
    simp

theorem insert_value_array (fmstate : RedisFdwModifyState) (items : List Str)
    (htype : fmstate.table_type ≠ .PG_REDIS_SCALAR_TABLE) :
    insert_value fmstate (.array (items.map some)) =
      if items.length = 0 then
        .error (some ⟨.ERRCODE_FEATURE_NOT_SUPPORTED, "cannot store empty list in a Redis table"⟩)
      else if fmstate.table_type = .PG_REDIS_HASH_TABLE ∧ items.length % 2 ≠ 0 then
        .error (some ⟨.ERRCODE_FEATURE_NOT_SUPPORTED,
          "cannot decompose odd number of items into a Redis hash"⟩)
      else .ok (.inr items) := by
  unfold insert_value
  simp only [htype, if_false, List.length_map, non_null_elements_map_some]

theorem insert_eq_scoped (srv : Server) (fmstate : RedisFdwModifyState)
    (context : redisContext) (slot : List Datum) (k : Str)
    (hctx : fmstate.context = some context)
    (hsingle : fmstate.singleton_key = none)
    (hkey : slot_getattr slot 1 = .text k) :
    redisExecForeignInsert srv fmstate slot = insert_scoped srv fmstate context k slot := by
  simp [redisExecForeignInsert, hctx, hkey, OutputFunctionCall, hsingle]

theorem insert_scoped_sent (srv : Server) (fmstate : RedisFdwModifyState)
    (context : redisContext) (slot : List Datum) (k : Str) (e : List Str)
    (htype : fmstate.table_type ≠ .PG_REDIS_SCALAR_TABLE)
    (hval : slot_getattr slot 2 = .array (e.map some)) :
    ∀ context', insert_scoped srv fmstate context k slot = .ok context' →
      context'.sent = context.sent ++ ⟨"EXISTS %s", [.s k]⟩ ::
        (write_commands fmstate.table_type k e ++ keyset_commands fmstate.keyset k) := by
  intro context' h
  unfold insert_scoped at h
  simp only [hval] at h
  split at h
  · cases h
  · split at h
    · cases h
    · split at h
      · cases h
      · split at h
        · cases h
        · split at h
          · rename_i c1 hc1
            obtain ⟨rfl, r, hr, hrt⟩ := (check_reply_ok_iff _ _ _ _ _).1 hc1
            simp only [hr] at h
            split at h
            · cases h
            · by_cases hne : e.length = 0
              · simp [insert_value_array fmstate e htype, hne] at h
              · by_cases hodd : fmstate.table_type = .PG_REDIS_HASH_TABLE ∧ e.length % 2 ≠ 0
                · simp [insert_value_array fmstate e htype, hne, hodd] at h
                · have heven : fmstate.table_type = .PG_REDIS_HASH_TABLE → e.length % 2 = 0 := by
                    intro ht
                    by_contra hc
                    exact hodd ⟨ht, hc⟩
                  obtain ⟨message, hw⟩ := insert_writes_eq srv fmstate
                    (redisCommand srv context ⟨"EXISTS %s", [.s k]⟩).2 k e htype heven
                  simp only [insert_value_array fmstate e htype, hne, hodd, if_false] at h
                  rw [hw] at h
                  split at h
                  · rename_i c2 hc2
                    have h2 := send_all_ok srv message _ _ c2 hc2
                    cases hks : fmstate.keyset with
                    | none =>
                      simp only [hks] at h
                      cases h
                      rw [h2]
                      simp [redisCommand, keyset_commands]
                    | some keyset =>
                      simp only [hks] at h
                      obtain ⟨h3, _⟩ := send_checked_ok srv c2 context' _ _ h
                      rw [h3, h2]
                      simp [redisCommand, keyset_commands]
                  · cases h
                  · cases h
                  · cases h
          · cases h
          · cases h
          · cases h

theorem insert_scoped_accepting (srv : Server) (fmstate : RedisFdwModifyState)
    (context : redisContext) (slot : List Datum) (k : Str) (e : List Str)
    (htype : fmstate.table_type ≠ .PG_REDIS_SCALAR_TABLE)
    (hval : slot_getattr slot 2 = .array (e.map some))
    (hsrv : accepting srv) (harr : fmstate.array_elem_type = true)
    (hpre : ∀ keyprefix, fmstate.keyprefix = some keyprefix → keyprefix <+: k)
    (hexists : srv.respond context.sent ⟨"EXISTS %s", [.s k]⟩ = some (.integer 0))
    (hne : e ≠ []) (heven : fmstate.table_type = .PG_REDIS_HASH_TABLE → e.length % 2 = 0) :
    ∃ context', insert_scoped srv fmstate context k slot = .ok context' := by
  unfold insert_scoped
  simp only [hval]
  have hlen : e.length ≠ 0 := by
    intro h0
    exact hne (List.length_eq_zero.1 h0)
  have hodd : ¬ (fmstate.table_type = .PG_REDIS_HASH_TABLE ∧ e.length % 2 ≠ 0) := by
    rintro ⟨h1, h2⟩
    exact h2 (heven h1)
  obtain ⟨message, hw⟩ := insert_writes_eq srv fmstate
    (redisCommand srv context ⟨"EXISTS %s", [.s k]⟩).2 k e htype heven
  simp only [redisCommand] at hw
  have hrest : ∀ c : redisContext, ∃ context', (match fmstate.keyset with
      | some keyset =>
        send_checked srv c ⟨"SADD %s %s", [.s keyset, .s k]⟩
          "could not add keyset element %s"
      | none => Result.ok c) = .ok context' := by
    intro c
    cases fmstate.keyset with
    | none => exact ⟨_, rfl⟩
    | some keyset =>
      simp only
      rw [send_checked_accepts srv _ _ _ (hsrv _ _)]
      exact ⟨_, rfl⟩
  cases hkp : fmstate.keyprefix with
  | none =>
    simp only [reduceCtorEq, if_false, harr, htype, not_true_eq_false, false_and, true_and,
      Bool.false_eq_true, redisCommand, hexists, check_reply, redisReply.type,
      redisReply.integer_, ne_eq, not_true_eq_false, or_self,
      insert_value_array fmstate e htype, hlen, hodd]
    rw [hw, send_all_accepting srv message hsrv]
    exact hrest _
  | some p =>
    have hpk : p.isPrefixOf k = true := by
      have := hpre p hkp
      simpa using this
    simp only [reduceCtorEq, if_false, harr, htype, not_true_eq_false, false_and, true_and,
      hpk, Bool.not_true, Bool.false_eq_true, redisCommand, hexists, check_reply,
      redisReply.type, redisReply.integer_, ne_eq, not_true_eq_false, or_self,
      insert_value_array fmstate e htype, hlen, hodd]
    rw [hw, send_all_accepting srv message hsrv]
    exact hrest _

/-- C14: on a table that is not a singleton and not scalar, for the key `k` and the
array elements `e`, every insert that succeeds has sent, in order, the existence
check, then the value writes (`SADD k e[i]`, `RPUSH k e[i]`, `HSET k e[2j] e[2j+1]` or
`ZADD k i e[i]` by table type) and last, when the table has a key set, `SADD keyset k`;
and the insert does succeed when the row is well formed and the store accepts the
commands. -/
theorem insert_commands (srv : Server) (fmstate : RedisFdwModifyState)
    (context : redisContext) (slot : List Datum) (k : Str) (e : List Str)
    (hctx : fmstate.context = some context)
    (hsingle : fmstate.singleton_key = none)
    (htype : fmstate.table_type ≠ .PG_REDIS_SCALAR_TABLE)
    (hkey : slot_getattr slot 1 = .text k)
    (hval : slot_getattr slot 2 = .array (e.map some)) :
    (∀ context', redisExecForeignInsert srv fmstate slot = .ok context' →
        context'.sent = context.sent ++ ⟨"EXISTS %s", [.s k]⟩ ::
          (write_commands fmstate.table_type k e ++ keyset_commands fmstate.keyset k)) ∧
      (accepting srv → fmstate.array_elem_type = true →
        (∀ keyprefix, fmstate.keyprefix = some keyprefix → keyprefix <+: k) →
        srv.respond context.sent ⟨"EXISTS %s", [.s k]⟩ = some (.integer 0) →
        e ≠ [] → (fmstate.table_type = .PG_REDIS_HASH_TABLE → e.length % 2 = 0) →
        ∃ context', redisExecForeignInsert srv fmstate slot = .ok context') := by
  rw [insert_eq_scoped srv fmstate context slot k hctx hsingle hkey]
  exact ⟨insert_scoped_sent srv fmstate context slot k e htype hval,
    fun hsrv harr hpre hexists hne heven =>
      insert_scoped_accepting srv fmstate context slot k e htype hval hsrv harr hpre hexists
        hne heven⟩

/-- A hash of one field inserted into a table with the key set `ks`: the existence
check, one `HSET`, and `SADD ks k` last. -/
theorem insert_commands_witness :
    redisExecForeignInsert fresh_server (demo_fmstate .PG_REDIS_HASH_TABLE (some "ks".data))
        [.text "k".data, .array [some "f".data, some "x".data]]
      = .ok ⟨false, [⟨"SELECT %d", [.d 0]⟩, ⟨"EXISTS %s", [.s "k".data]⟩,
          ⟨"HSET %s %s %s", [.s "k".data, .s "f".data, .s "x".data]⟩,
          ⟨"SADD %s %s", [.s "ks".data, .s "k".data]⟩], false⟩ ∧
      ((∀ context', redisExecForeignInsert fresh_server
            (demo_fmstate .PG_REDIS_HASH_TABLE (some "ks".data))
            [.text "k".data, .array [some "f".data, some "x".data]] = .ok context' →
          context'.sent = demo_context.sent ++ ⟨"EXISTS %s", [.s "k".data]⟩ ::
            (write_commands .PG_REDIS_HASH_TABLE "k".data ["f".data, "x".data] ++
              keyset_commands (some "ks".data) "k".data)) ∧
        (accepting fresh_server →
          (demo_fmstate .PG_REDIS_HASH_TABLE (some "ks".data)).array_elem_type = true →
          (∀ keyprefix, RedisFdwModifyState.keyprefix
              (demo_fmstate .PG_REDIS_HASH_TABLE (some "ks".data))
            = some keyprefix → keyprefix <+: "k".data) →
          fresh_server.respond demo_context.sent ⟨"EXISTS %s", [.s "k".data]⟩
            = some (.integer 0) →
          ["f".data, "x".data] ≠ [] →
          ((demo_fmstate .PG_REDIS_HASH_TABLE (some "ks".data)).table_type
            = .PG_REDIS_HASH_TABLE → ["f".data, "x".data].length % 2 = 0) →
          ∃ context', redisExecForeignInsert fresh_server
            (demo_fmstate .PG_REDIS_HASH_TABLE (some "ks".data))
            [.text "k".data, .array [some "f".data, some "x".data]] = .ok context')) :=
  ⟨rfl, insert_commands fresh_server (demo_fmstate .PG_REDIS_HASH_TABLE (some "ks".data))
    demo_context [.text "k".data, .array [some "f".data, some "x".data]] "k".data
    ["f".data, "x".data] rfl rfl (by decide) rfl rfl⟩

/-! ## Uniqueness on insert -/

theorem insert_check_not_mutating (fmstate : RedisFdwModifyState) (keyval : Str) (cmd : Cmd)
    (h : insert_check_request fmstate keyval = some cmd) : is_mutating cmd = false := by
  unfold insert_check_request at h
  cases hs : fmstate.singleton_key with
  | none =>
    simp only [hs, Option.some.injEq] at h
    subst h
    rfl
  | some singleton_key =>
    simp only [hs] at h
    unfold singleton_exists_request at h
    cases ht : fmstate.table_type <;> simp only [ht, Option.some.injEq, reduceCtorEq] at h <;>
      subst h <;> rfl

theorem mutations_append_check (sent : List Cmd) (cmd : Cmd) (h : is_mutating cmd = false) :
    mutations (sent ++ [cmd]) = mutations sent := by
  simp [mutations, List.countP_append, List.countP_cons, h]

/-- C12: when the existence check that `redisExecForeignInsert` sends for the key or
member (`EXISTS` for a scalar or any key of a table that is not a singleton,
`HEXISTS`, `SISMEMBER`, `ZRANK` for a singleton hash, set, sorted set) is answered
with a reply that reports it present, the insert fails with the code
`ERRCODE_UNIQUE_VIOLATION`, and the existence check, which changes nothing, is the
only command it has sent. -/
theorem insert_conflict (srv : Server) (fmstate : RedisFdwModifyState) (context : redisContext)
    (slot : List Datum) (keyval : Str) (cmd : Cmd) (reply : redisReply)
    (hctx : fmstate.context = some context)
    (hkey : slot_getattr slot 1 = .text keyval)
    (hreq : insert_check_request fmstate keyval = some cmd)
    (hreach : reaches_check fmstate slot keyval)
    (hreply : srv.respond context.sent cmd = some reply)
    (hpresent : reports_present fmstate reply) :
    redisExecForeignInsert srv fmstate slot
        = .error ⟨.ERRCODE_UNIQUE_VIOLATION, "key already exists: %s"⟩
            { context with sent := context.sent ++ [cmd] } ∧
      is_mutating cmd = false ∧ mutations (context.sent ++ [cmd]) = mutations context.sent := by
  have hmut := insert_check_not_mutating fmstate keyval cmd hreq
  refine ⟨?_, hmut, mutations_append_check _ _ hmut⟩
  unfold redisExecForeignInsert
  simp only [hctx, hkey, OutputFunctionCall]
  obtain ⟨herr, hp⟩ := hpresent
  unfold insert_check_request at hreq
  cases hs : fmstate.singleton_key with
  | none =>
    simp only [hs, Option.some.injEq] at hreq hp
    subst hreq
    obtain ⟨hnn, harr, hpre⟩ := hreach hs
    have hor : reply.type ≠ .REDIS_REPLY_INTEGER ∨ reply.integer_ ≠ 0 := by
      by_contra hc
      apply hp
      constructor
      · by_contra h1
        exact hc (Or.inl h1)
      · by_contra h2
        exact hc (Or.inr h2)
    unfold insert_scoped
    cases hkp : fmstate.keyprefix with
    | none =>
      by_cases hsc : fmstate.table_type = .PG_REDIS_SCALAR_TABLE
      · have ha : fmstate.array_elem_type = false := by
          cases h : fmstate.array_elem_type with
          | false => rfl
          | true => exact absurd hsc (harr.1 h)
        simp [hnn, hsc, ha, redisCommand, hreply, check_reply, herr, hor]
      · have ha : fmstate.array_elem_type = true := harr.2 hsc
        simp [hnn, hsc, ha, redisCommand, hreply, check_reply, herr, hor]
    | some p =>
      have hpk : p.isPrefixOf keyval = true := by
        have := hpre p hkp
        simpa using this
      by_cases hsc : fmstate.table_type = .PG_REDIS_SCALAR_TABLE
      · have ha : fmstate.array_elem_type = false := by
          cases h : fmstate.array_elem_type with
          | false => rfl
          | true => exact absurd hsc (harr.1 h)
        simp [hnn, hsc, ha, hpk, redisCommand, hreply, check_reply, herr, hor]
      · have ha : fmstate.array_elem_type = true := harr.2 hsc
        simp [hnn, hsc, ha, hpk, redisCommand, hreply, check_reply, herr, hor]
  | some singleton_key =>
    simp only [hs] at hreq hp
    unfold insert_singleton
    simp [hreq, redisCommand, hreply, check_reply, herr, hp]

/-- On the example store the key `k2` exists: its insert into a scalar table fails
with the uniqueness conflict after the existence check alone. -/
theorem insert_conflict_witness :
    redisExecForeignInsert demo_server (demo_fmstate .PG_REDIS_SCALAR_TABLE none)
        [.text "k2".data, .text "v".data]
      = .error ⟨.ERRCODE_UNIQUE_VIOLATION, "key already exists: %s"⟩
          { demo_context with
            sent := demo_context.sent ++ [⟨"EXISTS %s", [.s "k2".data]⟩] } ∧
      is_mutating ⟨"EXISTS %s", [.s "k2".data]⟩ = false ∧
      mutations (demo_context.sent ++ [⟨"EXISTS %s", [.s "k2".data]⟩])
        = mutations demo_context.sent :=
  insert_conflict demo_server (demo_fmstate .PG_REDIS_SCALAR_TABLE none) demo_context
    [.text "k2".data, .text "v".data] "k2".data ⟨"EXISTS %s", [.s "k2".data]⟩ (.integer 1)
    rfl rfl rfl (by simp [reaches_check, demo_fmstate, slot_getattr]) rfl
    (by simp [reports_present, demo_fmstate, redisReply.type, redisReply.integer_])

/-- C13, as stated, fails: a list table that is not a singleton does send the
existence check, and the insert of the key `k2`, which the example store holds,
fails with the uniqueness conflict. -/
theorem insert_list_key_conflict :
    redisExecForeignInsert demo_server (demo_fmstate .PG_REDIS_LIST_TABLE none)
        [.text "k2".data, .array [some "a".data]]
      = .error ⟨.ERRCODE_UNIQUE_VIOLATION, "key already exists: %s"⟩
          ⟨false, [⟨"SELECT %d", [.d 0]⟩, ⟨"EXISTS %s", [.s "k2".data]⟩], false⟩ := by
  rfl

/-- C13 amended: a singleton list table skips the uniqueness check on insert:
`redisExecForeignInsert` sends no existence check, its only command is
`RPUSH singleton_key value`, it never fails with the uniqueness conflict, and it
succeeds whenever the store accepts the `RPUSH`. -/
theorem insert_singleton_list_unchecked (srv : Server) (fmstate : RedisFdwModifyState)
    (context : redisContext) (slot : List Datum) (singleton_key keyval : Str)
    (hctx : fmstate.context = some context)
    (hsingle : fmstate.singleton_key = some singleton_key)
    (htype : fmstate.table_type = .PG_REDIS_LIST_TABLE)
    (hkey : slot_getattr slot 1 = .text keyval) :
    insert_check_request fmstate keyval = none ∧
      (∃ context', left_context (redisExecForeignInsert srv fmstate slot) = some context' ∧
        context'.sent = context.sent ++ [⟨"RPUSH %s %s", [.s singleton_key, .s keyval]⟩]) ∧
      (∀ e context', redisExecForeignInsert srv fmstate slot = .error e context' →
        e.code ≠ .ERRCODE_UNIQUE_VIOLATION) ∧
      (accepts srv context.sent ⟨"RPUSH %s %s", [.s singleton_key, .s keyval]⟩ →
        redisExecForeignInsert srv fmstate slot
          = .ok { context with
              sent := context.sent ++ [⟨"RPUSH %s %s", [.s singleton_key, .s keyval]⟩] }) := by
  have hrun : redisExecForeignInsert srv fmstate slot
      = send_checked srv context ⟨"RPUSH %s %s", [.s singleton_key, .s keyval]⟩
          "cannot insert value for key %s" := by
    simp [redisExecForeignInsert, hctx, hkey, OutputFunctionCall, hsingle, insert_singleton,
      htype, singleton_exists_request, singleton_write_request]
  rw [hrun]
  refine ⟨by simp [insert_check_request, hsingle, htype, singleton_exists_request], ?_, ?_,
    fun h => send_checked_accepts srv context _ _ h⟩
  · unfold send_checked check_reply
    simp only [redisCommand]
    cases srv.respond context.sent ⟨"RPUSH %s %s", [.s singleton_key, .s keyval]⟩ with
    | none => exact ⟨_, rfl, rfl⟩
    | some reply =>
      by_cases h : reply.type = .REDIS_REPLY_ERROR
      · simp [h, left_context]
      · simp [h, left_context]
  · intro e context' h
    unfold send_checked check_reply at h
    simp only [redisCommand] at h
    cases hr : srv.respond context.sent ⟨"RPUSH %s %s", [.s singleton_key, .s keyval]⟩ with
    | none =>
      simp only [hr, Result.error.injEq] at h
      rw [← h.1]
      decide
    | some reply =>
      simp only [hr] at h
      by_cases hty : reply.type = .REDIS_REPLY_ERROR
      · simp only [hty, if_true, Result.error.injEq] at h
        rw [← h.1]
        decide
      · simp [hty] at h

/-- The value `a` pushed onto the singleton list `t` of a store that accepts it. -/
theorem insert_singleton_list_unchecked_witness :
    insert_check_request (demo_singleton_fmstate .PG_REDIS_LIST_TABLE) "a".data = none ∧
      (∃ context', left_context (redisExecForeignInsert fresh_server
          (demo_singleton_fmstate .PG_REDIS_LIST_TABLE) [.text "a".data]) = some context' ∧
        context'.sent = demo_context.sent ++ [⟨"RPUSH %s %s", [.s "t".data, .s "a".data]⟩]) ∧
      (∀ e context', redisExecForeignInsert fresh_server
          (demo_singleton_fmstate .PG_REDIS_LIST_TABLE) [.text "a".data] = .error e context' →
        e.code ≠ .ERRCODE_UNIQUE_VIOLATION) ∧
      (accepts fresh_server demo_context.sent ⟨"RPUSH %s %s", [.s "t".data, .s "a".data]⟩ →
        redisExecForeignInsert fresh_server (demo_singleton_fmstate .PG_REDIS_LIST_TABLE)
            [.text "a".data]
          = .ok { demo_context with
              sent := demo_context.sent ++ [⟨"RPUSH %s %s", [.s "t".data, .s "a".data]⟩] }) :=
  insert_singleton_list_unchecked fresh_server (demo_singleton_fmstate .PG_REDIS_LIST_TABLE)
    demo_context [.text "a".data] "t".data "a".data rfl rfl rfl rfl

/-! ## Arrays the modify callbacks refuse -/

theorem insert_value_refused (fmstate : RedisFdwModifyState) (elements : List (Option Str))
    (htype : fmstate.table_type ≠ .PG_REDIS_SCALAR_TABLE)
    (href : refused_array fmstate.table_type elements) :
    ∃ e, insert_value fmstate (.array elements) = .error (some e) ∧
      e.code = .ERRCODE_FEATURE_NOT_SUPPORTED := by
  unfold insert_value
  simp only [htype, if_false]
  by_cases hlen : elements.length = 0
  · rw [if_pos hlen]
    exact ⟨_, rfl, rfl⟩
  · by_cases hodd : fmstate.table_type = .PG_REDIS_HASH_TABLE ∧ elements.length % 2 ≠ 0
    · rw [if_neg hlen, if_pos hodd]
      exact ⟨_, rfl, rfl⟩
    · have hnull : none ∈ elements := by
        rcases href with h | h | h
        · exact absurd (by simp [h]) hlen
        · exact h
        · exact absurd h hodd
      rw [if_neg hlen, if_neg hodd, non_null_elements_eq_none elements hnull]
      exact ⟨_, rfl, rfl⟩

theorem update_values_loop_refused (fmstate : RedisFdwModifyState) (slot : List Datum)
    (newkey : Str) (elements : List (Option Str))
    (hsingle : fmstate.singleton_key = none)
    (htype : fmstate.table_type ≠ .PG_REDIS_SCALAR_TABLE)
    (hkey : slot_getattr slot 1 = .text newkey)
    (hval : slot_getattr slot 2 = .array elements)
    (href : refused_array fmstate.table_type elements) :
    ∀ (target_attrs : List Int) (values : UpdateValues),
      (∀ a ∈ target_attrs, a = 1 ∨ a = 2) → 2 ∈ target_attrs →
      ∃ e, update_values_loop fmstate slot target_attrs values = .error (some e) ∧
        e.code = .ERRCODE_FEATURE_NOT_SUPPORTED := by
  intro target_attrs
  induction target_attrs with
  | nil => intro values _ h; simp at h
  | cons a rest ih =>
    intro values hall hmem
    rcases hall a (List.mem_cons_self _ _) with ha | ha
    · subst ha
      have hrest : (2 : Int) ∈ rest := by
        rcases List.mem_cons.1 hmem with h | h
        · exact absurd h (by decide)
        · exact h
      rw [update_values_loop]
      simp only [hkey, reduceCtorEq, if_false, if_true, OutputFunctionCall]
      exact ih _ (fun b hb => hall b (List.mem_cons_of_mem _ hb)) hrest
    · subst ha
      rw [update_values_loop]
      have h21 : ¬ ((2 : Int) = 1) := by decide
      simp only [hval, reduceCtorEq, if_false, h21, hsingle, Option.isSome_none,
        Bool.false_eq_true, htype, or_self]
      by_cases hlen : elements.length = 0
      · rw [if_pos hlen]
        exact ⟨_, rfl, rfl⟩
      · by_cases hodd : fmstate.table_type = .PG_REDIS_HASH_TABLE ∧ elements.length % 2 ≠ 0
        · rw [if_neg hlen, if_pos hodd]
          exact ⟨_, rfl, rfl⟩
        · have hnull : none ∈ elements := by
            rcases href with h | h | h
            · exact absurd (by simp [h]) hlen
            · exact h
            · exact absurd h hodd
          rw [if_neg hlen, if_neg hodd, non_null_elements_eq_none elements hnull]
          exact ⟨_, rfl, rfl⟩

theorem insert_scoped_refused (srv : Server) (fmstate : RedisFdwModifyState)
    (context : redisContext) (slot : List Datum) (k : Str) (elements : List (Option Str))
    (htype : fmstate.table_type ≠ .PG_REDIS_SCALAR_TABLE)
    (hval : slot_getattr slot 2 = .array elements)
    (href : refused_array fmstate.table_type elements) :
    ∃ e c, insert_scoped srv fmstate context k slot = .error e c ∧
      (c.sent = context.sent ∨ c.sent = context.sent ++ [⟨"EXISTS %s", [.s k]⟩]) ∧
      (srv.respond context.sent ⟨"EXISTS %s", [.s k]⟩ = some (.integer 0) →
        e.code = .ERRCODE_FEATURE_NOT_SUPPORTED) := by
  obtain ⟨e0, he0, hc0⟩ := insert_value_refused fmstate elements htype href
  unfold insert_scoped
  simp only [hval, he0, reduceCtorEq, if_false, htype, and_false, ne_eq, not_false_eq_true,
    and_true, redisCommand]
  split
  · exact ⟨_, _, rfl, Or.inl rfl, fun _ => rfl⟩
  · split
    · exact ⟨_, _, rfl, Or.inl rfl, fun _ => rfl⟩
    · cases hr : srv.respond context.sent ⟨"EXISTS %s", [.s k]⟩ with
      | none =>
        refine ⟨_, _, by simp only [check_reply]; rfl, Or.inr rfl, fun h => by cases h⟩
      | some reply =>
        by_cases hty : reply.type = .REDIS_REPLY_ERROR
        · simp only [check_reply, hty, if_true]
          refine ⟨_, _, rfl, Or.inr rfl, fun h => ?_⟩
          simp only [Option.some.injEq] at h
          subst h
          simp [redisReply.type] at hty
        · simp only [check_reply, hty, if_false]
          split
          · refine ⟨_, _, rfl, Or.inr rfl, fun h => ?_⟩
            rename_i hor
            simp only [Option.some.injEq] at h
            subst h
            simp [redisReply.type, redisReply.integer_] at hor
          · exact ⟨_, _, rfl, Or.inr rfl, fun _ => hc0⟩

/-- C16: on a table that is not a singleton and not scalar, for an array that is
empty, holds a null element, or (for a hash) has an odd number of elements,
`redisExecForeignInsert` ends with an error having sent no command that changes the
store (the error is the refusal of the array, `ERRCODE_FEATURE_NOT_SUPPORTED`, when
the key passes the existence check), and `redisExecForeignUpdate` of the value column
ends with the error `ERRCODE_FEATURE_NOT_SUPPORTED` having sent no command at all. -/
theorem refused_array_no_mutation (srv : Server) (fmstate : RedisFdwModifyState)
    (context : redisContext) (slot : List Datum) (old k : Str) (elements : List (Option Str))
    (hctx : fmstate.context = some context)
    (hsingle : fmstate.singleton_key = none)
    (htype : fmstate.table_type ≠ .PG_REDIS_SCALAR_TABLE)
    (hkey : slot_getattr slot 1 = .text k)
    (hval : slot_getattr slot 2 = .array elements)
    (htargets : ∀ a ∈ fmstate.target_attrs, a = 1 ∨ a = 2)
    (hvalue : 2 ∈ fmstate.target_attrs)
    (href : refused_array fmstate.table_type elements) :
    (∃ e c, redisExecForeignInsert srv fmstate slot = .error e c ∧
        mutations c.sent = mutations context.sent ∧
        (srv.respond context.sent ⟨"EXISTS %s", [.s k]⟩ = some (.integer 0) →
          e.code = .ERRCODE_FEATURE_NOT_SUPPORTED)) ∧
      ∃ e, redisExecForeignUpdate srv fmstate (.text old) slot = .error e context ∧
        e.code = .ERRCODE_FEATURE_NOT_SUPPORTED := by
  constructor
  · rw [insert_eq_scoped srv fmstate context slot k hctx hsingle hkey]
    obtain ⟨e, c, h1, h2, h3⟩ :=
      insert_scoped_refused srv fmstate context slot k elements htype hval href
    refine ⟨e, c, h1, ?_, h3⟩
    rcases h2 with h | h
    · rw [h]
    · rw [h]
      exact mutations_append_check _ _ rfl
  · obtain ⟨e, h1, h2⟩ := update_values_loop_refused fmstate slot k elements hsingle htype hkey
      hval href fmstate.target_attrs ⟨old, none, none⟩ htargets hvalue
    refine ⟨e, ?_, h2⟩
    simp [redisExecForeignUpdate, hctx, OutputFunctionCall, h1]

/-- An empty array for the key `k` of a set table: the insert stops after the
existence check, the update before any command. -/
theorem refused_array_no_mutation_witness :
    (∃ e c, redisExecForeignInsert fresh_server (demo_fmstate .PG_REDIS_SET_TABLE none)
          [.text "k".data, .array []] = .error e c ∧
        mutations c.sent = mutations demo_context.sent ∧
        (fresh_server.respond demo_context.sent ⟨"EXISTS %s", [.s "k".data]⟩
            = some (.integer 0) →
          e.code = .ERRCODE_FEATURE_NOT_SUPPORTED)) ∧
      ∃ e, redisExecForeignUpdate fresh_server (demo_fmstate .PG_REDIS_SET_TABLE none)
          (.text "k".data) [.text "k".data, .array []] = .error e demo_context ∧
        e.code = .ERRCODE_FEATURE_NOT_SUPPORTED :=
  refused_array_no_mutation fresh_server (demo_fmstate .PG_REDIS_SET_TABLE none) demo_context
    [.text "k".data, .array []] "k".data "k".data [] rfl rfl (by decide) rfl rfl
    (by simp [demo_fmstate]) (by simp [demo_fmstate]) (Or.inl rfl)

/-! ## Update of the key of a list table -/

theorem target_attrs_loop_singleton (op : CmdType) (attndims : List Nat)
    (singleton_key : Option Str) (table_type : redis_table_type)
    (hsingle : singleton_key ≠ none) :
    ∀ (target_attrs : List Int) (p_nums : Nat),
      (∀ a ∈ target_attrs, 1 ≤ a ∧ a ≤ attndims.length) →
      target_attrs_loop op attndims singleton_key table_type target_attrs p_nums
        = .ok (p_nums + target_attrs.length) := by
  intro target_attrs
  induction target_attrs with
  | nil => intro p_nums _; rfl
  | cons a rest ih =>
    intro p_nums h
    obtain ⟨h1, h2⟩ := h a (List.mem_cons_self _ _)
    have hlt : (a - 1).toNat < attndims.length := by omega
    rw [target_attrs_loop]
    have hn : ¬ a < 1 := by omega
    simp only [hn, if_false, List.getElem?_eq_getElem hlt, hsingle, false_and, and_false]
    rw [ih (p_nums + 1) (fun b hb => h b (List.mem_cons_of_mem _ hb))]
    simp only [List.length_cons]
    congr 1
    omega

/-- C18, as stated, fails: on a list table that is not a singleton
`redisBeginForeignModify` accepts an update of the key column, and
`redisExecForeignUpdate` renames the key `a` to `b` with `RENAME`. -/
theorem update_list_key_renames :
    redisBeginForeignModify fresh_server
        { demo_options with table_type := .PG_REDIS_LIST_TABLE } .CMD_UPDATE [1] [0, 1] true false
      = .began (.ok { demo_fmstate .PG_REDIS_LIST_TABLE none with target_attrs := [1] }) ∧
      redisExecForeignUpdate fresh_server
          { demo_fmstate .PG_REDIS_LIST_TABLE none with target_attrs := [1] }
          (.text "a".data) [.text "b".data, .array [some "x".data]]
        = .ok ⟨false, [⟨"SELECT %d", [.d 0]⟩, ⟨"EXISTS %s", [.s "b".data]⟩,
            ⟨"RENAME %s %s", [.s "a".data, .s "b".data]⟩], false⟩ := by
  constructor <;> rfl

/-- C18 amended: for a singleton list table, whose relation has the target columns
of the plan, `redisBeginForeignModify` refuses every update with the code
`ERRCODE_FEATURE_NOT_SUPPORTED`, before it connects to the store. -/
theorem update_singleton_list_refused (srv : Server) (table_options : redisTableOptions)
    (target_attrs : List Int) (attndims : List Nat) (array_elem_type explain_only : Bool)
    (hsingle : table_options.singleton_key ≠ none)
    (htype : table_options.table_type = .PG_REDIS_LIST_TABLE)
    (hrel : attndims ≠ [])
    (htargets : ∀ a ∈ target_attrs, 1 ≤ a ∧ a ≤ attndims.length) :
    redisBeginForeignModify srv table_options .CMD_UPDATE target_attrs attndims array_elem_type
        explain_only
      = .refused ⟨.ERRCODE_FEATURE_NOT_SUPPORTED,
          "update not supported for this type of table"⟩ := by
  unfold redisBeginForeignModify
  cases attndims with
  | nil => exact absurd rfl hrel
  | cons d ds =>
    have hsome : table_options.singleton_key.isSome = true := by
      cases h : table_options.singleton_key with
      | none => exact absurd h hsingle
      | some _ => rfl
    have hloop := target_attrs_loop_singleton .CMD_UPDATE (d :: ds)
      table_options.singleton_key table_options.table_type hsingle target_attrs 1 htargets
    rw [htype] at hloop
    simp only [true_or, if_true, or_true, reduceCtorEq, or_false, sanity_check, hsome, htype,
      and_self, hloop]

/-- The update of the only column of the singleton list `t` is refused. -/
theorem update_singleton_list_refused_witness :
    redisBeginForeignModify fresh_server
        { demo_options with
          singleton_key := some "t".data, table_type := .PG_REDIS_LIST_TABLE }
        .CMD_UPDATE [1] [0] false false
      = .refused ⟨.ERRCODE_FEATURE_NOT_SUPPORTED,
          "update not supported for this type of table"⟩ :=
  update_singleton_list_refused fresh_server
    { demo_options with singleton_key := some "t".data, table_type := .PG_REDIS_LIST_TABLE }
    [1] [0] false false (by simp) rfl (by simp) (by simp)

/-! ## Commands of an update -/

theorem send_then_ok (srv : Server) (context context' : redisContext) (first : Cmd)
    (message : String) (next : redisContext → Result redisContext)
    (h : send_then srv context first message next = .ok context') :
    accepts srv context.sent first ∧
      next { context with sent := context.sent ++ [first] } = .ok context' := by
  unfold send_then at h
  split at h
  · rename_i c hc
    obtain ⟨h1, h2⟩ := send_checked_ok srv context c first message hc
    subst h1
    exact ⟨h2, h⟩
  · cases h
  · cases h
  · cases h

theorem send_then_accepts (srv : Server) (context : redisContext) (first : Cmd)
    (message : String) (next : redisContext → Result redisContext)
    (h : accepts srv context.sent first) :
    send_then srv context first message next
      = next { context with sent := context.sent ++ [first] } := by
  unfold send_then
  rw [send_checked_accepts srv context first message h]

theorem update_check_new_key_scoped (srv : Server) (fmstate : RedisFdwModifyState)
    (context context' : redisContext) (newkey : Str)
    (hsingle : fmstate.singleton_key = none)
    (h : update_check_new_key srv fmstate context newkey = .ok context') :
    context' = { context with sent := context.sent ++ [⟨"EXISTS %s", [.s newkey]⟩] } ∧
      srv.respond context.sent ⟨"EXISTS %s", [.s newkey]⟩ = some (.integer 0) := by
  unfold update_check_new_key at h
  simp only [hsingle, redisCommand] at h
  cases hr : srv.respond context.sent ⟨"EXISTS %s", [.s newkey]⟩ with
  | none => simp [hr] at h
  | some reply =>
    simp only [hr] at h
    by_cases hty : reply.type = .REDIS_REPLY_ERROR
    · simp [check_reply, hty] at h
    · simp only [check_reply, hty, if_false] at h
      by_cases ha : reply.type = .REDIS_REPLY_INTEGER ∧ reply.integer_ = 0
      · simp only [ha, and_self, decide_True, if_true, Result.ok.injEq] at h
        refine ⟨h.symm, ?_⟩
        cases reply <;> simp_all [redisReply.type, redisReply.integer_]
      · simp [ha] at h

theorem update_check_new_key_scoped_absent (srv : Server) (fmstate : RedisFdwModifyState)
    (context : redisContext) (newkey : Str)
    (hsingle : fmstate.singleton_key = none)
    (hr : srv.respond context.sent ⟨"EXISTS %s", [.s newkey]⟩ = some (.integer 0)) :
    update_check_new_key srv fmstate context newkey
      = .ok { context with sent := context.sent ++ [⟨"EXISTS %s", [.s newkey]⟩] } := by
  unfold update_check_new_key
  simp [hsingle, redisCommand, hr, check_reply, redisReply.type, redisReply.integer_]

theorem update_rename_scoped_sent (srv : Server) (fmstate : RedisFdwModifyState)
    (context context' : redisContext) (old : Str) (values : UpdateValues)
    (hnone : values.newval = none)
    (h : update_rename_scoped srv fmstate context old values = .ok context') :
    context'.sent = context.sent ++ (rename_commands fmstate.keyset old values.newkey).tail := by
  unfold update_rename_scoped at h
  split at h
  · cases h
  · obtain ⟨_, h2⟩ := send_then_ok srv context context' _ _ _ h
    simp only [hnone] at h2
    cases hks : fmstate.keyset with
    | none =>
      simp only [hks, Result.ok.injEq] at h2
      rw [← h2]
      simp [rename_commands]
    | some keyset =>
      simp only [hks] at h2
      obtain ⟨_, h3⟩ := send_then_ok srv _ context' _ _ _ h2
      obtain ⟨h4, _⟩ := send_checked_ok srv _ context' _ _ h3
      rw [h4]
      simp [rename_commands]

theorem update_rename_scoped_accepting (srv : Server) (fmstate : RedisFdwModifyState)
    (context : redisContext) (old : Str) (values : UpdateValues)
    (hnone : values.newval = none) (hsrv : accepting srv)
    (hpre : ∀ keyprefix, fmstate.keyprefix = some keyprefix → keyprefix <+: values.newkey) :
    update_rename_scoped srv fmstate context old values
      = .ok { context with
          sent := context.sent ++ (rename_commands fmstate.keyset old values.newkey).tail } := by
  have hrest : send_then srv context ⟨"RENAME %s %s", [.s old, .s values.newkey]⟩
      "failure renaming key %s" (fun context =>
        match ((match values.newval with
          | some newval =>
            if fmstate.table_type = .PG_REDIS_SCALAR_TABLE then
              send_checked srv context ⟨"SET %s %s", [.s values.newkey, .s newval]⟩
                "upating key %s"
            else .ok context
          | none => .ok context) : Result redisContext) with
        | .ok context =>
          match fmstate.keyset with
          | some keyset =>
            send_then srv context ⟨"SREM %s %s", [.s keyset, .s old]⟩
              "deleting keyset element %s" fun context =>
            send_checked srv context ⟨"SADD %s %s", [.s keyset, .s values.newkey]⟩
              "adding keyset element %s"
          | none => .ok context
        | .error e context => .error e context
        | .crash context => .crash context
        | .out_of_fuel => .out_of_fuel)
      = .ok { context with
          sent := context.sent ++ (rename_commands fmstate.keyset old values.newkey).tail } := by
    rw [send_then_accepts srv _ _ _ _ (hsrv _ _)]
    simp only [hnone]
    cases hks : fmstate.keyset with
    | none => simp [rename_commands]
    | some keyset =>
      simp only
      rw [send_then_accepts srv _ _ _ _ (hsrv _ _), send_checked_accepts srv _ _ _ (hsrv _ _)]
      simp [rename_commands]
  unfold update_rename_scoped
  cases hkp : fmstate.keyprefix with
  | none =>
    simp only [Bool.false_eq_true, if_false]
    exact hrest
  | some p =>
    have hpk : p.isPrefixOf values.newkey = true := by
      have := hpre p hkp
      simpa using this
    simp only [hpk, Bool.not_true, Bool.false_eq_true, if_false]
    exact hrest

theorem update_values_array (fmstate : RedisFdwModifyState) (slot : List Datum)
    (old new : Str) (a : List Str)
    (hsingle : fmstate.singleton_key = none)
    (htype : fmstate.table_type ≠ .PG_REDIS_SCALAR_TABLE)
    (hkey : slot_getattr slot 1 = .text new)
    (hval : slot_getattr slot 2 = .array (a.map some))
    (hne : a ≠ [])
    (heven : fmstate.table_type = .PG_REDIS_HASH_TABLE → a.length % 2 = 0)
    (htargets : (fmstate.target_attrs = [2] ∧ new = old) ∨ fmstate.target_attrs = [1, 2]) :
    update_values_loop fmstate slot fmstate.target_attrs ⟨old, none, none⟩
      = .ok ⟨new, none, some a⟩ := by
  have hlen : a.length ≠ 0 := fun h => hne (List.length_eq_zero.1 h)
  have hodd : ¬ (fmstate.table_type = .PG_REDIS_HASH_TABLE ∧ a.length % 2 ≠ 0) := by
    rintro ⟨h1, h2⟩
    exact h2 (heven h1)
  have h21 : ¬ ((2 : Int) = 1) := by decide
  rcases htargets with ⟨ht, hn⟩ | ht
  · subst hn
    rw [ht]
    simp only [update_values_loop, hval, reduceCtorEq, if_false, h21, hsingle,
      Option.isSome_none, Bool.false_eq_true, htype, or_self, List.length_map, hlen, hodd,
      non_null_elements_map_some]
  · rw [ht]
    simp only [update_values_loop, hkey, hval, reduceCtorEq, if_false, if_true, h21, hsingle,
      Option.isSome_none, Bool.false_eq_true, htype, or_self, List.length_map, hlen, hodd,
      non_null_elements_map_some, OutputFunctionCall]

theorem update_array_sent (srv : Server) (fmstate : RedisFdwModifyState)
    (context context' : redisContext) (k : Str) (a : List Str)
    (htype : fmstate.table_type ≠ .PG_REDIS_SCALAR_TABLE)
    (heven : fmstate.table_type = .PG_REDIS_HASH_TABLE → a.length % 2 = 0)
    (h : update_array srv fmstate context k a = .ok context') :
    context'.sent = context.sent ++
      ⟨"DEL %s ", [.s k]⟩ :: write_commands fmstate.table_type k a := by
  obtain ⟨message, hu⟩ := update_array_eq srv fmstate context k a htype heven
  rw [hu] at h
  obtain ⟨_, h2⟩ := send_then_ok srv context context' _ _ _ h
  rw [send_all_ok srv message _ _ _ h2]
  simp

theorem update_array_accepting (srv : Server) (fmstate : RedisFdwModifyState)
    (context : redisContext) (k : Str) (a : List Str)
    (htype : fmstate.table_type ≠ .PG_REDIS_SCALAR_TABLE)
    (heven : fmstate.table_type = .PG_REDIS_HASH_TABLE → a.length % 2 = 0)
    (hsrv : accepting srv) :
    ∃ context', update_array srv fmstate context k a = .ok context' := by
  obtain ⟨message, hu⟩ := update_array_eq srv fmstate context k a htype heven
  rw [hu, send_then_accepts srv _ _ _ _ (hsrv _ _), send_all_accepting srv message hsrv]
  exact ⟨_, rfl⟩

/-- C20: on a table that is not a singleton and not scalar, for the key `new` and a
valid array `a` (not empty, no null element, even in number for a hash), every update
of the value column that succeeds has sent, after the commands that rename the key when
the key changes too, the deletion `DEL new` followed by exactly the value writes
`write_commands` that every insert of `new` and `a` that succeeds sends between its
existence check and its key set registration; and the update does succeed when the
store accepts the commands. -/
theorem update_array_commands (srv : Server) (fmstate : RedisFdwModifyState)
    (context : redisContext) (slot : List Datum) (old new : Str) (a : List Str)
    (hctx : fmstate.context = some context)
    (hsingle : fmstate.singleton_key = none)
    (htype : fmstate.table_type ≠ .PG_REDIS_SCALAR_TABLE)
    (hkey : slot_getattr slot 1 = .text new)
    (hval : slot_getattr slot 2 = .array (a.map some))
    (hne : a ≠ [])
    (heven : fmstate.table_type = .PG_REDIS_HASH_TABLE → a.length % 2 = 0)
    (htargets : (fmstate.target_attrs = [2] ∧ new = old) ∨ fmstate.target_attrs = [1, 2]) :
    (∀ cu, redisExecForeignUpdate srv fmstate (.text old) slot = .ok cu →
        cu.sent = context.sent ++
          (if old = new then [] else rename_commands fmstate.keyset old new) ++
          ⟨"DEL %s ", [.s new]⟩ :: write_commands fmstate.table_type new a) ∧
      (∀ ci, redisExecForeignInsert srv fmstate slot = .ok ci →
        ci.sent = context.sent ++ ⟨"EXISTS %s", [.s new]⟩ ::
          (write_commands fmstate.table_type new a ++ keyset_commands fmstate.keyset new)) ∧
      (accepting srv →
        (∀ keyprefix, fmstate.keyprefix = some keyprefix → keyprefix <+: new) →
        (old ≠ new → srv.respond context.sent ⟨"EXISTS %s", [.s new]⟩ = some (.integer 0)) →
        ∃ cu, redisExecForeignUpdate srv fmstate (.text old) slot = .ok cu) := by
  have hvalues := update_values_array fmstate slot old new a hsingle htype hkey hval hne heven
    htargets
  refine ⟨?_, ?_, ?_⟩
  · intro cu h
    unfold redisExecForeignUpdate at h
    simp only [hctx, OutputFunctionCall, hvalues, hsingle] at h
    by_cases hon : old = new
    · subst hon
      simp only [ne_eq, not_true_eq_false, if_false] at h
      rw [update_array_sent srv fmstate context cu old a htype heven h]
      simp
    · simp only [ne_eq, hon, not_false_eq_true, if_true] at h
      cases hck : update_check_new_key srv fmstate context new with
      | ok c =>
        simp only [hck] at h
        obtain ⟨hc, _⟩ := update_check_new_key_scoped srv fmstate context c new hsingle hck
        cases hrn : update_rename_scoped srv fmstate c old ⟨new, none, some a⟩ with
        | ok c2 =>
          simp only [hrn] at h
          have h2 := update_rename_scoped_sent srv fmstate c c2 old ⟨new, none, some a⟩ rfl hrn
          rw [update_array_sent srv fmstate c2 cu new a htype heven h, h2, hc, if_neg hon]
          simp [rename_commands]
        | error e c2 => simp [hrn] at h
        | crash c2 => simp [hrn] at h
        | out_of_fuel => simp [hrn] at h
      | error e c => simp [hck] at h
      | crash c => simp [hck] at h
      | out_of_fuel => simp [hck] at h
  · rw [insert_eq_scoped srv fmstate context slot new hctx hsingle hkey]
    exact insert_scoped_sent srv fmstate context slot new a htype hval
  · intro hsrv hpre hexists
    unfold redisExecForeignUpdate
    simp only [hctx, OutputFunctionCall, hvalues, hsingle]
    by_cases hon : old = new
    · subst hon
      simp only [ne_eq, not_true_eq_false, if_false]
      exact update_array_accepting srv fmstate context old a htype heven hsrv
    · simp only [ne_eq, hon, not_false_eq_true, if_true]
      rw [update_check_new_key_scoped_absent srv fmstate context new hsingle (hexists hon)]
      simp only
      rw [update_rename_scoped_accepting srv fmstate _ old ⟨new, none, some a⟩ rfl hsrv hpre]
      exact update_array_accepting srv fmstate _ new a htype heven hsrv

/-- The sorted set `k` of a table with the key set `ks` rewritten with two members. -/
theorem update_array_commands_witness :
    redisExecForeignUpdate fresh_server
        { demo_fmstate .PG_REDIS_ZSET_TABLE (some "ks".data) with target_attrs := [2] }
        (.text "k".data) [.text "k".data, .array [some "a".data, some "b".data]]
      = .ok ⟨false, [⟨"SELECT %d", [.d 0]⟩, ⟨"DEL %s ", [.s "k".data]⟩,
          ⟨"ZADD %s %s %s", [.s "k".data, .s "0".data, .s "a".data]⟩,
          ⟨"ZADD %s %s %s", [.s "k".data, .s "1".data, .s "b".data]⟩], false⟩ ∧
      redisExecForeignInsert fresh_server
        { demo_fmstate .PG_REDIS_ZSET_TABLE (some "ks".data) with target_attrs := [2] }
        [.text "k".data, .array [some "a".data, some "b".data]]
      = .ok ⟨false, [⟨"SELECT %d", [.d 0]⟩, ⟨"EXISTS %s", [.s "k".data]⟩,
          ⟨"ZADD %s %s %s", [.s "k".data, .s "0".data, .s "a".data]⟩,
          ⟨"ZADD %s %s %s", [.s "k".data, .s "1".data, .s "b".data]⟩,
          ⟨"SADD %s %s", [.s "ks".data, .s "k".data]⟩], false⟩ ∧
      ∀ cu, redisExecForeignUpdate fresh_server
          { demo_fmstate .PG_REDIS_ZSET_TABLE (some "ks".data) with target_attrs := [2] }
          (.text "k".data) [.text "k".data, .array [some "a".data, some "b".data]] = .ok cu →
        cu.sent = demo_context.sent ++
          (if "k".data = "k".data then []
            else rename_commands (some "ks".data) "k".data "k".data) ++
          ⟨"DEL %s ", [.s "k".data]⟩ ::
            write_commands .PG_REDIS_ZSET_TABLE "k".data ["a".data, "b".data] :=
  ⟨rfl, rfl, (update_array_commands fresh_server
    { demo_fmstate .PG_REDIS_ZSET_TABLE (some "ks".data) with target_attrs := [2] }
    demo_context [.text "k".data, .array [some "a".data, some "b".data]] "k".data "k".data
    ["a".data, "b".data] rfl rfl (by decide) rfl rfl (by simp) (by decide)
    (Or.inl ⟨rfl, rfl⟩)).1⟩

/-! ## The value reply of a qualifier's key -/

theorem escaped_length (s : Str) :
    (escaped s).length = s.length + s.countP (fun c => c = '"' ∨ c = '\\') := by
  induction s with
  | nil => rfl
  | cons c rest ih =>
    by_cases hc : c = '"' ∨ c = '\\'
    · simp only [escaped, hc, if_true, List.length_cons, ih, List.countP_cons, decide_True]
      omega
    · simp only [escaped, hc, if_false, List.length_cons, ih, List.countP_cons, decide_False]
      simp
      omega

theorem quote_buffer_length (str : Str) :
    (quote_buffer str).length = str.length + str.countP (fun c => c = '"' ∨ c = '\\') + 3 := by
  simp only [quote_buffer, escape_loop_eq, List.length_append, List.length_cons,
    List.length_nil, escaped_length]
  omega

/-- C30: for a string element of length `n` (with `2n + 3` representable in `size_t`),
the bytes written to the escape buffer, both quotes and the terminating NUL included,
fit the `2n + 3` bytes allocated; the rendering without the NUL has at most `2n + 2`
bytes, and exactly `2n + 2` if and only if every character is a double quote or a
backslash. -/
theorem escape_buffer_fits (str : Str) (hsize : str.length * 2 + 3 < 2 ^ 64) :
    (quote_buffer str).length ≤ buff_size str.length ∧
      (quote_buffer str).length - 1 ≤ 2 * str.length + 2 ∧
      ((quote_buffer str).length - 1 = 2 * str.length + 2 ↔
        ∀ c ∈ str, c = '"' ∨ c = '\\') := by
  have hlen := quote_buffer_length str
  have hle : str.countP (fun c => c = '"' ∨ c = '\\') ≤ str.length := List.countP_le_length _
  have hbuf : buff_size str.length = str.length * 2 + 3 := by
    unfold buff_size
    exact Nat.mod_eq_of_lt hsize
  refine ⟨by omega, by omega, ?_⟩
  have hall : str.countP (fun c => c = '"' ∨ c = '\\') = str.length ↔
      ∀ c ∈ str, c = '"' ∨ c = '\\' := by
    rw [List.countP_eq_length]
    simp
  rw [← hall]
  omega

/-- The element `a"\` takes 7 of the 9 bytes allocated; the element `"\` takes all 7. -/
theorem escape_buffer_fits_witness :
    "a\"\\".data.length * 2 + 3 < 2 ^ 64 ∧
      quote_buffer "a\"\\".data = "\"a\\\"\\\\\"".data ++ [NUL] ∧
      quote_buffer "\"\\".data = "\"\\\"\\\\\"".data ++ [NUL] ∧
      ((quote_buffer "\"\\".data).length ≤ buff_size "\"\\".data.length ∧
        (quote_buffer "\"\\".data).length - 1 ≤ 2 * "\"\\".data.length + 2 ∧
        ((quote_buffer "\"\\".data).length - 1 = 2 * "\"\\".data.length + 2 ↔
          ∀ c ∈ "\"\\".data, c = '"' ∨ c = '\\')) :=
  ⟨by decide, by decide, by decide, escape_buffer_fits "\"\\".data (by decide)⟩

/-! ## Error codes of the refusals -/

/-- C25, as stated, fails: on a store that answers `AUTH` with an error reply,
`redisBeginForeignScan` and `redisBeginForeignModify` do not abort: both go on to
send `SELECT` on the connection, and the scan lists the keys. -/
theorem auth_error_reply_ignored :
    (∃ reply, open_server.respond [] ⟨"AUTH %s", [.s "pw".data]⟩ = some reply ∧
        reply.type = .REDIS_REPLY_ERROR) ∧
      (∃ festate, redisBeginForeignScan open_server demo_password_options []
          ["key".data, "value".data] false = .ok festate ∧
        festate.context = ⟨false, [⟨"AUTH %s", [.s "pw".data]⟩, ⟨"SELECT %d", [.d 0]⟩,
          ⟨SCAN_FMT, [.s "0".data]⟩], false⟩) ∧
      ∃ fmstate, redisBeginForeignModify open_server demo_password_options .CMD_INSERT [1, 2]
          [0, 0] false false = .began (.ok fmstate) ∧
        fmstate.context = some ⟨false, [⟨"AUTH %s", [.s "pw".data]⟩,
          ⟨"SELECT %d", [.d 0]⟩], false⟩ :=
  ⟨⟨_, rfl, rfl⟩, ⟨_, rfl, rfl⟩, ⟨_, rfl, rfl⟩⟩

/-- C25 amended: with a password configured, the connection setup of
`redisBeginForeignScan` (`connect_and_select`) and of `redisBeginForeignModify`
(`connect_modify`) aborts at the authentication only when `AUTH` gets no reply: the
connection is freed and the error `ERRCODE_FDW_UNABLE_TO_ESTABLISH_CONNECTION` raised
with `AUTH` the only command sent.  Any reply to `AUTH`, an error reply included, is
not inspected: `SELECT` is sent next on the connection, and the setup succeeds when
`SELECT` is accepted and aborts with that code when `SELECT` is rejected. -/
theorem auth_reply_unchecked (srv : Server) (table_options : redisTableOptions) (pw : Str)
    (hconn : srv.connect_err = false) (hpw : table_options.password = some pw) :
    (srv.respond [] ⟨"AUTH %s", [.s pw]⟩ = none →
        connect_and_select srv table_options
          = .error ⟨.ERRCODE_FDW_UNABLE_TO_ESTABLISH_CONNECTION,
              "failed to authenticate to redis: %s"⟩ ⟨false, [⟨"AUTH %s", [.s pw]⟩], true⟩ ∧
        connect_modify srv table_options
          = .error ⟨.ERRCODE_FDW_UNABLE_TO_ESTABLISH_CONNECTION,
              "failed to authenticate to redis: %s"⟩ ⟨false, [⟨"AUTH %s", [.s pw]⟩], true⟩) ∧
      ∀ auth select, srv.respond [] ⟨"AUTH %s", [.s pw]⟩ = some auth →
        srv.respond [⟨"AUTH %s", [.s pw]⟩] ⟨"SELECT %d", [.d table_options.database]⟩
          = some select →
        (select.type ≠ .REDIS_REPLY_ERROR →
          connect_and_select srv table_options
            = .ok ⟨false, [⟨"AUTH %s", [.s pw]⟩,
                ⟨"SELECT %d", [.d table_options.database]⟩], false⟩ ∧
          connect_modify srv table_options
            = .ok ⟨false, [⟨"AUTH %s", [.s pw]⟩,
                ⟨"SELECT %d", [.d table_options.database]⟩], false⟩) ∧
        (select.type = .REDIS_REPLY_ERROR →
          connect_and_select srv table_options
            = .error ⟨.ERRCODE_FDW_UNABLE_TO_ESTABLISH_CONNECTION,
                "failed to select database %d: %s"⟩
              ⟨false, [⟨"AUTH %s", [.s pw]⟩,
                ⟨"SELECT %d", [.d table_options.database]⟩], false⟩ ∧
          connect_modify srv table_options
            = .error ⟨.ERRCODE_FDW_UNABLE_TO_ESTABLISH_CONNECTION,
                "failed to select database: %s"⟩
              ⟨false, [⟨"AUTH %s", [.s pw]⟩,
                ⟨"SELECT %d", [.d table_options.database]⟩], false⟩) := by
  constructor
  · intro hnone
    constructor
    · simp [connect_and_select, hconn, hpw, redisCommand, hnone, redisFree]
    · simp [connect_modify, hconn, hpw, redisCommand, hnone, redisFree]
  · intro auth select hauth hselect
    constructor
    · intro hok
      constructor
      · simp [connect_and_select, hconn, hpw, redisCommand, hauth, select_database, hselect, hok]
      · simp [connect_modify, hconn, hpw, redisCommand, hauth, hselect, check_reply, hok]
    · intro herr
      constructor
      · simp [connect_and_select, hconn, hpw, redisCommand, hauth, select_database, hselect,
          herr]
      · simp [connect_modify, hconn, hpw, redisCommand, hauth, hselect, check_reply, herr]

/-- On the store without a password the setup goes through after the rejected `AUTH`. -/
theorem auth_reply_unchecked_witness :
    connect_and_select open_server demo_password_options
        = .ok ⟨false, [⟨"AUTH %s", [.s "pw".data]⟩, ⟨"SELECT %d", [.d 0]⟩], false⟩ ∧
      connect_modify open_server demo_password_options
        = .ok ⟨false, [⟨"AUTH %s", [.s "pw".data]⟩, ⟨"SELECT %d", [.d 0]⟩], false⟩ :=
  ((auth_reply_unchecked open_server demo_password_options "pw".data rfl rfl).2
    (.error "ERR Client sent AUTH, but no password is set".data) (.status "OK".data)
    rfl rfl).1 (by decide)

/-! ## Delete on a singleton list -/

/-- C22: for a singleton list table `redisBeginForeignModify` refuses every delete
with the code `ERRCODE_FEATURE_NOT_SUPPORTED`, whatever the store: the refusal comes
from the checks made before the connection is opened, so no command is sent; and
`redisExecForeignDelete` itself, on the state of such a table, raises the same error
without sending a command. -/
theorem delete_singleton_list_refused (srv : Server) (table_options : redisTableOptions)
    (target_attrs : List Int) (attndims : List Nat) (array_elem_type explain_only : Bool)
    (hsingle : table_options.singleton_key ≠ none)
    (htype : table_options.table_type = .PG_REDIS_LIST_TABLE)
    (hrel : attndims ≠ []) :
    redisBeginForeignModify srv table_options .CMD_DELETE target_attrs attndims array_elem_type
          explain_only
        = .refused ⟨.ERRCODE_FEATURE_NOT_SUPPORTED,
            "delete not supported for this type of table"⟩ ∧
      ∀ (fmstate : RedisFdwModifyState) (context : redisContext) (keyval : Str),
        fmstate.context = some context →
        fmstate.singleton_key = table_options.singleton_key →
        fmstate.table_type = table_options.table_type →
        redisExecForeignDelete srv fmstate (.text keyval)
          = .error ⟨.ERRCODE_FEATURE_NOT_SUPPORTED,
              "delete not supported for this type of table"⟩ context := by
  have hsome : table_options.singleton_key.isSome = true := by
    cases h : table_options.singleton_key with
    | none => exact absurd h hsingle
    | some _ => rfl
  constructor
  · unfold redisBeginForeignModify
    cases attndims with
    | nil => exact absurd rfl hrel
    | cons d ds =>
      simp [sanity_check, hsome, htype]
  · intro fmstate context keyval hctx hs ht
    obtain ⟨sk, hsk⟩ := Option.isSome_iff_exists.1 hsome
    simp [redisExecForeignDelete, hctx, OutputFunctionCall, delete_request, hs, hsk, ht, htype]

/-- The delete on the singleton list `t` is refused. -/
theorem delete_singleton_list_refused_witness :
    redisBeginForeignModify fresh_server
          { demo_options with
            singleton_key := some "t".data, table_type := .PG_REDIS_LIST_TABLE }
          .CMD_DELETE [] [0] false false
        = .refused ⟨.ERRCODE_FEATURE_NOT_SUPPORTED,
            "delete not supported for this type of table"⟩ ∧
      ∀ (fmstate : RedisFdwModifyState) (context : redisContext) (keyval : Str),
        fmstate.context = some context →
        fmstate.singleton_key = some "t".data →
        fmstate.table_type = .PG_REDIS_LIST_TABLE →
        redisExecForeignDelete fresh_server fmstate (.text keyval)
          = .error ⟨.ERRCODE_FEATURE_NOT_SUPPORTED,
              "delete not supported for this type of table"⟩ context :=
  delete_singleton_list_refused fresh_server
    { demo_options with singleton_key := some "t".data, table_type := .PG_REDIS_LIST_TABLE }
    [] [0] false false (by simp) rfl (by simp)

/-! ## Re-scan -/

/-- C24 fails on the code: on a store that lists its keys on two pages, once the scan
has returned the rows `(a, 1)` and `(b, 2)`, `redisReScanForeignScan` sends no command
and sets the row to 0 on the page the scan holds, which is the second page: the next
row returned is `(b, 2)`, not the row `(a, 1)` of the first page, and the call after
it returns an empty slot. -/
theorem rescan_stays_on_last_page :
    redisBeginForeignScan paged_server demo_options [] ["key".data, "value".data] false
        = .ok paged_state ∧
      paged_state.reply = some (.array [.string "a".data]) ∧
      iterate_times paged_server (fun _ => true) 1 2 paged_state
        = .ok ([some ("a".data, "1".data), some ("b".data, "2".data)], paged_state_end) ∧
      redisReScanForeignScan paged_state_end = { paged_state_end with row := 0 } ∧
      (redisReScanForeignScan paged_state_end).reply = some (.array [.string "b".data]) ∧
      iterate_times paged_server (fun _ => true) 1 2 (redisReScanForeignScan paged_state_end)
        = .ok ([some ("b".data, "2".data), none],
            { paged_state_end with
              context := { paged_state_end.context with
                sent := paged_state_end.context.sent ++ [⟨"GET %s", [.s "b".data]⟩] } }) := by
  refine ⟨rfl, rfl, ?_, rfl, rfl, ?_⟩
  · rfl
  · rfl

/-! ## The connection on the error paths of the scan setup -/

/-- C29 fails on the code: when the store rejects the database selection, the key
set membership check or the key listing with an error reply, or answers the listing
with a cursor token that is not a string, `redisBeginForeignScan` raises its error
with the connection still open (`redisFree` has not been called); the connection is
freed only on the paths where a command gets no reply. -/
theorem begin_scan_error_leaves_connection_open :
    redisBeginForeignScan (reply_server (.error "ERR DB index is out of range".data) OK)
        demo_options [] ["key".data, "value".data] false
      = .error ⟨.ERRCODE_FDW_UNABLE_TO_ESTABLISH_CONNECTION, "failed to select database %d: %s"⟩
          ⟨false, [⟨"SELECT %d", [.d 0]⟩], false⟩ ∧
    redisBeginForeignScan (reply_server OK WRONGTYPE) demo_keyset_options
        [.OpExpr 67 [.Var 1, .Const "k".data]] ["key".data, "value".data] false
      = .error ⟨.ERRCODE_FDW_UNABLE_TO_ESTABLISH_CONNECTION, "failed to list keys: %s"⟩
          ⟨false, [⟨"SELECT %d", [.d 0]⟩,
            ⟨"SISMEMBER %s %s", [.s "ks".data, .s "k".data]⟩], false⟩ ∧
    redisBeginForeignScan (reply_server OK WRONGTYPE) demo_options []
        ["key".data, "value".data] false
      = .error ⟨.ERRCODE_FDW_UNABLE_TO_ESTABLISH_CONNECTION, "failed somehow: %s"⟩
          ⟨false, [⟨"SELECT %d", [.d 0]⟩, ⟨SCAN_FMT, [.s "0".data]⟩], false⟩ ∧
    redisBeginForeignScan (reply_server OK (.array [.integer 0, .array []])) demo_options []
        ["key".data, "value".data] false
      = .error ⟨.ERRCODE_FDW_UNABLE_TO_ESTABLISH_CONNECTION, "wrong reply type %d"⟩
          ⟨false, [⟨"SELECT %d", [.d 0]⟩, ⟨SCAN_FMT, [.s "0".data]⟩], false⟩ := by
  refine ⟨rfl, rfl, rfl, rfl⟩

/-! ## Validation of the key-organization options -/

/-- C28 fails on the code: `redis_fdw_validator` accepts a table option list that
names `singleton_key` together with `tablekeyset`, or together with `tablekeyprefix`,
in either order, because the branch that would record the singleton key compares the
option name with `"singleton_key "`; only `tablekeyset` together with
`tablekeyprefix` is rejected. -/
theorem validator_accepts_singleton_with_scope :
    redis_fdw_validator (fun _ => 0)
        [("singleton_key".data, "s".data), ("tablekeyset".data, "ks".data)]
        .ForeignTableRelationId = .ok () ∧
      redis_fdw_validator (fun _ => 0)
        [("tablekeyset".data, "ks".data), ("singleton_key".data, "s".data)]
        .ForeignTableRelationId = .ok () ∧
      redis_fdw_validator (fun _ => 0)
        [("singleton_key".data, "s".data), ("tablekeyprefix".data, "p:".data)]
        .ForeignTableRelationId = .ok () ∧
      redis_fdw_validator (fun _ => 0)
        [("tablekeyprefix".data, "p:".data), ("singleton_key".data, "s".data)]
        .ForeignTableRelationId = .ok () ∧
      redis_fdw_validator (fun _ => 0)
        [("singleton_key ".data, "s".data)] .ForeignTableRelationId
        = .error ⟨.ERRCODE_FDW_INVALID_OPTION_NAME, "invalid option \"%s\""⟩ ∧
      redis_fdw_validator (fun _ => 0)
        [("tablekeyset".data, "ks".data), ("tablekeyprefix".data, "p:".data)]
        .ForeignTableRelationId
        = .error ⟨.ERRCODE_SYNTAX_ERROR,
            "conflicting options: tablekeyset(%s) and tablekeyprefix (%s)"⟩ ∧
      redis_fdw_validator (fun _ => 0)
        [("tablekeyprefix".data, "p:".data), ("tablekeyset".data, "ks".data)]
        .ForeignTableRelationId
        = .error ⟨.ERRCODE_SYNTAX_ERROR,
            "conflicting options: tablekeyprefix (%s) and tablekeyset (%s)"⟩ := by
  refine ⟨?_, ?_, ?_, ?_, ?_, ?_, ?_⟩ <;> decide

/-! ## The scan of a singleton table -/

/-- C27 fails on the code: in the scan of a singleton hash whose reply holds the
field `field` with the integer 42, the digits `42` are written into the buffer of the
key, so the key column reads `42` instead of `field`, and the value column is the
buffer just allocated, with whatever content `garbage` the allocator left; when the
key is shorter than the digits the write runs past its buffer. -/
theorem singleton_integer_value_overwrites_key :
    (∀ garbage, redisIterateForeignScanSingleton garbage
        (demo_hash_state (.array [.string "field".data, .integer 42]) none)
      = .ok (some (some ['4', '2', NUL, 'l', 'd'], some garbage),
          { demo_hash_state
              (.array [.string ['4', '2', NUL, 'l', 'd'], .integer 42]) none with
            row := 2 })) ∧
      cstr ['4', '2', NUL, 'l', 'd'] = "42".data ∧
      ∀ garbage, redisIterateForeignScanSingleton garbage
          (demo_hash_state (.array [.string "f".data, .integer 42]) none)
        = .crash ⟨false, [⟨"SELECT %d", [.d 0]⟩], false⟩ := by
  refine ⟨fun _ => rfl, by decide, fun _ => rfl⟩

theorem store_get_del (st : Store) (k k' : Str) :
    store_get (store_del st k) k' = if k = k' then none else store_get st k' := by
  induction st with
  | nil => simp [store_del, store_get]
  | cons kv rest ih =>
    obtain ⟨a, v⟩ := kv
    unfold store_del at ih ⊢
    by_cases hak : a = k
    · subst hak
      simp only [List.filter_cons, ne_eq, not_true_eq_false, decide_False, Bool.false_eq_true,
        if_false, ih, store_get]
      by_cases h : a = k'
      · simp [h]
      · simp [h]
    · simp only [List.filter_cons, ne_eq, hak, not_false_eq_true, decide_True, if_true,
        store_get, ih]
      by_cases h : k = k'
      · subst h
        simp [hak]
      · simp [h]

theorem store_get_put (st : Store) (k k' : Str) (v : Value) :
    store_get (store_put st k v) k' = if k = k' then some v else store_get st k' := by
  unfold store_put
  simp only [store_get, store_get_del]
  by_cases h : k = k' <;> simp [h]

theorem store_run_append (st : Store) (a b : List Cmd) :
    store_run st (a ++ b) = store_run (store_run st a) b := by
  simp [store_run, List.foldl_append]

theorem store_run_cons (st : Store) (cmd : Cmd) (rest : List Cmd) :
    store_run st (cmd :: rest) = store_run (store_exec cmd st).2 rest := rfl

theorem store_run_snoc (st : Store) (sent : List Cmd) (cmd : Cmd) :
    store_run st (sent ++ [cmd]) = (store_exec cmd (store_run st sent)).2 := by
  rw [store_run_append]
  rfl

theorem store_accepts (st : Store) (sent : List Cmd) (cmd : Cmd) :
    accepts (store_server st) sent cmd ↔
      (store_exec cmd (store_run st sent)).1.type ≠ .REDIS_REPLY_ERROR := by
  simp [accepts, store_server]

theorem store_exec_s1 (fmt : String) (a : Str) (st : Store) (ha : NUL ∉ a) :
    store_exec ⟨fmt, [.s a]⟩ st = store_exec_one fmt a st := by
  simp [store_exec, arg_text, cstr_of_no_NUL a ha]

theorem store_exec_s2 (fmt : String) (a b : Str) (st : Store) (ha : NUL ∉ a) (hb : NUL ∉ b) :
    store_exec ⟨fmt, [.s a, .s b]⟩ st = store_exec_two fmt a b st := by
  simp [store_exec, arg_text, cstr_of_no_NUL a ha, cstr_of_no_NUL b hb]

theorem store_exec_s3 (fmt : String) (a b c : Str) (st : Store) (ha : NUL ∉ a) (hb : NUL ∉ b)
    (hc : NUL ∉ c) :
    store_exec ⟨fmt, [.s a, .s b, .s c]⟩ st = store_exec_three fmt a b c st := by
  simp [store_exec, arg_text, cstr_of_no_NUL a ha, cstr_of_no_NUL b hb, cstr_of_no_NUL c hc]

theorem send_checked_store (st : Store) (context : redisContext) (cmd : Cmd)
    (message : String) :
    send_checked (store_server st) context cmd message =
      if (store_exec cmd (store_run st context.sent)).1.type = .REDIS_REPLY_ERROR then
        .error ⟨.ERRCODE_FDW_UNABLE_TO_CREATE_EXECUTION, message ++ ": %s"⟩
          { context with sent := context.sent ++ [cmd] }
      else .ok { context with sent := context.sent ++ [cmd] } := by
  simp [send_checked, redisCommand, store_server, check_reply]

theorem srem_effect (s : Store) (a b : Str)
    (hok : (store_exec_two "SREM %s %s" a b s).1.type ≠ .REDIS_REPLY_ERROR) :
    (∀ k, k ≠ a → store_get (store_exec_two "SREM %s %s" a b s).2 k = store_get s k) ∧
      (store_get (store_exec_two "SREM %s %s" a b s).2 a = none ∨
        ∃ m, store_get (store_exec_two "SREM %s %s" a b s).2 a = some (.set m) ∧ b ∉ m) := by
  have hfmt : store_exec_two "SREM %s %s" a b s =
      match store_get s a with
      | none => (.integer 0, s)
      | some (.set members) =>
        if b ∈ members then
          (.integer 1,
            if members.filter (fun m => m ≠ b) = [] then store_del s a
            else store_put s a (.set (members.filter (fun m => m ≠ b))))
        else (.integer 0, s)
      | some _ => (WRONGTYPE, s) := by
    rfl
  rw [hfmt] at hok ⊢
  cases hg : store_get s a with
  | none => simp [hg]
  | some v =>
    cases v with
    | set members =>
      by_cases hb : b ∈ members
      · by_cases he : members.filter (fun m => m ≠ b) = []
        · have hres : (match some (Value.set members) with
              | none => ((redisReply.integer 0, s) : redisReply × Store)
              | some (.set members) =>
                if b ∈ members then
                  (.integer 1,
                    if members.filter (fun m => m ≠ b) = [] then store_del s a
                    else store_put s a (.set (members.filter (fun m => m ≠ b))))
                else (.integer 0, s)
              | some _ => (WRONGTYPE, s)) = (.integer 1, store_del s a) := by
            simp only [hb, if_true, he]
          rw [hres]
          simp only [store_get_del]
          exact ⟨fun k hk => by simp [Ne.symm hk], Or.inl (by simp)⟩
        · have hres : (match some (Value.set members) with
              | none => ((redisReply.integer 0, s) : redisReply × Store)
              | some (.set members) =>
                if b ∈ members then
                  (.integer 1,
                    if members.filter (fun m => m ≠ b) = [] then store_del s a
                    else store_put s a (.set (members.filter (fun m => m ≠ b))))
                else (.integer 0, s)
              | some _ => (WRONGTYPE, s))
              = (.integer 1, store_put s a (.set (members.filter (fun m => m ≠ b)))) := by
            simp only [hb, if_true, he, if_false]
          rw [hres]
          simp only [store_get_put]
          refine ⟨fun k hk => by simp [Ne.symm hk],
            Or.inr ⟨members.filter (fun m => m ≠ b), by simp, by simp [List.mem_filter]⟩⟩
      · have hres : (match some (Value.set members) with
            | none => ((redisReply.integer 0, s) : redisReply × Store)
            | some (.set members) =>
              if b ∈ members then
                (.integer 1,
                  if members.filter (fun m => m ≠ b) = [] then store_del s a
                  else store_put s a (.set (members.filter (fun m => m ≠ b))))
              else (.integer 0, s)
            | some _ => (WRONGTYPE, s)) = (.integer 0, s) := by
          simp only [hb, if_false]
        rw [hres]
        exact ⟨fun _ _ => rfl, Or.inr ⟨members, hg, hb⟩⟩
    | string _ => simp [hg, WRONGTYPE, redisReply.type] at hok
    | list _ => simp [hg, WRONGTYPE, redisReply.type] at hok
    | hash _ => simp [hg, WRONGTYPE, redisReply.type] at hok
    | zset _ => simp [hg, WRONGTYPE, redisReply.type] at hok

theorem sadd_effect (s : Store) (a b : Str)
    (hok : (store_exec_two "SADD %s %s" a b s).1.type ≠ .REDIS_REPLY_ERROR) :
    (∀ k, k ≠ a → store_get (store_exec_two "SADD %s %s" a b s).2 k = store_get s k) ∧
      ∃ m', store_get (store_exec_two "SADD %s %s" a b s).2 a = some (.set m') ∧ b ∈ m' ∧
        ∀ x, x ∈ m' → x = b ∨ ∃ m, store_get s a = some (.set m) ∧ x ∈ m := by
  have hfmt : store_exec_two "SADD %s %s" a b s =
      match store_get s a with
      | none => (.integer 1, store_put s a (.set [b]))
      | some (.set members) =>
        if b ∈ members then (.integer 0, s)
        else (.integer 1, store_put s a (.set (members ++ [b])))
      | some _ => (WRONGTYPE, s) := by
    rfl
  rw [hfmt] at hok ⊢
  cases hg : store_get s a with
  | none =>
    simp only [store_get_put]
    exact ⟨fun k hk => by simp [Ne.symm hk], [b], by simp, by simp,
      fun x hx => Or.inl (by simpa using hx)⟩
  | some v =>
    cases v with
    | set members =>
      by_cases hb : b ∈ members
      · have hres : (match some (Value.set members) with
            | none => ((redisReply.integer 1, store_put s a (.set [b])) : redisReply × Store)
            | some (.set members) =>
              if b ∈ members then (.integer 0, s)
              else (.integer 1, store_put s a (.set (members ++ [b])))
            | some _ => (WRONGTYPE, s)) = (.integer 0, s) := by
          simp only [hb, if_true]
        rw [hres]
        exact ⟨fun _ _ => rfl, members, hg, hb, fun x hx => Or.inr ⟨members, rfl, hx⟩⟩
      · have hres : (match some (Value.set members) with
            | none => ((redisReply.integer 1, store_put s a (.set [b])) : redisReply × Store)
            | some (.set members) =>
              if b ∈ members then (.integer 0, s)
              else (.integer 1, store_put s a (.set (members ++ [b])))
            | some _ => (WRONGTYPE, s))
            = (.integer 1, store_put s a (.set (members ++ [b]))) := by
          simp only [hb, if_false]
        rw [hres]
        simp only [store_get_put]
        refine ⟨fun k hk => by simp [Ne.symm hk], members ++ [b], by simp, by simp,
          fun x hx => ?_⟩
        rcases List.mem_append.1 hx with h | h
        · exact Or.inr ⟨members, rfl, h⟩
        · exact Or.inl (by simpa using h)
    | string _ => simp [hg, WRONGTYPE, redisReply.type] at hok
    | list _ => simp [hg, WRONGTYPE, redisReply.type] at hok
    | hash _ => simp [hg, WRONGTYPE, redisReply.type] at hok
    | zset _ => simp [hg, WRONGTYPE, redisReply.type] at hok

theorem exists_effect (s : Store) (a : Str) :
    store_exec_one "EXISTS %s" a s
      = (.integer (if (store_get s a).isSome then 1 else 0), s) := by
  simp [store_exec_one]

theorem rename_effect (s : Store) (a b : Str) (v : Value) (h : store_get s a = some v) :
    store_exec_two "RENAME %s %s" a b s = (OK, store_put (store_del s a) b v) := by
  simp [store_exec_two, h]

theorem rename_missing (s : Store) (a b : Str) (h : store_get s a = none) :
    (store_exec_two "RENAME %s %s" a b s).1.type = .REDIS_REPLY_ERROR := by
  simp [store_exec_two, h, redisReply.type]

theorem set_effect (s : Store) (a b : Str) :
    store_exec_two "SET %s %s" a b s = (OK, store_put s a (.string b)) := by
  simp [store_exec_two]

theorem del_effect (s : Store) (a : Str) :
    store_exec_one "DEL %s" a s
      = (.integer (if (store_get s a).isSome then 1 else 0), store_del s a) := by
  simp [store_exec_one]

theorem update_rename_scoped_ok (srv : Server) (fmstate : RedisFdwModifyState)
    (context context' : redisContext) (old : Str) (values : UpdateValues)
    (hnone : values.newval = none)
    (h : update_rename_scoped srv fmstate context old values = .ok context') :
    (∀ keyprefix, fmstate.keyprefix = some keyprefix → keyprefix <+: values.newkey) ∧
      accepts srv context.sent ⟨"RENAME %s %s", [.s old, .s values.newkey]⟩ ∧
      ∀ ks, fmstate.keyset = some ks →
        accepts srv (context.sent ++ [⟨"RENAME %s %s", [.s old, .s values.newkey]⟩])
          ⟨"SREM %s %s", [.s ks, .s old]⟩ ∧
        accepts srv (context.sent ++ [⟨"RENAME %s %s", [.s old, .s values.newkey]⟩,
            ⟨"SREM %s %s", [.s ks, .s old]⟩])
          ⟨"SADD %s %s", [.s ks, .s values.newkey]⟩ := by
  unfold update_rename_scoped at h
  split at h
  · cases h
  · rename_i hpre
    obtain ⟨h1, h2⟩ := send_then_ok srv context context' _ _ _ h
    refine ⟨?_, h1, ?_⟩
    · intro p hp
      simp only [hp, Bool.not_eq_true, Bool.not_eq_false'] at hpre
      exact List.isPrefixOf_iff_prefix.1 hpre
    · intro ks hks
      simp only [hnone, hks] at h2
      obtain ⟨h3, h4⟩ := send_then_ok srv _ context' _ _ _ h2
      obtain ⟨_, h5⟩ := send_checked_ok srv _ context' _ _ h4
      refine ⟨h3, ?_⟩
      simpa using h5

theorem update_key_only_ok (srv : Server) (fmstate : RedisFdwModifyState)
    (context context' : redisContext) (slot : List Datum) (old new : Str)
    (hctx : fmstate.context = some context)
    (hsingle : fmstate.singleton_key = none)
    (htargets : fmstate.target_attrs = [1])
    (hkey : slot_getattr slot 1 = .text new) (hne : old ≠ new)
    (h : redisExecForeignUpdate srv fmstate (.text old) slot = .ok context') :
    context'.sent = context.sent ++ rename_commands fmstate.keyset old new ∧
      srv.respond context.sent ⟨"EXISTS %s", [.s new]⟩ = some (.integer 0) ∧
      (∀ keyprefix, fmstate.keyprefix = some keyprefix → keyprefix <+: new) ∧
      accepts srv (context.sent ++ [⟨"EXISTS %s", [.s new]⟩])
        ⟨"RENAME %s %s", [.s old, .s new]⟩ ∧
      ∀ ks, fmstate.keyset = some ks →
        accepts srv (context.sent ++ [⟨"EXISTS %s", [.s new]⟩,
            ⟨"RENAME %s %s", [.s old, .s new]⟩]) ⟨"SREM %s %s", [.s ks, .s old]⟩ ∧
        accepts srv (context.sent ++ [⟨"EXISTS %s", [.s new]⟩,
            ⟨"RENAME %s %s", [.s old, .s new]⟩, ⟨"SREM %s %s", [.s ks, .s old]⟩])
          ⟨"SADD %s %s", [.s ks, .s new]⟩ := by
  have hvalues : update_values_loop fmstate slot fmstate.target_attrs ⟨old, none, none⟩
      = .ok ⟨new, none, none⟩ := by
    simp [htargets, update_values_loop, hkey, OutputFunctionCall]
  unfold redisExecForeignUpdate at h
  simp only [hctx, OutputFunctionCall, hvalues, ne_eq, hne, not_false_eq_true, if_true,
    hsingle] at h
  cases hck : update_check_new_key srv fmstate context new with
  | ok c =>
    simp only [hck] at h
    obtain ⟨hc, hex⟩ := update_check_new_key_scoped srv fmstate context c new hsingle hck
    cases hrn : update_rename_scoped srv fmstate c old ⟨new, none, none⟩ with
    | ok c2 =>
      simp only [hrn, Result.ok.injEq] at h
      subst h
      have hsent := update_rename_scoped_sent srv fmstate c c2 old ⟨new, none, none⟩ rfl hrn
      obtain ⟨hp, ha, hk⟩ := update_rename_scoped_ok srv fmstate c c2 old ⟨new, none, none⟩
        rfl hrn
      subst hc
      refine ⟨by rw [hsent]; simp [rename_commands], hex, hp, ha, ?_⟩
      intro ks hks
      obtain ⟨h1, h2⟩ := hk ks hks
      exact ⟨by simpa using h1, by simpa using h2⟩
    | error e c2 => simp [hrn] at h
    | crash c2 => simp [hrn] at h
    | out_of_fuel => simp [hrn] at h
  | error e c => simp [hck] at h
  | crash c => simp [hck] at h
  | out_of_fuel => simp [hck] at h

theorem srem_accepts (s : Store) (a b : Str)
    (h : store_get s a = none ∨ ∃ m, store_get s a = some (.set m)) :
    (store_exec_two "SREM %s %s" a b s).1.type ≠ .REDIS_REPLY_ERROR := by
  have hfmt : store_exec_two "SREM %s %s" a b s =
      match store_get s a with
      | none => (.integer 0, s)
      | some (.set members) =>
        if b ∈ members then
          (.integer 1,
            if members.filter (fun m => m ≠ b) = [] then store_del s a
            else store_put s a (.set (members.filter (fun m => m ≠ b))))
        else (.integer 0, s)
      | some _ => (WRONGTYPE, s) := by
    rfl
  rw [hfmt]
  rcases h with h | ⟨m, h⟩
  · simp [h, redisReply.type]
  · rw [h]
    by_cases hb : b ∈ m <;> simp [hb, redisReply.type]

theorem sadd_accepts (s : Store) (a b : Str)
    (h : store_get s a = none ∨ ∃ m, store_get s a = some (.set m)) :
    (store_exec_two "SADD %s %s" a b s).1.type ≠ .REDIS_REPLY_ERROR := by
  have hfmt : store_exec_two "SADD %s %s" a b s =
      match store_get s a with
      | none => (.integer 1, store_put s a (.set [b]))
      | some (.set members) =>
        if b ∈ members then (.integer 0, s)
        else (.integer 1, store_put s a (.set (members ++ [b])))
      | some _ => (WRONGTYPE, s) := by
    rfl
  rw [hfmt]
  rcases h with h | ⟨m, h⟩
  · simp [h, redisReply.type]
  · rw [h]
    by_cases hb : b ∈ m <;> simp [hb, redisReply.type]

theorem srem_string_rejected (s : Store) (a b v : Str) (h : store_get s a = some (.string v)) :
    (store_exec_two "SREM %s %s" a b s).1.type = .REDIS_REPLY_ERROR := by
  have hfmt : store_exec_two "SREM %s %s" a b s =
      match store_get s a with
      | none => (.integer 0, s)
      | some (.set members) =>
        if b ∈ members then
          (.integer 1,
            if members.filter (fun m => m ≠ b) = [] then store_del s a
            else store_put s a (.set (members.filter (fun m => m ≠ b))))
        else (.integer 0, s)
      | some _ => (WRONGTYPE, s) := by
    rfl
  rw [hfmt, h]
  rfl

/-- The store after the commands that rename `old`, which holds `held`, to `new`. -/
theorem store_run_rename (now : Store) (old new : Str) (held : Value)
    (hold : NUL ∉ old) (hnew : NUL ∉ new) (hv : store_get now old = some held) :
    store_run now [⟨"EXISTS %s", [.s new]⟩, ⟨"RENAME %s %s", [.s old, .s new]⟩]
      = store_put (store_del now old) new held := by
  simp only [store_run_cons, store_exec_s1 _ new _ hnew, exists_effect,
    store_exec_s2 _ old new _ hold hnew, rename_effect _ old new held hv]
  rfl

/-- C17: against the store with the standard semantics, in which the key `old` holds
the string `v` and the key `new` does not exist, every `redisExecForeignUpdate` on a
table that is not a singleton that changes only the key from `old` to `new` and
succeeds leaves `old` absent and `new` holding `v`, and, when the table has a key set (a key other than
`old`), the key set then holds `new` and not `old`; and the update does succeed when
`new` carries the key prefix of the table, if any, and the key set, if any, is a key
other than `new` that is absent or holds a set. -/
theorem rename_scalar_key (st : Store) (fmstate : RedisFdwModifyState) (context : redisContext)
    (slot : List Datum) (old new v : Str)
    (hctx : fmstate.context = some context)
    (hsingle : fmstate.singleton_key = none)
    (htargets : fmstate.target_attrs = [1])
    (hkey : slot_getattr slot 1 = .text new)
    (hold : NUL ∉ old) (hnew : NUL ∉ new)
    (hks : ∀ ks, fmstate.keyset = some ks → NUL ∉ ks ∧ ks ≠ old)
    (hv : store_get (store_run st context.sent) old = some (.string v))
    (hn : store_get (store_run st context.sent) new = none) :
    (∀ context', redisExecForeignUpdate (store_server st) fmstate (.text old) slot
          = .ok context' →
        store_get (store_run st context'.sent) old = none ∧
        store_get (store_run st context'.sent) new = some (.string v) ∧
        ∀ ks, fmstate.keyset = some ks →
          ∃ m, store_get (store_run st context'.sent) ks = some (.set m) ∧
            new ∈ m ∧ old ∉ m) ∧
      ((∀ keyprefix, fmstate.keyprefix = some keyprefix → keyprefix <+: new) →
        (∀ ks, fmstate.keyset = some ks → ks ≠ new ∧
          (store_get (store_run st context.sent) ks = none ∨
            ∃ m, store_get (store_run st context.sent) ks = some (.set m))) →
        ∃ context', redisExecForeignUpdate (store_server st) fmstate (.text old) slot
          = .ok context') := by
  have hne : old ≠ new := by
    intro h
    rw [h, hn] at hv
    cases hv
  have hrun2 := store_run_rename (store_run st context.sent) old new (.string v) hold hnew hv
  have hs2old : store_get (store_put (store_del (store_run st context.sent) old) new
      (.string v)) old = none := by
    simp [store_get_put, store_get_del, Ne.symm hne]
  have hs2new : store_get (store_put (store_del (store_run st context.sent) old) new
      (.string v)) new = some (.string v) := by
    simp [store_get_put]
  have hs2other : ∀ k, k ≠ old → k ≠ new →
      store_get (store_put (store_del (store_run st context.sent) old) new (.string v)) k
        = store_get (store_run st context.sent) k := by
    intro k h1 h2
    simp [store_get_put, store_get_del, Ne.symm h1, Ne.symm h2]
  constructor
  · intro context' h
    obtain ⟨hsent, _, _, _, hacc⟩ := update_key_only_ok (store_server st) fmstate context
      context' slot old new hctx hsingle htargets hkey hne h
    rw [hsent, store_run_append]
    cases hkeyset : fmstate.keyset with
    | none =>
      simp only [rename_commands]
      rw [hrun2]
      exact ⟨hs2old, hs2new, fun ks h => by cases h⟩
    | some ks =>
      obtain ⟨hksn, hkso⟩ := hks ks hkeyset
      obtain ⟨ha1, ha2⟩ := hacc ks hkeyset
      rw [store_accepts, store_run_append, hrun2, store_exec_s2 _ ks old _ hksn hold] at ha1
      have hrun3 : store_run st (context.sent ++ [⟨"EXISTS %s", [.s new]⟩,
          ⟨"RENAME %s %s", [.s old, .s new]⟩, ⟨"SREM %s %s", [.s ks, .s old]⟩])
          = (store_exec_two "SREM %s %s" ks old
              (store_put (store_del (store_run st context.sent) old) new (.string v))).2 := by
        have : [⟨"EXISTS %s", [.s new]⟩, ⟨"RENAME %s %s", [.s old, .s new]⟩,
            (⟨"SREM %s %s", [.s ks, .s old]⟩ : Cmd)]
            = [⟨"EXISTS %s", [.s new]⟩, ⟨"RENAME %s %s", [.s old, .s new]⟩] ++
              [⟨"SREM %s %s", [.s ks, .s old]⟩] := rfl
        rw [this, ← List.append_assoc, store_run_snoc, store_run_append, hrun2,
          store_exec_s2 _ ks old _ hksn hold]
      rw [store_accepts, hrun3, store_exec_s2 _ ks new _ hksn hnew] at ha2
      have hksnew : ks ≠ new := by
        intro hk
        rw [hk] at ha1
        exact ha1 (srem_string_rejected _ new old v hs2new)
      obtain ⟨hr1, hr2⟩ := srem_effect _ ks old ha1
      obtain ⟨hd1, m', hd2, hd3, hd4⟩ := sadd_effect _ ks new ha2
      have hfinal : store_run (store_run st context.sent)
          (rename_commands (some ks) old new)
          = (store_exec_two "SADD %s %s" ks new
              (store_exec_two "SREM %s %s" ks old
                (store_put (store_del (store_run st context.sent) old) new (.string v))).2).2 := by
        have : rename_commands (some ks) old new
            = [⟨"EXISTS %s", [.s new]⟩, ⟨"RENAME %s %s", [.s old, .s new]⟩] ++
              [⟨"SREM %s %s", [.s ks, .s old]⟩, ⟨"SADD %s %s", [.s ks, .s new]⟩] := rfl
        rw [this, store_run_append, hrun2]
        simp only [store_run_cons, store_exec_s2 _ ks old _ hksn hold,
          store_exec_s2 _ ks new _ hksn hnew]
        rfl
      rw [hfinal]
      refine ⟨?_, ?_, ?_⟩
      · rw [hd1 old (Ne.symm hkso), hr1 old (Ne.symm hkso)]
        exact hs2old
      · rw [hd1 new (Ne.symm hksnew), hr1 new (Ne.symm hksnew)]
        exact hs2new
      · intro ks' hks'
        cases hks'
        refine ⟨m', hd2, hd3, ?_⟩
        intro hmem
        rcases hd4 old hmem with h1 | ⟨m, h1, h2⟩
        · exact hne h1
        · rcases hr2 with h3 | ⟨m0, h3, h4⟩
          · rw [h3] at h1
            cases h1
          · rw [h3] at h1
            cases h1
            exact h4 h2
  · intro hpre hkeyset
    have hvalues : update_values_loop fmstate slot fmstate.target_attrs ⟨old, none, none⟩
        = .ok ⟨new, none, none⟩ := by
      simp [htargets, update_values_loop, hkey, OutputFunctionCall]
    have hexists : (store_server st).respond context.sent ⟨"EXISTS %s", [.s new]⟩
        = some (.integer 0) := by
      simp [store_server, store_exec_s1 _ new _ hnew, exists_effect, hn]
    unfold redisExecForeignUpdate
    simp only [hctx, OutputFunctionCall, hvalues, ne_eq, hne, not_false_eq_true, if_true,
      hsingle]
    rw [update_check_new_key_scoped_absent (store_server st) fmstate context new hsingle hexists]
    simp only
    have hrest : ∃ context', update_rename_scoped (store_server st) fmstate
        { context with sent := context.sent ++ [⟨"EXISTS %s", [.s new]⟩] } old
        ⟨new, none, none⟩ = .ok context' := by
      have hrename : accepts (store_server st) (context.sent ++ [⟨"EXISTS %s", [.s new]⟩])
          ⟨"RENAME %s %s", [.s old, .s new]⟩ := by
        rw [store_accepts, store_run_snoc, store_exec_s1 _ new _ hnew, exists_effect,
          store_exec_s2 _ old new _ hold hnew, rename_effect _ old new _ hv]
        simp [OK, redisReply.type]
      have hstore2 : store_run st (context.sent ++ [⟨"EXISTS %s", [.s new]⟩] ++
          [⟨"RENAME %s %s", [.s old, .s new]⟩])
          = store_put (store_del (store_run st context.sent) old) new (.string v) := by
        rw [List.append_assoc, store_run_append]
        exact hrun2
      unfold update_rename_scoped
      have hgo : send_then (store_server st)
          { context with sent := context.sent ++ [⟨"EXISTS %s", [.s new]⟩] }
          ⟨"RENAME %s %s", [.s old, .s new]⟩ "failure renaming key %s" (fun context =>
            match ((match (none : Option Str) with
              | some newval =>
                if fmstate.table_type = .PG_REDIS_SCALAR_TABLE then
                  send_checked (store_server st) context ⟨"SET %s %s", [.s new, .s newval]⟩
                    "upating key %s"
                else .ok context
              | none => .ok context) : Result redisContext) with
            | .ok context =>
              match fmstate.keyset with
              | some keyset =>
                send_then (store_server st) context ⟨"SREM %s %s", [.s keyset, .s old]⟩
                  "deleting keyset element %s" fun context =>
                send_checked (store_server st) context ⟨"SADD %s %s", [.s keyset, .s new]⟩
                  "adding keyset element %s"
              | none => .ok context
            | .error e context => .error e context
            | .crash context => .crash context
            | .out_of_fuel => .out_of_fuel)
          = .ok { context with
              sent := context.sent ++ rename_commands fmstate.keyset old new } := by
        rw [send_then_accepts _ _ _ _ _ hrename]
        cases hk : fmstate.keyset with
        | none => simp [rename_commands]
        | some ks =>
          obtain ⟨hksn, hkso⟩ := hks ks hk
          obtain ⟨hksnew, hkstate⟩ := hkeyset ks hk
          have hget2 : store_get (store_put (store_del (store_run st context.sent) old) new
              (.string v)) ks = store_get (store_run st context.sent) ks :=
            hs2other ks hkso hksnew
          have hprem : store_get (store_put (store_del (store_run st context.sent) old) new
              (.string v)) ks = none ∨ ∃ m, store_get (store_put (store_del
                (store_run st context.sent) old) new (.string v)) ks = some (.set m) := by
            rw [hget2]
            exact hkstate
          have hsrem : accepts (store_server st)
              (context.sent ++ [⟨"EXISTS %s", [.s new]⟩] ++
                [⟨"RENAME %s %s", [.s old, .s new]⟩]) ⟨"SREM %s %s", [.s ks, .s old]⟩ := by
            rw [store_accepts, hstore2, store_exec_s2 _ ks old _ hksn hold]
            exact srem_accepts _ ks old hprem
          have hsadd : accepts (store_server st)
              (context.sent ++ [⟨"EXISTS %s", [.s new]⟩] ++
                [⟨"RENAME %s %s", [.s old, .s new]⟩] ++ [⟨"SREM %s %s", [.s ks, .s old]⟩])
              ⟨"SADD %s %s", [.s ks, .s new]⟩ := by
            rw [store_accepts, store_run_snoc, hstore2, store_exec_s2 _ ks old _ hksn hold,
              store_exec_s2 _ ks new _ hksn hnew]
            have hok := srem_accepts _ ks old hprem
            obtain ⟨_, hafter⟩ := srem_effect _ ks old hok
            apply sadd_accepts
            rcases hafter with h | ⟨m, h, _⟩
            · exact Or.inl h
            · exact Or.inr ⟨m, h⟩
          simp only
          rw [send_then_accepts _ _ _ _ _ hsrem, send_checked_accepts _ _ _ _ hsadd]
          simp [rename_commands]
      cases hkp : fmstate.keyprefix with
      | none =>
        simp only [Bool.false_eq_true, if_false]
        exact ⟨_, hgo⟩
      | some p =>
        have hpk : p.isPrefixOf new = true := by
          have := hpre p hkp
          simpa using this
        simp only [hpk, Bool.not_true, Bool.false_eq_true, if_false]
        exact ⟨_, hgo⟩
    obtain ⟨context', hc⟩ := hrest
    exact ⟨context', by rw [hc]⟩

/-- The key `old` of a table with the key set `ks` renamed to `new`: afterwards `old`
is absent, `new` holds `v`, and the key set holds `new` alone. -/
theorem rename_scalar_key_witness :
    redisExecForeignUpdate (store_server demo_store) demo_rename_fmstate (.text "old".data)
        [.text "new".data]
      = .ok ⟨false, [⟨"SELECT %d", [.d 0]⟩, ⟨"EXISTS %s", [.s "new".data]⟩,
          ⟨"RENAME %s %s", [.s "old".data, .s "new".data]⟩,
          ⟨"SREM %s %s", [.s "ks".data, .s "old".data]⟩,
          ⟨"SADD %s %s", [.s "ks".data, .s "new".data]⟩], false⟩ ∧
      store_run demo_store [⟨"SELECT %d", [.d 0]⟩, ⟨"EXISTS %s", [.s "new".data]⟩,
          ⟨"RENAME %s %s", [.s "old".data, .s "new".data]⟩,
          ⟨"SREM %s %s", [.s "ks".data, .s "old".data]⟩,
          ⟨"SADD %s %s", [.s "ks".data, .s "new".data]⟩]
        = [("ks".data, .set ["new".data]), ("new".data, .string "v".data)] ∧
      ∀ context', redisExecForeignUpdate (store_server demo_store) demo_rename_fmstate
          (.text "old".data) [.text "new".data] = .ok context' →
        store_get (store_run demo_store context'.sent) "old".data = none ∧
        store_get (store_run demo_store context'.sent) "new".data
          = some (.string "v".data) ∧
        ∀ ks, demo_rename_fmstate.keyset = some ks →
          ∃ m, store_get (store_run demo_store context'.sent) ks = some (.set m) ∧
            "new".data ∈ m ∧ "old".data ∉ m :=
  ⟨rfl, rfl, (rename_scalar_key demo_store demo_rename_fmstate demo_context
    [.text "new".data] "old".data "new".data "v".data rfl rfl rfl rfl (by decide) (by decide)
    (by
      intro ks h
      simp only [demo_rename_fmstate, demo_fmstate, Option.some.injEq] at h
      subst h
      decide)
    rfl rfl).1⟩

/-! ## Round trip of a list through the store -/

theorem all_accepted_append (srv : Server) :
    ∀ (a b base : List Cmd),
      all_accepted srv base (a ++ b) ↔
        all_accepted srv base a ∧ all_accepted srv (base ++ a) b := by
  intro a
  induction a with
  | nil => intro b base; simp [all_accepted]
  | cons c rest ih =>
    intro b base
    have h := ih b (base ++ [c])
    simp only [List.append_assoc, List.singleton_append] at h
    show accepts srv base c ∧ all_accepted srv (base ++ [c]) (rest ++ b) ↔ _
    rw [h]
    simp only [all_accepted, and_assoc]

theorem send_all_accepted (srv : Server) (message : String) :
    ∀ (cmds : List Cmd) (context context' : redisContext),
      send_all srv message cmds context = .ok context' →
      all_accepted srv context.sent cmds := by
  intro cmds
  induction cmds with
  | nil => intro _ _ _; trivial
  | cons cmd rest ih =>
    intro context context' h
    rw [send_all] at h
    split at h
    · rename_i c hc
      obtain ⟨h1, h2⟩ := send_checked_ok srv context c cmd message hc
      have := ih c context' h
      rw [h1] at this
      exact ⟨h2, this⟩
    · cases h
    · cases h
    · cases h

theorem store_exec_two_args (fmt : String) (a b : Str) (s : Store) (ha : NUL ∉ a) :
    store_exec ⟨fmt, [.s a, .s b]⟩ s = store_exec_two fmt a (cstr b) s := by
  simp [store_exec, arg_text, cstr_of_no_NUL a ha]

theorem store_exec_three_args (fmt : String) (a b c : Str) (s : Store) (ha : NUL ∉ a) :
    store_exec ⟨fmt, [.s a, .s b, .s c]⟩ s = store_exec_three fmt a (cstr b) (cstr c) s := by
  simp [store_exec, arg_text, cstr_of_no_NUL a ha]

theorem write_two_effect (s : Store) (fmt : String) (a b : Str)
    (hfmt : fmt = "SET %s %s" ∨ fmt = "SADD %s %s" ∨ fmt = "RPUSH %s %s")
    (hok : (store_exec_two fmt a b s).1.type ≠ .REDIS_REPLY_ERROR) :
    store_get (store_exec_two fmt a b s).2 a ≠ none ∧
      ∀ k, k ≠ a → store_get (store_exec_two fmt a b s).2 k = store_get s k := by
  rcases hfmt with h | h | h
  · subst h
    rw [set_effect]
    simp only [store_get_put]
    exact ⟨by simp, fun k hk => by simp [Ne.symm hk]⟩
  · subst h
    obtain ⟨h1, m, h2, _, _⟩ := sadd_effect s a b hok
    exact ⟨by rw [h2]; simp, h1⟩
  · subst h
    have hform : store_exec_two "RPUSH %s %s" a b s =
        match store_get s a with
        | none => (.integer 1, store_put s a (.list [b]))
        | some (.list items) =>
          (.integer (items.length + 1 : Nat), store_put s a (.list (items ++ [b])))
        | some _ => (WRONGTYPE, s) := by
      rfl
    rw [hform] at hok ⊢
    cases hg : store_get s a with
    | none =>
      simp only [store_get_put]
      exact ⟨by simp, fun k hk => by simp [Ne.symm hk]⟩
    | some val =>
      cases val with
      | list items =>
        simp only [store_get_put]
        exact ⟨by simp, fun k hk => by simp [Ne.symm hk]⟩
      | string _ => simp [hg, WRONGTYPE, redisReply.type] at hok
      | set _ => simp [hg, WRONGTYPE, redisReply.type] at hok
      | hash _ => simp [hg, WRONGTYPE, redisReply.type] at hok
      | zset _ => simp [hg, WRONGTYPE, redisReply.type] at hok

theorem write_three_effect (s : Store) (fmt : String) (a b c : Str)
    (hfmt : fmt = "HSET %s %s %s" ∨ fmt = "ZADD %s %s %s")
    (hok : (store_exec_three fmt a b c s).1.type ≠ .REDIS_REPLY_ERROR) :
    store_get (store_exec_three fmt a b c s).2 a ≠ none ∧
      ∀ k, k ≠ a → store_get (store_exec_three fmt a b c s).2 k = store_get s k := by
  rcases hfmt with h | h
  · subst h
    have hform : store_exec_three "HSET %s %s %s" a b c s =
        match store_get s a with
        | none => (.integer 1, store_put s a (.hash [(b, c)]))
        | some (.hash fields) =>
          if fields.any (fun fv => fv.1 = b) then
            (.integer 0,
              store_put s a (.hash (fields.map fun fv => if fv.1 = b then (b, c) else fv)))
          else (.integer 1, store_put s a (.hash (fields ++ [(b, c)])))
        | some _ => (WRONGTYPE, s) := by
      rfl
    rw [hform] at hok ⊢
    cases hg : store_get s a with
    | none =>
      simp only [store_get_put]
      exact ⟨by simp, fun k hk => by simp [Ne.symm hk]⟩
    | some val =>
      cases val with
      | hash fields =>
        simp only
        split_ifs
        · simp only [store_get_put]
          exact ⟨by simp, fun k hk => by simp [Ne.symm hk]⟩
        · simp only [store_get_put]
          exact ⟨by simp, fun k hk => by simp [Ne.symm hk]⟩
      | string _ => simp [hg, WRONGTYPE, redisReply.type] at hok
      | set _ => simp [hg, WRONGTYPE, redisReply.type] at hok
      | list _ => simp [hg, WRONGTYPE, redisReply.type] at hok
      | zset _ => simp [hg, WRONGTYPE, redisReply.type] at hok
  · subst h
    have hform : store_exec_three "ZADD %s %s %s" a b c s =
        match store_get s a with
        | none => (.integer 1, store_put s a (.zset [(c, b)]))
        | some (.zset scores) =>
          if scores.any (fun ms => ms.1 = c) then
            (.integer 0,
              store_put s a (.zset (scores.map fun ms => if ms.1 = c then (c, b) else ms)))
          else (.integer 1, store_put s a (.zset (scores ++ [(c, b)])))
        | some _ => (WRONGTYPE, s) := by
      rfl
    rw [hform] at hok ⊢
    cases hg : store_get s a with
    | none =>
      simp only [store_get_put]
      exact ⟨by simp, fun k hk => by simp [Ne.symm hk]⟩
    | some val =>
      cases val with
      | zset scores =>
        simp only
        split_ifs
        · simp only [store_get_put]
          exact ⟨by simp, fun k hk => by simp [Ne.symm hk]⟩
        · simp only [store_get_put]
          exact ⟨by simp, fun k hk => by simp [Ne.symm hk]⟩
      | string _ => simp [hg, WRONGTYPE, redisReply.type] at hok
      | set _ => simp [hg, WRONGTYPE, redisReply.type] at hok
      | list _ => simp [hg, WRONGTYPE, redisReply.type] at hok
      | hash _ => simp [hg, WRONGTYPE, redisReply.type] at hok

theorem write_effect (s : Store) (k : Str) (cmd : Cmd) (hk : NUL ∉ k)
    (hw : is_write_on k cmd)
    (hok : (store_exec cmd s).1.type ≠ .REDIS_REPLY_ERROR) :
    store_get (store_exec cmd s).2 k ≠ none ∧
      ∀ k', k' ≠ k → store_get (store_exec cmd s).2 k' = store_get s k' := by
  rcases hw with ⟨x, h | h | h⟩ | ⟨x, y, h | h⟩
  · subst h
    rw [store_exec_two_args _ k x s hk] at hok ⊢
    exact write_two_effect s _ k _ (Or.inl rfl) hok
  · subst h
    rw [store_exec_two_args _ k x s hk] at hok ⊢
    exact write_two_effect s _ k _ (Or.inr (Or.inl rfl)) hok
  · subst h
    rw [store_exec_two_args _ k x s hk] at hok ⊢
    exact write_two_effect s _ k _ (Or.inr (Or.inr rfl)) hok
  · subst h
    rw [store_exec_three_args _ k x y s hk] at hok ⊢
    exact write_three_effect s _ k _ _ (Or.inl rfl) hok
  · subst h
    rw [store_exec_three_args _ k x y s hk] at hok ⊢
    exact write_three_effect s _ k _ _ (Or.inr rfl) hok

theorem writes_run (st : Store) (k : Str) (hk : NUL ∉ k) :
    ∀ (cmds base : List Cmd),
      all_accepted (store_server st) base cmds → (∀ c ∈ cmds, is_write_on k c) →
      (cmds ≠ [] → store_get (store_run st (base ++ cmds)) k ≠ none) ∧
        ∀ k', k' ≠ k →
          store_get (store_run st (base ++ cmds)) k' = store_get (store_run st base) k' := by
  intro cmds
  induction cmds with
  | nil => intro base _ _; simp
  | cons c rest ih =>
    intro base hacc hw
    obtain ⟨h1, h2⟩ := hacc
    rw [store_accepts] at h1
    obtain ⟨he1, he2⟩ := write_effect (store_run st base) k c hk (hw c (List.mem_cons_self _ _)) h1
    obtain ⟨ih1, ih2⟩ := ih (base ++ [c]) h2 (fun d hd => hw d (List.mem_cons_of_mem _ hd))
    have happ : base ++ c :: rest = base ++ [c] ++ rest := by simp
    rw [happ]
    constructor
    · intro _
      by_cases hrest : rest = []
      · subst hrest
        rw [List.append_nil, store_run_snoc]
        exact he1
      · exact ih1 hrest
    · intro k' hk'
      rw [ih2 k' hk', store_run_snoc]
      exact he2 k' hk'

theorem non_null_elements_length :
    ∀ (elements : List (Option Str)) (items : List Str),
      non_null_elements elements = some items → items.length = elements.length := by
  intro elements
  induction elements with
  | nil => intro items h; simp [non_null_elements] at h; subst h; rfl
  | cons a rest ih =>
    intro items h
    cases a with
    | none => simp [non_null_elements] at h
    | some s =>
      simp only [non_null_elements] at h
      cases hr : non_null_elements rest with
      | none => simp [hr] at h
      | some r =>
        simp only [hr, Option.some.injEq] at h
        subst h
        simp [ih r hr]

theorem write_commands_writes (table_type : redis_table_type) (k : Str) (items : List Str) :
    ∀ c ∈ write_commands table_type k items, is_write_on k c := by
  intro c hc
  cases table_type <;> simp only [write_commands, List.mem_map, List.not_mem_nil] at hc
  · obtain ⟨j, _, rfl⟩ := hc
    exact Or.inr ⟨_, _, Or.inl rfl⟩
  · obtain ⟨i, _, rfl⟩ := hc
    exact Or.inl ⟨_, Or.inr (Or.inr rfl)⟩
  · obtain ⟨i, _, rfl⟩ := hc
    exact Or.inl ⟨_, Or.inr (Or.inl rfl)⟩
  · obtain ⟨i, _, rfl⟩ := hc
    exact Or.inr ⟨_, _, Or.inr rfl⟩

theorem write_commands_ne_nil (table_type : redis_table_type) (k : Str) (items : List Str)
    (htype : table_type ≠ .PG_REDIS_SCALAR_TABLE) (hlen : items.length ≠ 0)
    (heven : table_type = .PG_REDIS_HASH_TABLE → items.length % 2 = 0) :
    write_commands table_type k items ≠ [] := by
  intro h
  have hl := congrArg List.length h
  cases table_type with
  | PG_REDIS_SCALAR_TABLE => exact htype rfl
  | PG_REDIS_HASH_TABLE =>
    have := heven rfl
    simp only [write_commands, List.length_map, List.length_range, List.length_nil] at hl
    omega
  | PG_REDIS_LIST_TABLE =>
    simp only [write_commands, List.length_map, List.length_range, List.length_nil] at hl
    omega
  | PG_REDIS_SET_TABLE =>
    simp only [write_commands, List.length_map, List.length_range, List.length_nil] at hl
    omega
  | PG_REDIS_ZSET_TABLE =>
    simp only [write_commands, List.length_map, List.length_range, List.length_nil] at hl
    omega

theorem insert_writes_accepted (srv : Server) (fmstate : RedisFdwModifyState)
    (context context' : redisContext) (k : Str) (value : Datum) (val : Str ⊕ List Str)
    (hv : insert_value fmstate value = .ok val)
    (h : insert_writes srv fmstate context k val = .ok context') :
    ∃ W, W ≠ [] ∧ (∀ c ∈ W, is_write_on k c) ∧
      context' = { context with sent := context.sent ++ W } ∧
      all_accepted srv context.sent W := by
  unfold insert_value at hv
  by_cases hsc : fmstate.table_type = .PG_REDIS_SCALAR_TABLE
  · simp only [hsc, if_true] at hv
    cases ho : OutputFunctionCall value with
    | none => simp [ho] at hv
    | some valueval =>
      simp only [ho, Except.ok.injEq] at hv
      subst hv
      simp only [insert_writes, hsc] at h
      obtain ⟨h1, h2⟩ := send_checked_ok srv context context' _ _ h
      exact ⟨[⟨"SET %s %s", [.s k, .s valueval]⟩], by simp,
        fun c hc => by
          simp only [List.mem_singleton] at hc
          subst hc
          exact Or.inl ⟨_, Or.inl rfl⟩,
        h1, h2, trivial⟩
  · simp only [hsc, if_false] at hv
    cases value with
    | null => simp at hv
    | text s => simp at hv
    | array elements =>
      simp only at hv
      by_cases hlen : elements.length = 0
      · simp [hlen] at hv
      · by_cases hodd : fmstate.table_type = .PG_REDIS_HASH_TABLE ∧ elements.length % 2 ≠ 0
        · simp [hlen, hodd] at hv
        · rw [if_neg hlen, if_neg hodd] at hv
          cases hnn : non_null_elements elements with
          | none => simp [hnn] at hv
          | some items =>
            simp only [hnn, Except.ok.injEq] at hv
            subst hv
            have hil := non_null_elements_length elements items hnn
            have heven : fmstate.table_type = .PG_REDIS_HASH_TABLE → items.length % 2 = 0 := by
              intro ht
              by_contra hc
              exact hodd ⟨ht, by rw [← hil]; exact hc⟩
            obtain ⟨message, hw⟩ := insert_writes_eq srv fmstate context k items hsc heven
            rw [hw] at h
            exact ⟨write_commands fmstate.table_type k items,
              write_commands_ne_nil _ k items hsc (by rw [hil]; exact hlen) heven,
              write_commands_writes _ k items,
              send_all_ok srv message _ _ _ h,
              send_all_accepted srv message _ _ _ h⟩

theorem insert_scoped_accepted (srv : Server) (fmstate : RedisFdwModifyState)
    (context context' : redisContext) (slot : List Datum) (k ks : Str)
    (hkeyset : fmstate.keyset = some ks)
    (h : insert_scoped srv fmstate context k slot = .ok context') :
    ∃ W, W ≠ [] ∧ (∀ c ∈ W, is_write_on k c) ∧
      context'.sent = context.sent ++ [⟨"EXISTS %s", [.s k]⟩] ++ W ++
        [⟨"SADD %s %s", [.s ks, .s k]⟩] ∧
      all_accepted srv (context.sent ++ [⟨"EXISTS %s", [.s k]⟩]) W ∧
      accepts srv (context.sent ++ [⟨"EXISTS %s", [.s k]⟩] ++ W)
        ⟨"SADD %s %s", [.s ks, .s k]⟩ := by
  unfold insert_scoped at h
  dsimp only at h
  split at h
  · cases h
  · split at h
    · cases h
    · split at h
      · cases h
      · split at h
        · cases h
        · split at h
          · rename_i c1 hc1
            obtain ⟨rfl, r, hr, hrt⟩ := (check_reply_ok_iff _ _ _ _ _).1 hc1
            simp only [hr] at h
            split at h
            · cases h
            · cases hv : insert_value fmstate (slot_getattr slot 2) with
              | error e => cases e <;> simp [hv] at h
              | ok val =>
                simp only [hv] at h
                split at h
                · rename_i c2 hc2
                  obtain ⟨W, hW1, hW2, hW3, hW4⟩ := insert_writes_accepted srv fmstate _ c2 k
                    _ val hv hc2
                  simp only [hkeyset] at h
                  obtain ⟨h5, h6⟩ := send_checked_ok srv c2 context' _ _ h
                  subst hW3
                  simp only [redisCommand] at h5 h6 hW4
                  exact ⟨W, hW1, hW2, by rw [h5], hW4, h6⟩
                · cases h
                · cases h
                · cases h
          · cases h
          · cases h
          · cases h

theorem del_effect_blank (s : Store) (a : Str) :
    store_exec_one "DEL %s " a s
      = (.integer (if (store_get s a).isSome then 1 else 0), store_del s a) := by
  rfl

theorem insert_synced (st : Store) (fmstate : RedisFdwModifyState) (context : redisContext)
    (slot : List Datum) (k ks : Str)
    (hctx : fmstate.context = some context)
    (hsingle : fmstate.singleton_key = none)
    (hkeyset : fmstate.keyset = some ks)
    (hkey : slot_getattr slot 1 = .text k)
    (hk : NUL ∉ k) (hksn : NUL ∉ ks) (hne : ks ≠ k) :
    ∀ context', redisExecForeignInsert (store_server st) fmstate slot = .ok context' →
      store_get (store_run st context'.sent) k ≠ none ∧
        member (store_run st context'.sent) ks k := by
  intro context' h
  rw [insert_eq_scoped (store_server st) fmstate context slot k hctx hsingle hkey] at h
  obtain ⟨W, _, hW2, hsent, hacc, hsadd⟩ := insert_scoped_accepted (store_server st) fmstate
    context context' slot k ks hkeyset h
  obtain ⟨hw1, _⟩ := writes_run st k hk W _ hacc hW2
  rw [store_accepts, store_exec_s2 _ ks k _ hksn hk] at hsadd
  obtain ⟨hd1, m', hd2, hd3, _⟩ := sadd_effect _ ks k hsadd
  rw [hsent, store_run_snoc, store_exec_s2 _ ks k _ hksn hk]
  constructor
  · rw [hd1 k (Ne.symm hne)]
    by_cases hWn : W = []
    · subst hWn
      exact absurd rfl ‹[] ≠ []›
    · exact hw1 hWn
  · exact ⟨m', hd2, hd3⟩

theorem delete_synced (st : Store) (fmstate : RedisFdwModifyState) (context : redisContext)
    (k ks : Str)
    (hctx : fmstate.context = some context)
    (hsingle : fmstate.singleton_key = none)
    (hkeyset : fmstate.keyset = some ks)
    (hk : NUL ∉ k) (hksn : NUL ∉ ks) (hne : ks ≠ k) :
    ∀ context', redisExecForeignDelete (store_server st) fmstate (.text k) = .ok context' →
      store_get (store_run st context'.sent) k = none ∧
        ¬ member (store_run st context'.sent) ks k := by
  intro context' h
  simp only [redisExecForeignDelete, hctx, OutputFunctionCall, delete_request, hsingle,
    hkeyset] at h
  split at h
  · rename_i c hc
    obtain ⟨h1, _⟩ := send_checked_ok _ _ _ _ _ hc
    obtain ⟨h2, h3⟩ := send_checked_ok _ _ _ _ _ h
    subst h1
    rw [store_accepts, store_run_snoc, store_exec_s1 _ k _ hk, del_effect,
      store_exec_s2 _ ks k _ hksn hk] at h3
    obtain ⟨hr1, hr2⟩ := srem_effect _ ks k h3
    rw [h2]
    simp only
    rw [store_run_snoc, store_run_snoc, store_exec_s1 _ k _ hk, del_effect,
      store_exec_s2 _ ks k _ hksn hk]
    constructor
    · rw [hr1 k (Ne.symm hne), store_get_del]
      simp
    · rintro ⟨m, hm1, hm2⟩
      rcases hr2 with h4 | ⟨m0, h4, h5⟩
      · rw [h4] at hm1
        cases hm1
      · rw [h4] at hm1
        cases hm1
        exact h5 hm2
  · cases h
  · cases h
  · cases h

theorem update_values_array_valid (fmstate : RedisFdwModifyState) (slot : List Datum) :
    ∀ (attrs : List Int) (v v' : UpdateValues),
      update_values_loop fmstate slot attrs v = .ok v' →
      (∀ a, v.array_vals = some a → a.length ≠ 0 ∧
        (fmstate.table_type = .PG_REDIS_HASH_TABLE → a.length % 2 = 0)) →
      ∀ a, v'.array_vals = some a → a.length ≠ 0 ∧
        (fmstate.table_type = .PG_REDIS_HASH_TABLE → a.length % 2 = 0) := by
  intro attrs
  induction attrs with
  | nil =>
    intro v v' h hv
    simp only [update_values_loop, Except.ok.injEq] at h
    subst h
    exact hv
  | cons attnum rest ih =>
    intro v v' h hv
    rw [update_values_loop] at h
    split at h
    · cases h
    · split at h
      · split at h
        · cases h
        · exact ih _ _ h hv
      · split at h
        · split at h
          · cases h
          · exact ih _ _ h hv
        · split at h
          · rename_i elements hd
            split at h
            · cases h
            · rename_i hlen
              split at h
              · cases h
              · rename_i hodd
                split at h
                · cases h
                · rename_i items hnn
                  refine ih _ _ h ?_
                  intro a ha
                  simp only [Option.some.injEq] at ha
                  subst ha
                  have hil := non_null_elements_length elements items hnn
                  refine ⟨by rw [hil]; exact hlen, ?_⟩
                  intro ht
                  by_contra hc
                  exact hodd ⟨ht, by rw [← hil]; exact hc⟩
          · cases h

theorem update_array_accepted (srv : Server) (fmstate : RedisFdwModifyState)
    (context context' : redisContext) (k : Str) (a : List Str)
    (hlen : a.length ≠ 0)
    (heven : fmstate.table_type = .PG_REDIS_HASH_TABLE → a.length % 2 = 0)
    (h : update_array srv fmstate context k a = .ok context') :
    ∃ W, W ≠ [] ∧ (∀ c ∈ W, is_write_on k c) ∧
      context'.sent = context.sent ++ [⟨"DEL %s ", [.s k]⟩] ++ W ∧
      all_accepted srv (context.sent ++ [⟨"DEL %s ", [.s k]⟩]) W := by
  by_cases htype : fmstate.table_type = .PG_REDIS_SCALAR_TABLE
  · unfold update_array at h
    obtain ⟨_, h2⟩ := send_then_ok srv context context' _ _ _ h
    simp [htype] at h2
  · obtain ⟨message, hu⟩ := update_array_eq srv fmstate context k a htype heven
    rw [hu] at h
    obtain ⟨_, h2⟩ := send_then_ok srv context context' _ _ _ h
    refine ⟨write_commands fmstate.table_type k a,
      write_commands_ne_nil _ k a htype hlen heven, write_commands_writes _ k a, ?_, ?_⟩
    · rw [send_all_ok srv message _ _ _ h2]
    · exact send_all_accepted srv message _ _ _ h2

theorem update_array_store (st : Store) (fmstate : RedisFdwModifyState)
    (context context' : redisContext) (k : Str) (a : List Str) (hk : NUL ∉ k)
    (hlen : a.length ≠ 0)
    (heven : fmstate.table_type = .PG_REDIS_HASH_TABLE → a.length % 2 = 0)
    (h : update_array (store_server st) fmstate context k a = .ok context') :
    store_get (store_run st context'.sent) k ≠ none ∧
      ∀ k', k' ≠ k →
        store_get (store_run st context'.sent) k' = store_get (store_run st context.sent) k' := by
  obtain ⟨W, hW1, hW2, hsent, hacc⟩ := update_array_accepted (store_server st) fmstate context
    context' k a hlen heven h
  obtain ⟨h1, h2⟩ := writes_run st k hk W _ hacc hW2
  rw [hsent]
  refine ⟨h1 hW1, ?_⟩
  intro k' hk'
  rw [h2 k' hk', store_run_snoc, store_exec_s1 _ k _ hk, del_effect_blank, store_get_del]
  simp [Ne.symm hk']

theorem update_tail_store (st : Store) (fmstate : RedisFdwModifyState)
    (context context' : redisContext) (k : Str) (array_vals : Option (List Str))
    (hk : NUL ∉ k)
    (hvalid : ∀ a, array_vals = some a → a.length ≠ 0 ∧
      (fmstate.table_type = .PG_REDIS_HASH_TABLE → a.length % 2 = 0))
    (h : (match array_vals with
      | some a => update_array (store_server st) fmstate context k a
      | none => .ok context) = .ok context') :
    (store_get (store_run st context.sent) k ≠ none →
        store_get (store_run st context'.sent) k ≠ none) ∧
      ∀ k', k' ≠ k →
        store_get (store_run st context'.sent) k' = store_get (store_run st context.sent) k' := by
  cases array_vals with
  | none =>
    simp only [Result.ok.injEq] at h
    subst h
    exact ⟨id, fun _ _ => rfl⟩
  | some a =>
    obtain ⟨hlen, heven⟩ := hvalid a rfl
    obtain ⟨h1, h2⟩ := update_array_store st fmstate context context' k a hk hlen heven h
    exact ⟨fun _ => h1, h2⟩

theorem member_congr (s s' : Store) (ks k : Str) (h : store_get s' ks = store_get s ks) :
    member s' ks k ↔ member s ks k := by
  unfold member
  rw [h]

theorem write_step (st : Store) (context context' : redisContext) (k : Str) (cmd : Cmd)
    (message : String) (hk : NUL ∉ k) (hw : is_write_on k cmd)
    (h : send_checked (store_server st) context cmd message = .ok context') :
    store_get (store_run st context'.sent) k ≠ none ∧
      ∀ k', k' ≠ k →
        store_get (store_run st context'.sent) k' = store_get (store_run st context.sent) k' := by
  obtain ⟨h1, h2⟩ := send_checked_ok _ _ _ _ _ h
  rw [store_accepts] at h2
  subst h1
  simp only [store_run_snoc]
  exact write_effect _ k cmd hk hw h2

theorem keyset_step (st : Store) (context context' : redisContext) (ks old new : Str)
    (hold : NUL ∉ old) (hnew : NUL ∉ new) (hksn : NUL ∉ ks) (hne : old ≠ new)
    (h : send_then (store_server st) context ⟨"SREM %s %s", [.s ks, .s old]⟩
      "deleting keyset element %s" (fun context =>
        send_checked (store_server st) context ⟨"SADD %s %s", [.s ks, .s new]⟩
          "adding keyset element %s") = .ok context') :
    member (store_run st context'.sent) ks new ∧ ¬ member (store_run st context'.sent) ks old ∧
      ∀ k', k' ≠ ks →
        store_get (store_run st context'.sent) k' = store_get (store_run st context.sent) k' := by
  obtain ⟨h1, h2⟩ := send_then_ok _ _ _ _ _ _ h
  obtain ⟨h3, h4⟩ := send_checked_ok _ _ _ _ _ h2
  rw [store_accepts, store_exec_s2 _ ks old _ hksn hold] at h1
  rw [store_accepts] at h4
  simp only [store_run_snoc, store_exec_s2 _ ks old _ hksn hold,
    store_exec_s2 _ ks new _ hksn hnew] at h4
  obtain ⟨hr1, hr2⟩ := srem_effect _ ks old h1
  obtain ⟨ha1, m', ha2, ha3, ha4⟩ := sadd_effect _ ks new h4
  subst h3
  simp only [store_run_snoc, store_exec_s2 _ ks old _ hksn hold,
    store_exec_s2 _ ks new _ hksn hnew]
  refine ⟨⟨m', ha2, ha3⟩, ?_, ?_⟩
  · rintro ⟨m, hm1, hm2⟩
    rw [ha2] at hm1
    cases hm1
    rcases ha4 old hm2 with h5 | ⟨m0, h5, h6⟩
    · exact hne h5
    · rcases hr2 with h7 | ⟨m1, h7, h8⟩
      · rw [h7] at h5
        cases h5
      · rw [h7] at h5
        cases h5
        exact h8 h6
  · intro k' hk'
    rw [ha1 k' hk', hr1 k' hk']

theorem update_rename_scoped_store (st : Store) (fmstate : RedisFdwModifyState)
    (context context' : redisContext) (old ks : Str) (values : UpdateValues)
    (hkeyset : fmstate.keyset = some ks)
    (hold : NUL ∉ old) (hnew : NUL ∉ values.newkey) (hksn : NUL ∉ ks)
    (hne : old ≠ values.newkey) (hks1 : ks ≠ old) (hks2 : ks ≠ values.newkey)
    (h : update_rename_scoped (store_server st) fmstate context old values = .ok context') :
    store_get (store_run st context'.sent) old = none ∧
      store_get (store_run st context'.sent) values.newkey ≠ none ∧
      member (store_run st context'.sent) ks values.newkey ∧
      ¬ member (store_run st context'.sent) ks old := by
  unfold update_rename_scoped at h
  split at h
  · cases h
  · obtain ⟨hren, h2⟩ := send_then_ok _ _ _ _ _ _ h
    rw [store_accepts, store_exec_s2 _ old _ _ hold hnew] at hren
    cases hg : store_get (store_run st context.sent) old with
    | none => exact absurd (rename_missing _ _ _ hg) hren
    | some v =>
      have hs1 : store_run st (context.sent ++ [⟨"RENAME %s %s", [.s old, .s values.newkey]⟩])
          = store_put (store_del (store_run st context.sent) old) values.newkey v := by
        rw [store_run_snoc, store_exec_s2 _ old _ _ hold hnew, rename_effect _ _ _ v hg]
      have hold1 : store_get (store_run st
          (context.sent ++ [⟨"RENAME %s %s", [.s old, .s values.newkey]⟩])) old = none := by
        rw [hs1, store_get_put, store_get_del]
        simp [Ne.symm hne]
      have hnew1 : store_get (store_run st
          (context.sent ++ [⟨"RENAME %s %s", [.s old, .s values.newkey]⟩])) values.newkey
            ≠ none := by
        rw [hs1, store_get_put]
        simp
      dsimp only at h2
      have key : ∀ c2 : redisContext,
          store_get (store_run st c2.sent) old = none →
          store_get (store_run st c2.sent) values.newkey ≠ none →
          send_then (store_server st) c2 ⟨"SREM %s %s", [.s ks, .s old]⟩
            "deleting keyset element %s" (fun context =>
              send_checked (store_server st) context ⟨"SADD %s %s", [.s ks, .s values.newkey]⟩
                "adding keyset element %s") = .ok context' →
          store_get (store_run st context'.sent) old = none ∧
            store_get (store_run st context'.sent) values.newkey ≠ none ∧
            member (store_run st context'.sent) ks values.newkey ∧
            ¬ member (store_run st context'.sent) ks old := by
        intro c2 ho hn hk
        obtain ⟨k1, k2, k3⟩ := keyset_step st c2 context' ks old values.newkey hold hnew hksn
          hne hk
        exact ⟨by rw [k3 old (Ne.symm hks1)]; exact ho,
          by rw [k3 _ (Ne.symm hks2)]; exact hn, k1, k2⟩
      simp only [hkeyset] at h2
      cases hnv : values.newval with
      | none =>
        simp only [hnv] at h2
        exact key _ hold1 hnew1 h2
      | some nv =>
        simp only [hnv] at h2
        by_cases hsc : fmstate.table_type = .PG_REDIS_SCALAR_TABLE
        · simp only [hsc, if_true] at h2
          split at h2
          · rename_i c2 hc2
            obtain ⟨w1, w2⟩ := write_step st _ c2 values.newkey _ _ hnew
              (Or.inl ⟨nv, Or.inl rfl⟩) hc2
            refine key c2 ?_ w1 h2
            rw [w2 old hne]
            exact hold1
          · cases h2
          · cases h2
          · cases h2
        · simp only [hsc, if_false] at h2
          exact key _ hold1 hnew1 h2

theorem update_synced (st : Store) (fmstate : RedisFdwModifyState) (context : redisContext)
    (old ks : Str) (slot : List Datum) (values : UpdateValues)
    (hctx : fmstate.context = some context)
    (hsingle : fmstate.singleton_key = none)
    (hkeyset : fmstate.keyset = some ks)
    (hvalues : update_values_loop fmstate slot fmstate.target_attrs ⟨old, none, none⟩
      = .ok values)
    (hold : NUL ∉ old) (hnew : NUL ∉ values.newkey) (hksn : NUL ∉ ks)
    (hks1 : ks ≠ old) (hks2 : ks ≠ values.newkey)
    (hexists : values.newkey = old → store_get (store_run st context.sent) old ≠ none)
    (hsync : synced (store_run st context.sent) ks old) :
    ∀ context', redisExecForeignUpdate (store_server st) fmstate (.text old) slot
        = .ok context' →
      synced (store_run st context'.sent) ks old ∧
        synced (store_run st context'.sent) ks values.newkey := by
  intro context' h
  have hvalid := update_values_array_valid fmstate slot _ _ _ hvalues
    (fun a ha => by simp at ha)
  unfold redisExecForeignUpdate at h
  simp only [hctx, OutputFunctionCall, hvalues] at h
  split at h
  · rename_i c1 hc1
    obtain ⟨t1, t2⟩ := update_tail_store st fmstate c1 context' values.newkey
      values.array_vals hnew hvalid h
    by_cases hne : old = values.newkey
    · have hbefore := hexists hne.symm
      have hmem := hsync.2 hbefore
      rw [← hne] at t1 t2 ⊢
      simp only [hne, ne_eq, not_true_eq_false, if_false] at hc1
      have hmid : store_get (store_run st c1.sent) old ≠ none ∧
          store_get (store_run st c1.sent) ks = store_get (store_run st context.sent) ks := by
        cases hnv : values.newval with
        | none =>
          simp only [hnv, Result.ok.injEq] at hc1
          subst hc1
          exact ⟨hbefore, rfl⟩
        | some nv =>
          simp only [hnv, update_set_value, hsingle] at hc1
          rw [← hne] at hc1
          obtain ⟨w1, w2⟩ := write_step st _ c1 old _ _ hold (Or.inl ⟨nv, Or.inl rfl⟩) hc1
          exact ⟨w1, w2 ks hks1⟩
      have hafter : synced (store_run st context'.sent) ks old := by
        constructor
        · intro _
          exact t1 hmid.1
        · intro _
          exact (member_congr _ _ ks old ((t2 ks hks1).trans hmid.2)).2 hmem
      exact ⟨hafter, hafter⟩
    · simp only [ne_eq, hne, not_false_eq_true, if_true, hsingle] at hc1
      split at hc1
      · rename_i c0 hc0
        obtain ⟨r1, r2, r3, r4⟩ := update_rename_scoped_store st fmstate c0 c1 old ks values
          hkeyset hold hnew hksn hne hks1 hks2 hc1
        have hm := member_congr _ _ ks old (t2 ks hks2)
        have hm' := member_congr _ _ ks values.newkey (t2 ks hks2)
        constructor
        · constructor
          · intro hmem
            exact absurd (hm.1 hmem) r4
          · intro hex
            rw [t2 old hne] at hex
            exact absurd r1 hex
        · constructor
          · intro _
            exact t1 r2
          · intro _
            exact hm'.2 r3
      · cases hc1
      · cases hc1
      · cases hc1
  · cases h
  · cases h
  · cases h

theorem synced_of_present (s : Store) (ks k : Str) (m : List Str)
    (hks : store_get s ks = some (.set m)) (hm : k ∈ m) (hk : store_get s k ≠ none) :
    synced s ks k :=
  ⟨fun _ => hk, fun _ => ⟨m, hks, hm⟩⟩

theorem synced_of_absent (s : Store) (ks k : Str)
    (hks : store_get s ks = none) (hk : store_get s k = none) :
    synced s ks k := by
  constructor
  · rintro ⟨m, hm, _⟩
    rw [hks] at hm
    cases hm
  · intro h
    exact absurd hk h

theorem synced_of_not_member (s : Store) (ks k : Str) (m : List Str)
    (hks : store_get s ks = some (.set m)) (hm : k ∉ m) (hk : store_get s k = none) :
    synced s ks k := by
  constructor
  · rintro ⟨m', hm', hmem⟩
    rw [hks] at hm'
    cases hm'
    exact absurd hmem hm
  · intro h
    exact absurd hk h

/-- C21, as stated: on the empty store, the key `k` is neither in the key set `ks` nor
in the store, so it is in the key set exactly when it exists; the update of the value
column of the row of `k` in a scalar table with the key set `ks` succeeds, having sent
`SET k v` only; and afterwards `k` exists and is not in the key set. -/
theorem update_absent_key_unregistered :
    synced (store_run [] demo_context.sent) "ks".data "k".data ∧
      redisExecForeignUpdate (store_server [])
          { demo_fmstate .PG_REDIS_SCALAR_TABLE (some "ks".data) with target_attrs := [2] }
          (.text "k".data) [.text "k".data, .text "v".data]
        = .ok ⟨false, [⟨"SELECT %d", [.d 0]⟩, ⟨"SET %s %s", [.s "k".data, .s "v".data]⟩],
            false⟩ ∧
      store_run [] [⟨"SELECT %d", [.d 0]⟩, ⟨"SET %s %s", [.s "k".data, .s "v".data]⟩]
        = [("k".data, .string "v".data)] ∧
      ¬ synced (store_run [] [⟨"SELECT %d", [.d 0]⟩,
          ⟨"SET %s %s", [.s "k".data, .s "v".data]⟩]) "ks".data "k".data := by
  refine ⟨synced_of_absent _ _ _ rfl rfl, rfl, rfl, ?_⟩
  intro h
  obtain ⟨m, hm, _⟩ := h.2 (by decide)
  have hnone : store_get (store_run [] [⟨"SELECT %d", [.d 0]⟩,
      ⟨"SET %s %s", [.s "k".data, .s "v".data]⟩]) "ks".data = none := rfl
  rw [hnone] at hm
  cases hm

/-- C21, amended: against the store with the standard semantics, on a table that is not
a singleton and has the key set `ks`, a key without NUL that the touched keys differ
from: if the key of the row is in the key set exactly when it exists, it is so again
after every `redisExecForeignInsert` that succeeds, and after every
`redisExecForeignDelete` that succeeds; and if the old key and the new key of an update
are each in the key set exactly when they exist, and the old key exists when the update
leaves the key as it is, both are so again after every `redisExecForeignUpdate`
that succeeds. -/
theorem keyset_synchronized (st : Store) (fmstate : RedisFdwModifyState)
    (context : redisContext) (ks : Str)
    (hctx : fmstate.context = some context)
    (hsingle : fmstate.singleton_key = none)
    (hkeyset : fmstate.keyset = some ks)
    (hksn : NUL ∉ ks) :
    (∀ (slot : List Datum) (k : Str) (context' : redisContext),
        slot_getattr slot 1 = .text k → NUL ∉ k → ks ≠ k →
        synced (store_run st context.sent) ks k →
        redisExecForeignInsert (store_server st) fmstate slot = .ok context' →
        synced (store_run st context'.sent) ks k) ∧
      (∀ (old : Str) (slot : List Datum) (values : UpdateValues) (context' : redisContext),
        update_values_loop fmstate slot fmstate.target_attrs ⟨old, none, none⟩ = .ok values →
        NUL ∉ old → NUL ∉ values.newkey → ks ≠ old → ks ≠ values.newkey →
        synced (store_run st context.sent) ks old →
        synced (store_run st context.sent) ks values.newkey →
        (values.newkey = old → store_get (store_run st context.sent) old ≠ none) →
        redisExecForeignUpdate (store_server st) fmstate (.text old) slot = .ok context' →
        synced (store_run st context'.sent) ks old ∧
          synced (store_run st context'.sent) ks values.newkey) ∧
      (∀ (k : Str) (context' : redisContext),
        NUL ∉ k → ks ≠ k →
        synced (store_run st context.sent) ks k →
        redisExecForeignDelete (store_server st) fmstate (.text k) = .ok context' →
        synced (store_run st context'.sent) ks k) := by
  refine ⟨?_, ?_, ?_⟩
  · intro slot k context' hkey hk hne _ h
    obtain ⟨h1, h2⟩ := insert_synced st fmstate context slot k ks hctx hsingle hkeyset hkey
      hk hksn hne context' h
    exact ⟨fun _ => h1, fun _ => h2⟩
  · intro old slot values context' hvalues hold hnew hks1 hks2 hsync _ hexists h
    exact update_synced st fmstate context old ks slot values hctx hsingle hkeyset hvalues
      hold hnew hksn hks1 hks2 hexists hsync context' h
  · intro k context' hk hne _ h
    obtain ⟨h1, h2⟩ := delete_synced st fmstate context k ks hctx hsingle hkeyset hk hksn hne
      context' h
    exact ⟨fun hm => absurd hm h2, fun he => absurd h1 he⟩

theorem keyset_synchronized_witness :
    redisExecForeignUpdate (store_server demo_store) demo_rename_fmstate (.text "old".data)
        [.text "new".data]
      = .ok ⟨false, [⟨"SELECT %d", [.d 0]⟩, ⟨"EXISTS %s", [.s "new".data]⟩,
          ⟨"RENAME %s %s", [.s "old".data, .s "new".data]⟩,
          ⟨"SREM %s %s", [.s "ks".data, .s "old".data]⟩,
          ⟨"SADD %s %s", [.s "ks".data, .s "new".data]⟩], false⟩ ∧
      synced (store_run demo_store [⟨"SELECT %d", [.d 0]⟩, ⟨"EXISTS %s", [.s "new".data]⟩,
          ⟨"RENAME %s %s", [.s "old".data, .s "new".data]⟩,
          ⟨"SREM %s %s", [.s "ks".data, .s "old".data]⟩,
          ⟨"SADD %s %s", [.s "ks".data, .s "new".data]⟩]) "ks".data "old".data ∧
      synced (store_run demo_store [⟨"SELECT %d", [.d 0]⟩, ⟨"EXISTS %s", [.s "new".data]⟩,
          ⟨"RENAME %s %s", [.s "old".data, .s "new".data]⟩,
          ⟨"SREM %s %s", [.s "ks".data, .s "old".data]⟩,
          ⟨"SADD %s %s", [.s "ks".data, .s "new".data]⟩]) "ks".data "new".data :=
  ⟨rfl,
    (keyset_synchronized demo_store demo_rename_fmstate demo_context "ks".data rfl rfl rfl
      (by decide)).2.1 "old".data [.text "new".data] ⟨"new".data, none, none⟩
      ⟨false, [⟨"SELECT %d", [.d 0]⟩, ⟨"EXISTS %s", [.s "new".data]⟩,
          ⟨"RENAME %s %s", [.s "old".data, .s "new".data]⟩,
          ⟨"SREM %s %s", [.s "ks".data, .s "old".data]⟩,
          ⟨"SADD %s %s", [.s "ks".data, .s "new".data]⟩], false⟩
      rfl (by decide) (by decide) (by decide) (by decide)
      (synced_of_present _ _ _ ["old".data] rfl (by decide) (by decide))
      (synced_of_not_member _ _ _ ["old".data] rfl (by decide) rfl)
      (by decide) rfl⟩

/-! ## The scan of a list table on the store -/

end RedisFdw
